import Mathlib

/-! Home security system: detection and risk state engine.

A shallow embedding of the backend of the repository (`src/backend`):

* `database/init.js`      the collections (`Event`, `KnownFace`, `UnknownFace`, `Setting`);
* `services/riskEngine.js` `calculateRiskScore`, `updateRiskScore`, `analyzeVisitorPattern`;
* `services/simulator.js` `simulateEvent` and the tick of `startEventSimulation`;
* `routes/detection.js`   `POST /detect`, `POST /motion`, `POST /clear-motion`,
  `POST /unknown-with-image`, `POST /unknown/:id/approve`;
* `routes/faces.js`       `POST /recognize`, `DELETE /:id`;
* `routes/system.js`      `POST /settings`, `GET /house-state`;
* `services/telegram.js`  the bot command `/addunknown`.

Conventions of the embedding.

* A collection is a list of documents in insertion order; `_id` is a natural number drawn
  from a counter of the database.
* A `Date` is its number of milliseconds since the epoch (an integer).
* A JavaScript number inside a face descriptor is a rational; arithmetic on descriptors is
  exact (rounding of IEEE doubles is not part of the model).
* One request handler is one function from the database before the request to the database
  after it and the response; failures of the database driver itself are not modelled.
-/

namespace HomeSecurity

/-! ## Data model (`database/init.js`) -/

/-- A document of the `Event` collection (`eventSchema`). `type` is a required string,
`riskLevel` defaults to `'low'`, the other fields may be absent. -/
structure Event where
  id : Nat
  type : String
  room : Option String
  personName : Option String
  personId : Option Nat
  riskLevel : String
  description : Option String
  imagePath : Option String
  timestamp : Int
deriving DecidableEq, Repr

/-- A document of the `KnownFace` collection (`knownFaceSchema`); the bookkeeping dates
`addedAt`, `createdAt`, `detectedAt` and the free-text `notes` are left out. -/
structure KnownFace where
  id : Nat
  name : String
  category : String
  imagePath : Option String
  faceDescriptor : Option (List ℚ)
  visitCount : Nat
  lastSeen : Option Int
  accessAllowed : Bool
  approved : Bool
deriving DecidableEq, Repr

/-- A document of the `UnknownFace` collection (`unknownFaceSchema`). -/
structure UnknownFace where
  id : Nat
  faceDescriptor : Option (List ℚ)
  imagePath : Option String
  firstSeen : Int
  lastSeen : Int
  detectionCount : Nat
  alertSent : Bool
  status : String
deriving DecidableEq, Repr

/-- A document of the `Setting` collection (`settingSchema`). -/
structure Setting where
  key : String
  value : String
deriving DecidableEq, Repr

/-- The four collections the engine reads and writes, and the source of fresh `_id`s. -/
structure Db where
  events : List Event
  knownFaces : List KnownFace
  unknownFaces : List UnknownFace
  settings : List Setting
  nextId : Nat
deriving DecidableEq, Repr

/-- The database right after start-up with no documents. -/
def Db.empty : Db :=
  { events := [], knownFaces := [], unknownFaces := [], settings := [], nextId := 0 }

/-- Models `Setting.findOneAndUpdate({ key }, { key, value }, { upsert: true })`: the first
document with this key gets the value; when there is none, one is inserted. -/
def upsertSetting (key value : String) : List Setting → List Setting
  | [] => [{ key := key, value := value }]
  | s :: rest =>
    if s.key = key then { s with value := value } :: rest
    else s :: upsertSetting key value rest

/-- Models `Setting.findOne({ key })`. -/
def findSetting (key : String) (settings : List Setting) : Option Setting :=
  settings.find? (fun s => s.key = key)

/-- Models `Event.create(data)`: the event gets a fresh `_id` and is appended to the collection. -/
def createEvent (db : Db) (mk : Nat → Event) : Db :=
  { db with events := db.events ++ [mk db.nextId], nextId := db.nextId + 1 }

/-! ## Risk scorer (`services/riskEngine.js`) -/

/-- The `factors` object of the risk snapshot. -/
structure RiskFactors where
  highRiskEvents : Nat
  mediumRiskEvents : Nat
  unknownFaces : Nat
  nightTime : Bool
deriving DecidableEq, Repr

/-- The object `calculateRiskScore` returns. -/
structure RiskResult where
  score : Nat
  level : String
  factors : RiskFactors
deriving DecidableEq, Repr

/-- Models `Event.find({ timestamp: { $gte: new Date(now - span) } })`. -/
def eventsSince (events : List Event) (now span : Int) : List Event :=
  events.filter (fun e => now - span ≤ e.timestamp)

/-- The test `hour >= 22 || hour <= 6` of the night bonus, on `new Date().getHours()`. -/
def isNightHour (hour : Nat) : Bool :=
  decide (hour ≥ 22) || decide (hour ≤ 6)

/-- Lines 10-36 of `calculateRiskScore`: the running `score` before `Math.min(100, score)`.
`now` is `Date.now()` and `hour` is `new Date().getHours()`. -/
def rawRiskScore (events : List Event) (now : Int) (hour : Nat) : Nat :=
  let recentEvents := eventsSince events now (60 * 60 * 1000)
  let score := 0
  let highRiskEvents := (recentEvents.filter (fun e => e.riskLevel = "high")).length
  let mediumRiskEvents := (recentEvents.filter (fun e => e.riskLevel = "medium")).length
  let unknownFaces := (recentEvents.filter (fun e => e.type = "unknown_face")).length
  let score := score + highRiskEvents * 20
  let score := score + mediumRiskEvents * 10
  let score := score + unknownFaces * 15
  let unknownInShortTime :=
    (events.filter (fun e => e.type = "unknown_face" ∧ now - 10 * 60 * 1000 ≤ e.timestamp)).length
  let score := if unknownInShortTime > 2 then score + 30 else score
  let score := if isNightHour hour then score + 10 else score
  score

/-- The level expression `score > 70 ? 'high' : score > 40 ? 'medium' : 'low'`. -/
def riskLevelOf (score : Nat) : String :=
  if score > 70 then "high" else if score > 40 then "medium" else "low"

/-- Models `calculateRiskScore()`: the score is capped at 100, written to the `risk_score` setting
and returned with its level and factors. -/
def calculateRiskScore (db : Db) (now : Int) (hour : Nat) : Db × RiskResult :=
  let recentEvents := eventsSince db.events now (60 * 60 * 1000)
  let score := min 100 (rawRiskScore db.events now hour)
  ({ db with settings := upsertSetting "risk_score" (toString score) db.settings },
   { score := score
     level := riskLevelOf score
     factors :=
      { highRiskEvents := (recentEvents.filter (fun e => e.riskLevel = "high")).length
        mediumRiskEvents := (recentEvents.filter (fun e => e.riskLevel = "medium")).length
        unknownFaces := (recentEvents.filter (fun e => e.type = "unknown_face")).length
        nightTime := isNightHour hour } })

/-- Number of events of the log that satisfy `p` and lie in the window of `span`
milliseconds that ends at `now`. -/
def countInWindow (events : List Event) (now span : Int) (p : Event → Bool) : Nat :=
  events.countP (fun e => decide (now - span ≤ e.timestamp) && p e)

/-! ## Descriptors (`euclideanDistance` in `routes/faces.js` and `routes/detection.js`) -/

/-- JavaScript truthiness of an optional string: absent and `''` are falsy. -/
def truthy (s : Option String) : Bool :=
  match s with
  | none => false
  | some t => decide (t ≠ "")

/-- The variable `sum` at the end of the loop of `euclideanDistance(desc1, desc2)`:
the sum of `Math.pow(desc1[i] - desc2[i], 2)` over the indices of `desc1`. When `desc2`
is shorter, `desc2[i]` is `undefined` and the sum is `NaN`, here `none`. -/
def sumSquares : List ℚ → List ℚ → Option ℚ
  | [], _ => some 0
  | _ :: _, [] => none
  | x :: xs, y :: ys => (sumSquares xs ys).map (fun s => (x - y) ^ 2 + s)

/-- Models `euclideanDistance(desc1, desc2) = Math.sqrt(sum)` as a real number; `none` is `NaN`.
The handlers below compare distances through their squares, which are rational. -/
noncomputable def euclideanDistance (desc1 desc2 : List ℚ) : Option ℝ :=
  (sumSquares desc1 desc2).map (fun (s : ℚ) => Real.sqrt (s : ℝ))

/-- The square of `RECOGNITION_THRESHOLD = 0.6` (and of the literal `0.6` of the
deduplicator). -/
def thresholdSq : ℚ := 9 / 25

/-- The test `distance < 0.6` on `distance = Math.sqrt(sum)`, decided on `sum`:
`Math.sqrt(sum) < 0.6` holds exactly when `sum < 0.36`, and no comparison with `NaN`
holds. -/
def withinThreshold (sum : Option ℚ) : Bool :=
  match sum with
  | none => false
  | some s => decide (s < thresholdSq)

/-! ## Identity matcher (`POST /recognize`, `routes/faces.js`) -/

/-- The variables `bestMatch` and `bestDistance` of the matching loop. `bestSq` is the
square of `bestDistance`; `none` is the initial `Infinity`. -/
structure BestMatch where
  bestMatch : Option KnownFace
  bestSq : Option ℚ
deriving DecidableEq, Repr

/-- The test `distance < bestDistance` on squares; everything is below `Infinity`. -/
def belowBest (s : ℚ) (bestSq : Option ℚ) : Bool :=
  match bestSq with
  | none => true
  | some b => decide (s < b)

/-- One iteration of `for (const known of knownFaces)` in `/recognize`. -/
def matchStep (faceDescriptor : List ℚ) (acc : BestMatch) (known : KnownFace) : BestMatch :=
  match known.faceDescriptor with
  | none => acc
  | some kd =>
    if kd.length ≠ faceDescriptor.length then acc
    else
      match sumSquares faceDescriptor kd with
      | none => acc
      | some s =>
        if belowBest s acc.bestSq && decide (s < thresholdSq) then
          { bestMatch := some known, bestSq := some s }
        else acc

/-- The whole matching loop, from `bestMatch = null`, `bestDistance = Infinity`. -/
def findBestMatch (faceDescriptor : List ℚ) (knownFaces : List KnownFace) : BestMatch :=
  knownFaces.foldl (matchStep faceDescriptor) { bestMatch := none, bestSq := none }

/-- The responses of `POST /recognize`. A distance is carried as its square:
`recognized person sq` stands for `{ recognized: true, person, distance: √sq,
confidence: 1 - √sq }` and `noMatch best` for `{ recognized: false, bestDistance }`
with `none` for `Infinity`. -/
inductive RecognizeResponse where
  | descriptorRequired
  | noKnownFaces
  | recognized (person : KnownFace) (distanceSq : Option ℚ)
  | noMatch (bestSq : Option ℚ)
deriving DecidableEq, Repr

/-- Models `KnownFace.findByIdAndUpdate(id, { $inc: { visitCount: 1 }, lastSeen: new Date() })`:
the first document with this `_id` is updated. -/
def recordVisit (id : Nat) (now : Int) : List KnownFace → List KnownFace
  | [] => []
  | k :: rest =>
    if k.id = id then { k with visitCount := k.visitCount + 1, lastSeen := some now } :: rest
    else k :: recordVisit id now rest

/-- The handler of `POST /recognize`. `faceDescriptor` is `none` when the body has no
descriptor or one that is not an array. -/
def recognize (db : Db) (now : Int) (faceDescriptor : Option (List ℚ)) :
    Db × RecognizeResponse :=
  match faceDescriptor with
  | none => (db, .descriptorRequired)
  | some d =>
    let knownFaces := db.knownFaces.filter (fun k => k.faceDescriptor.isSome)
    if knownFaces.length = 0 then (db, .noKnownFaces)
    else
      let best := findBestMatch d knownFaces
      match best.bestMatch with
      | some person =>
        ({ db with knownFaces := recordVisit person.id now db.knownFaces },
         .recognized person best.bestSq)
      | none => (db, .noMatch best.bestSq)

/-- The person of a response that says `recognized: true`. -/
def RecognizeResponse.person? : RecognizeResponse → Option KnownFace
  | .recognized person _ => some person
  | _ => none

/-- The field `confidence: 1 - bestDistance` of a positive response, when it is finite. -/
noncomputable def RecognizeResponse.confidence : RecognizeResponse → Option ℝ
  | .recognized _ (some sq) => some (1 - Real.sqrt (sq : ℝ))
  | _ => none

/-! ## Unknown-sighting deduplicator (`POST /unknown-with-image`, `routes/detection.js`) -/

/-- The JSON body of the responses of `POST /unknown-with-image`. -/
structure UnknownResponse where
  success : Bool
  isNewUnknown : Bool
  unknownId : Nat
  detectionCount : Option Nat
  event : Option Event
  alertSent : Bool
  imageSent : Bool
deriving DecidableEq, Repr

/-- The condition under which the scan over the pending records stops at `unknown`:
it has a descriptor of the length of `descriptor` at distance below `0.6`. -/
def sameUnknown (descriptor : List ℚ) (unknown : UnknownFace) : Bool :=
  match unknown.faceDescriptor with
  | none => false
  | some ud =>
    decide (ud.length = descriptor.length) && withinThreshold (sumSquares descriptor ud)

/-- The loop over `UnknownFace.find({ status: 'pending' })`: the first pending record that
is the same unknown person, if any. -/
def findPending (descriptor : List ℚ) (unknownFaces : List UnknownFace) : Option UnknownFace :=
  (unknownFaces.filter (fun u => u.status = "pending")).find? (sameUnknown descriptor)

/-- Models `unknownPerson.lastSeen = new Date(); unknownPerson.detectionCount += 1;
unknownPerson.save()`: the document with this `_id` is written back. -/
def bumpDetection (id : Nat) (now : Int) : List UnknownFace → List UnknownFace
  | [] => []
  | u :: rest =>
    if u.id = id then { u with lastSeen := now, detectionCount := u.detectionCount + 1 } :: rest
    else u :: bumpDetection id now rest

/-- The white space `parseInt` skips at the start of its argument (code points). -/
def isStrWhiteSpace (c : Char) : Bool :=
  decide (c.toNat ∈ [9, 10, 11, 12, 13, 32, 160, 5760, 8232, 8233, 8239, 8287, 12288, 65279]) ||
  (decide (8192 ≤ c.toNat) && decide (c.toNat ≤ 8202))

/-- The value of `c` as a digit of the given radix, if it is one. -/
def digitValue (radix : Nat) (c : Char) : Option Nat :=
  let v : Option Nat :=
    if 48 ≤ c.toNat ∧ c.toNat ≤ 57 then some (c.toNat - 48)
    else if 97 ≤ c.toNat ∧ c.toNat ≤ 122 then some (c.toNat - 87)
    else if 65 ≤ c.toNat ∧ c.toNat ≤ 90 then some (c.toNat - 55)
    else none
  v.filter (fun d => decide (d < radix))

/-- The digits of the longest prefix of the text made of digits of the radix. -/
def readDigits (radix : Nat) : List Char → List Nat
  | [] => []
  | c :: cs =>
    match digitValue radix c with
    | some d => d :: readDigits radix cs
    | none => []

/-- Models `parseInt(text)` without a radix: leading white space, a sign, an optional `0x`, then
the longest run of digits; `none` is `NaN`. Numbers are exact integers. -/
def parseInt (text : String) : Option Int :=
  let cs := text.toList.dropWhile isStrWhiteSpace
  let signed : Bool × List Char :=
    match cs with
    | c :: rest => if c = '-' then (true, rest) else if c = '+' then (false, rest) else (false, cs)
    | [] => (false, cs)
  let based : Nat × List Char :=
    match signed.2 with
    | c0 :: c1 :: rest =>
      if c0 = '0' ∧ (c1 = 'x' ∨ c1 = 'X') then (16, rest) else (10, signed.2)
    | _ => (10, signed.2)
  match readDigits based.1 based.2 with
  | [] => none
  | ds =>
    let n : Int := (ds.foldl (fun acc d => acc * based.1 + d) 0 : Nat)
    some (if signed.1 then -n else n)

/-- Models `String(Math.min(100, parseInt(currentRisk?.value || 0) + increase))`: a missing
setting and an empty value read as `0`, and `NaN` stays `NaN`. -/
def raisedScore (currentRisk : Option Setting) (increase : Nat) : String :=
  let parsed : Option Int :=
    match currentRisk with
    | none => some 0
    | some st => if st.value = "" then some 0 else parseInt st.value
  match parsed with
  | none => "NaN"
  | some n => toString (min 100 (n + increase))

/-- The update of the `risk_score` setting in the detection routes: read it, add
`increase`, cap at 100 and write it back with
`Setting.findOneAndUpdate({ key }, { value }, { upsert: true })`. -/
def bumpRiskScore (increase : Nat) (settings : List Setting) : List Setting :=
  upsertSetting "risk_score" (raisedScore (findSetting "risk_score" settings) increase) settings

/-- The handler of `POST /unknown-with-image`. `descriptor` is the parsed `faceDescriptor`
of the body (`none` when it is missing, falsy or not parseable), `imagePath` the path of the
uploaded file, if any. -/
def unknownWithImage (db : Db) (now : Int) (room personName imagePath : Option String)
    (descriptor : Option (List ℚ)) : Db × UnknownResponse :=
  let unknownPerson : Option UnknownFace :=
    match descriptor with
    | none => none
    | some d => findPending d db.unknownFaces
  match unknownPerson with
  | some u =>
    ({ db with unknownFaces := bumpDetection u.id now db.unknownFaces },
     { success := true
       isNewUnknown := false
       unknownId := u.id
       detectionCount := some (u.detectionCount + 1)
       event := none
       alertSent := false
       imageSent := false })
  | none =>
    let created : UnknownFace :=
      { id := db.nextId
        faceDescriptor := descriptor
        imagePath := imagePath
        firstSeen := now
        lastSeen := now
        detectionCount := 1
        alertSent := true
        status := "pending" }
    let event : Event :=
      { id := db.nextId + 1
        type := "unknown_face"
        room := some (if truthy room then room.getD "" else "camera_feed")
        personName := some (if truthy personName then personName.getD "" else "Unknown Person")
        personId := none
        riskLevel := "high"
        description := some ("⚠️ NEW unknown person detected on live camera in "
          ++ (if truthy room then room.getD "" else "camera feed"))
        imagePath := imagePath
        timestamp := now }
    ({ db with
        unknownFaces := db.unknownFaces ++ [created]
        settings := bumpRiskScore 30 db.settings
        events := db.events ++ [event]
        nextId := db.nextId + 2 },
     { success := true
       isNewUnknown := true
       unknownId := created.id
       detectionCount := none
       event := some event
       alertSent := true
       imageSent := imagePath.isSome })

/-! ## Approval workflow (`POST /unknown/:id/approve`, bot command `/addunknown`) -/

/-- The outcomes of an approval: `404 Unknown face not found`, `500` (the new document
fails validation) or success with the created identity. -/
inductive ApproveResponse where
  | notFound
  | failed
  | success (knownFace : KnownFace)
deriving DecidableEq, Repr

/-- Models `unknownFace.status = 'approved'; unknownFace.save()`. -/
def markApproved (id : Nat) : List UnknownFace → List UnknownFace
  | [] => []
  | u :: rest =>
    if u.id = id then { u with status := "approved" } :: rest
    else u :: markApproved id rest

/-- The steps the two approval handlers share: look the pending sighting up by `_id`,
create the identity from it, mark the sighting approved, log a `face_added` event with the
given description. `name` is required by the `KnownFace` schema, so creation throws on a
missing or empty name. -/
def approveWith (db : Db) (now : Int) (id : Nat) (name : Option String) (category : String)
    (describe : String → String) : Db × ApproveResponse :=
  match db.unknownFaces.find? (fun u => u.id = id) with
  | none => (db, .notFound)
  | some unknownFace =>
    if !truthy name then (db, .failed)
    else
      let n := name.getD ""
      let knownFace : KnownFace :=
        { id := db.nextId
          name := n
          category := category
          imagePath := unknownFace.imagePath
          faceDescriptor := unknownFace.faceDescriptor
          visitCount := 0
          lastSeen := none
          accessAllowed := true
          approved := true }
      let event : Event :=
        { id := db.nextId + 1
          type := "face_added"
          room := none
          personName := some n
          personId := none
          riskLevel := "low"
          description := some (describe n)
          imagePath := none
          timestamp := now }
      ({ db with
          knownFaces := db.knownFaces ++ [knownFace]
          unknownFaces := markApproved id db.unknownFaces
          events := db.events ++ [event]
          nextId := db.nextId + 2 },
       .success knownFace)

/-- The handler of `POST /unknown/:id/approve` in `routes/detection.js`. -/
def approveUnknown (db : Db) (now : Int) (id : Nat) (name category : Option String) :
    Db × ApproveResponse :=
  approveWith db now id name (if truthy category then category.getD "" else "guest")
    (fun n => n ++ " added from unknown faces")

/-- The handler of the bot command `/addunknown <id> <name>` in `services/telegram.js`;
the pattern `(.+)` makes the name non-empty. -/
def addUnknown (db : Db) (now : Int) (unknownId : Nat) (name : String) :
    Db × ApproveResponse :=
  approveWith db now unknownId (some name) "guest" (fun n => n ++ " added via Telegram")

/-! ## Identity deletion (`DELETE /:id`, `routes/faces.js`) -/

/-- The outcomes of `DELETE /faces/:id`. -/
inductive DeleteResponse where
  | notFound
  | success (message : String)
deriving DecidableEq, Repr

/-- Models `KnownFace.findByIdAndDelete(id)`: the first document with this `_id` is removed. -/
def deleteById (id : Nat) : List KnownFace → List KnownFace
  | [] => []
  | k :: rest => if k.id = id then rest else k :: deleteById id rest

/-- The update of `Event.updateMany({ personId: id }, { $unset: { personId, personName } })`
on one event. -/
def scrubEvent (id : Nat) (e : Event) : Event :=
  if e.personId = some id then { e with personId := none, personName := none } else e

/-- The handler of `DELETE /faces/:id` (the removal of the image file is not modelled). -/
def deleteFace (db : Db) (now : Int) (id : Nat) : Db × DeleteResponse :=
  match db.knownFaces.find? (fun k => k.id = id) with
  | none => (db, .notFound)
  | some face =>
    let personName := face.name
    let event : Event :=
      { id := db.nextId
        type := "system"
        room := none
        personName := none
        personId := none
        riskLevel := "low"
        description := some (personName ++ " removed from known faces")
        imagePath := none
        timestamp := now }
    ({ db with
        knownFaces := deleteById id db.knownFaces
        events := db.events.map (scrubEvent id) ++ [event]
        nextId := db.nextId + 1 },
     .success (personName ++ " deleted successfully"))

/-! ## Room state projector (`GET /house-state`, `routes/system.js`) -/

/-- One entry of the `rooms` object of the response: `motion`, the access point of the
room with its state (`door`, `window` or `gate`, always `'closed'`) and `people`. -/
structure RoomView where
  motion : Bool
  accessPoint : String × String
  people : List String
deriving DecidableEq, Repr

/-- The literal `rooms` the handler starts from. -/
def initialRooms : List (String × RoomView) :=
  [("hall", { motion := false, accessPoint := ("door", "closed"), people := [] }),
   ("kitchen", { motion := false, accessPoint := ("window", "closed"), people := [] }),
   ("bedroom", { motion := false, accessPoint := ("door", "closed"), people := [] }),
   ("garden", { motion := false, accessPoint := ("gate", "closed"), people := [] }),
   ("living_room", { motion := false, accessPoint := ("window", "closed"), people := [] })]

/-- The five own keys of `rooms`. -/
def roomNames : List String :=
  initialRooms.map Prod.fst

/-- An entry of `roomStates`; `people` is the `Set` in insertion order. -/
structure RoomState where
  hasMotion : Bool
  people : List String
  lastEventType : Option String
deriving DecidableEq, Repr

/-- The object `{ hasMotion: false, people: new Set(), lastEventType: null }`. -/
def RoomState.initial : RoomState :=
  { hasMotion := false, people := [], lastEventType := none }

/-- Models `Set.prototype.add` on a set kept in insertion order. -/
def setAdd (people : List String) (name : String) : List String :=
  if name ∈ people then people else people ++ [name]

/-- The body of the `forEach` callback (lines 129-152) on the state of the room of the
event, for a room that is an own key of `rooms`. -/
def RoomState.scan (roomState : RoomState) (event : Event) : RoomState :=
  let roomState :=
    if !truthy roomState.lastEventType then
      let roomState := { roomState with lastEventType := some event.type }
      if event.type = "motion_cleared" ∨ event.type = "evacuation" then
        { roomState with hasMotion := false, people := [] }
      else if event.type = "motion" then
        { roomState with hasMotion := true }
      else roomState
    else roomState
  if truthy event.personName ∧
      event.type ≠ "evacuation" ∧
      event.type ≠ "motion_cleared" ∧
      roomState.lastEventType ≠ some "motion_cleared" ∧
      roomState.lastEventType ≠ some "evacuation" then
    { roomState with people := setAdd roomState.people (event.personName.getD "") }
  else roomState

/-- The property names every plain object inherits from `Object.prototype`. The lookups
`rooms[event.room]` and `roomStates[event.room]` go through the prototype chain, so for
these names they find a built-in object (a function, or `Object.prototype` itself for
`__proto__`) instead of `undefined`. -/
def objectPrototypeKeys : List String :=
  ["constructor", "__defineGetter__", "__defineSetter__", "hasOwnProperty",
   "__lookupGetter__", "__lookupSetter__", "isPrototypeOf", "propertyIsEnumerable",
   "toString", "valueOf", "__proto__", "toLocaleString"]

/-- The part of the state of the built-in objects the handler can read or write:
`lastEventType` lists, for a name of `objectPrototypeKeys`, the own property
`lastEventType` of the object found under that name (under `__proto__` it is
`Object.prototype.lastEventType`), and `hasMotion` tells whether
`Object.prototype.hasMotion` is `true`. Both are empty in a process that has never
scanned an event with such a room name. -/
structure Intrinsics where
  lastEventType : List (String × String)
  hasMotion : Bool
deriving DecidableEq, Repr

/-- The built-in objects of a fresh process. -/
def Intrinsics.fresh : Intrinsics :=
  { lastEventType := [], hasMotion := false }

/-- The value of `Object.prototype.lastEventType`. -/
def Intrinsics.protoLastEventType (g : Intrinsics) : Option String :=
  g.lastEventType.lookup "__proto__"

/-- The value of `roomState.lastEventType` when `roomState` is the built-in value found
under `room`: its own property when there is one, else the one of `Object.prototype`. -/
def Intrinsics.lastEventTypeOf (g : Intrinsics) (room : String) : Option String :=
  if room ∈ objectPrototypeKeys then
    match g.lastEventType.lookup room with
    | some t => some t
    | none => g.protoLastEventType
  else g.protoLastEventType

/-- Whether `rooms[room]` is truthy for a `room` that is no own key of `rooms`: the name is
inherited from `Object.prototype`, be it built in or put there by an earlier scan. -/
def Intrinsics.inherited (g : Intrinsics) (room : String) : Bool :=
  decide (room ∈ objectPrototypeKeys) ||
  (decide (room = "lastEventType") && truthy g.protoLastEventType) ||
  (decide (room = "hasMotion") && g.hasMotion)

/-- The assignment `roomState.lastEventType = event.type` on the built-in object found
under `room`. -/
def Intrinsics.setLastEventType (g : Intrinsics) (room type : String) : Intrinsics :=
  { g with lastEventType := (room, type) :: g.lastEventType.filter (fun kv => kv.1 ≠ room) }

/-- The body of the `forEach` callback when `roomState` is a built-in value found through
the prototype chain. Such a value has no `people`, so `people.clear()` and `people.add()`
throw a `TypeError`; assigning a property to a primitive throws too (module code is
strict). -/
def inheritedScan (g : Intrinsics) (room : String) (event : Event) : Except String Intrinsics :=
  let written : Except String Intrinsics :=
    if !truthy (g.lastEventTypeOf room) then
      if room ∉ objectPrototypeKeys then
        .error "TypeError: cannot create property lastEventType"
      else
        let g := g.setLastEventType room event.type
        if event.type = "motion_cleared" ∨ event.type = "evacuation" then
          .error "TypeError: cannot read properties of undefined (reading clear)"
        else if event.type = "motion" then
          .ok (if room = "__proto__" then { g with hasMotion := true } else g)
        else .ok g
    else .ok g
  match written with
  | .error message => .error message
  | .ok g =>
    if truthy event.personName ∧
        event.type ≠ "evacuation" ∧
        event.type ≠ "motion_cleared" ∧
        g.lastEventTypeOf room ≠ some "motion_cleared" ∧
        g.lastEventTypeOf room ≠ some "evacuation" then
      .error "TypeError: cannot read properties of undefined (reading add)"
    else .ok g

/-- The loop state of the handler: the own entries of `roomStates` and the built-in
objects. -/
structure Scan where
  roomStates : List (String × RoomState)
  intrinsics : Intrinsics
deriving DecidableEq, Repr

/-- The assignment `roomStates[room] = state` (the entry is then mutated in place). -/
def setRoomState (room : String) (state : RoomState) :
    List (String × RoomState) → List (String × RoomState)
  | [] => [(room, state)]
  | (k, v) :: rest =>
    if k = room then (k, state) :: rest else (k, v) :: setRoomState room state rest

/-- The entry `roomStates[room]` for a room of `roomNames`. -/
def getRoomState (room : String) : List (String × RoomState) → Option RoomState
  | [] => none
  | (k, v) :: rest => if k = room then some v else getRoomState room rest

/-- The callback of `recentEvents.forEach` (lines 118-154) on one event. -/
def processEvent (acc : Scan) (event : Event) : Except String Scan :=
  match event.room with
  | none => .ok acc
  | some room =>
    if room = "" then .ok acc
    else if room ∈ roomNames then
      let roomState := (getRoomState room acc.roomStates).getD RoomState.initial
      .ok { acc with roomStates := setRoomState room (roomState.scan event) acc.roomStates }
    else if acc.intrinsics.inherited room then
      match inheritedScan acc.intrinsics room event with
      | .error message => .error message
      | .ok g => .ok { acc with intrinsics := g }
    else .ok acc

/-- The loop `recentEvents.forEach(...)`; an exception ends it. -/
def scanEvents : Scan → List Event → Except String Scan
  | acc, [] => .ok acc
  | acc, event :: rest =>
    match processEvent acc event with
    | .error message => .error message
    | .ok acc => scanEvents acc rest

/-- Lines 156-167, "Apply room states": every room with an entry in `roomStates` gets its
people, and `motion` is set to `people.length > 0`. -/
def applyRoomStates (roomStates : List (String × RoomState)) : List (String × RoomView) :=
  initialRooms.map (fun entry =>
    match getRoomState entry.1 roomStates with
    | none => entry
    | some state =>
      (entry.1, { entry.2 with people := state.people, motion := decide (state.people.length > 0) }))

/-- Lines 106-169 of the handler of `GET /house-state` on the events of the window, newest
first, in a process whose built-in objects are in state `g`: the `rooms` of the response, or
the exception that turns the response into `500`. -/
def projectRooms (g : Intrinsics) (recentEvents : List Event) :
    Except String (List (String × RoomView)) :=
  match scanEvents { roomStates := [], intrinsics := g } recentEvents with
  | .error message => .error message
  | .ok acc => .ok (applyRoomStates acc.roomStates)

/-- The query `Event.find({ timestamp: { $gte: fiveMinutesAgo } }).sort({ timestamp: -1 })`;
events of equal timestamp keep their insertion order. -/
def recentEventsNewestFirst (events : List Event) (now : Int) : List Event :=
  (eventsSince events now (5 * 60 * 1000)).insertionSort (fun a b => a.timestamp ≥ b.timestamp)

/-- The handler of `GET /house-state`. -/
def houseState (g : Intrinsics) (db : Db) (now : Int) : Except String (List (String × RoomView)) :=
  projectRooms g (recentEventsNewestFirst db.events now)

/-- The view of `room` in the `rooms` of a response. -/
def roomView (rooms : List (String × RoomView)) (room : String) : Option RoomView :=
  (rooms.find? (fun entry => entry.1 = room)).map Prod.snd

/-- The events of the window that carry the room `room`, in the order of the window. -/
def eventsOfRoom (room : String) (recentEvents : List Event) : List Event :=
  recentEvents.filter (fun e => e.room = some room)

/-- The events of a room folded through `RoomState.scan` from the entry `roomStates[room]`
(`none` while the room has no entry). -/
def foldRoom : Option RoomState → List Event → Option RoomState
  | entry, [] => entry
  | entry, event :: rest => foldRoom (some ((entry.getD RoomState.initial).scan event)) rest

/-- Whether an event type is one of the two that clear a room. -/
def isClearing (type : String) : Bool :=
  decide (type = "motion_cleared") || decide (type = "evacuation")

/-- A log for examples: two high-risk events and one medium-risk event at time 0. -/
def sampleRiskLog : List Event :=
  [{ id := 0, type := "fire", room := some "hall", personName := none, personId := none,
     riskLevel := "high", description := none, imagePath := none, timestamp := 0 },
   { id := 1, type := "forced_entry", room := some "hall", personName := none, personId := none,
     riskLevel := "high", description := none, imagePath := none, timestamp := 0 },
   { id := 2, type := "power_failure", room := none, personName := none, personId := none,
     riskLevel := "medium", description := none, imagePath := none, timestamp := 0 }]

/-- The relation between two descriptors the matcher and the deduplicator test: `other` has
the dimensionality of `descriptor` and their Euclidean distance, a real number, is strictly
below `0.6`. -/
def NearDescriptor (descriptor other : List ℚ) : Prop :=
  other.length = descriptor.length ∧
    ∃ dist : ℝ, euclideanDistance descriptor other = some dist ∧ dist < 0.6

/-- A record of the `UnknownFace` collection that is pending and near `descriptor`. -/
def PendingMatch (descriptor : List ℚ) (u : UnknownFace) : Prop :=
  u.status = "pending" ∧ ∃ ud, u.faceDescriptor = some ud ∧ NearDescriptor descriptor ud

/-- A pending record for examples, with descriptor `[1, 2]`, seen once at time 5. -/
def samplePending : UnknownFace :=
  { id := 0, faceDescriptor := some [1, 2], imagePath := none, firstSeen := 5, lastSeen := 5,
    detectionCount := 1, alertSent := true, status := "pending" }

/-- Identity `k` is enrolled with a descriptor of the dimensionality of `d`, at Euclidean
distance `dist` (a real number) from `d`. -/
def EnrolledAt (d : List ℚ) (k : KnownFace) (dist : ℝ) : Prop :=
  ∃ kd, k.faceDescriptor = some kd ∧ kd.length = d.length ∧ euclideanDistance d kd = some dist

/-- Identity `k` is enrolled with a descriptor of the dimensionality of `d` whose squared
distance from `d` is `s`. -/
def Candidate (d : List ℚ) (k : KnownFace) (s : ℚ) : Prop :=
  ∃ kd, k.faceDescriptor = some kd ∧ kd.length = d.length ∧ sumSquares d kd = some s

/-- What the matching loop has established after the identities `l`: nothing below the
threshold so far, or the first identity of least distance among those of `l`. -/
def BestOf (d : List ℚ) (l : List KnownFace) (acc : BestMatch) : Prop :=
  (acc = { bestMatch := none, bestSq := none } ∧
      ∀ k ∈ l, ∀ s, Candidate d k s → ¬ s < thresholdSq) ∨
  (∃ p sq pre post, acc = { bestMatch := some p, bestSq := some sq } ∧ l = pre ++ p :: post ∧
      Candidate d p sq ∧ sq < thresholdSq ∧
      (∀ k ∈ l, ∀ s, Candidate d k s → sq ≤ s) ∧
      (∀ k ∈ pre, ∀ s, Candidate d k s → sq < s))

/-- An identity for examples: `Ann`, enrolled with descriptor `[0, 0]`. -/
def sampleAnn : KnownFace :=
  { id := 0, name := "Ann", category := "family", imagePath := none,
    faceDescriptor := some [0, 0], visitCount := 0, lastSeen := none, accessAllowed := true,
    approved := true }

/-- An identity for examples: `Bob`, enrolled with descriptor `[3/10, 0]`. -/
def sampleBob : KnownFace :=
  { id := 1, name := "Bob", category := "guest", imagePath := none,
    faceDescriptor := some [3 / 10, 0], visitCount := 0, lastSeen := none,
    accessAllowed := true, approved := true }

/-- A database for examples with the identities `Ann` and `Bob`, in this order. -/
def sampleFacesDb : Db :=
  { Db.empty with knownFaces := [sampleAnn, sampleBob], nextId := 2 }

/-- An event for examples: a sighting of the identity with `_id` 0 in the hall. -/
def sampleVisit (id : Nat) (timestamp : Int) : Event :=
  { id := id, type := "known_face", room := some "hall", personName := some "Ann",
    personId := some 0, riskLevel := "low", description := none, imagePath := none,
    timestamp := timestamp }

/-- A database for examples: the identity `Ann` and three events that refer to her. -/
def sampleVisitsDb : Db :=
  { Db.empty with
      knownFaces := [sampleAnn]
      events := [sampleVisit 1 10, sampleVisit 2 20, sampleVisit 3 30]
      nextId := 4 }

/-- A database for examples: one pending sighting and nothing else. -/
def samplePendingDb : Db :=
  { Db.empty with unknownFaces := [samplePending], nextId := 1 }

/-- Whether the room of the event, if it has one, is one of the five or else a name that
`rooms` does not have through the prototype chain either. -/
def plainRoom (g : Intrinsics) (e : Event) : Bool :=
  match e.room with
  | none => true
  | some room => decide (room ∈ roomNames) || !g.inherited room

/-- No event of the window names a room that `rooms` only has through the prototype
chain. -/
def PlainRooms (g : Intrinsics) (recentEvents : List Event) : Prop :=
  ∀ e ∈ recentEvents, plainRoom g e = true

/-- An event for examples with the given type, room, person and time. -/
def sampleEvent (id : Nat) (type room : String) (personName : Option String)
    (timestamp : Int) : Event :=
  { id := id, type := type, room := some room, personName := personName, personId := none,
    riskLevel := "low", description := none, imagePath := none, timestamp := timestamp }

/-- A window for examples, newest first: `Alice` is seen in the hall, the hall is cleared,
then `Alice` is recognised there again. -/
def sampleReturnWindow : List Event :=
  [sampleEvent 3 "known_face" "hall" (some "Alice") 30,
   sampleEvent 2 "motion_cleared" "hall" none 20,
   sampleEvent 1 "detection" "hall" (some "Alice") 10]

/-- A window for examples, newest first: `Bob` is seen in the hall, then the hall is
cleared. -/
def sampleClearedWindow : List Event :=
  [sampleEvent 2 "motion_cleared" "hall" none 20,
   sampleEvent 1 "detection" "hall" (some "Bob") 10]

/-- A window for examples, newest first: `Bob` and then `Cat` are seen in the kitchen, with
the motion events that accompany them. -/
def sampleKitchenWindow : List Event :=
  [sampleEvent 4 "motion" "kitchen" none 40,
   sampleEvent 3 "known_face" "kitchen" (some "Cat") 40,
   sampleEvent 2 "motion" "kitchen" none 10,
   sampleEvent 1 "detection" "kitchen" (some "Bob") 10]

/-! ## Other writers of the `risk_score` setting -/

/-- The function `updateRiskScore(increase)` of `services/simulator.js`: read the setting,
add `increase`, cap at 100, write it back. -/
def updateRiskScore (db : Db) (increase : Nat) : Db :=
  { db with
      settings :=
        upsertSetting "risk_score"
          (raisedScore (findSetting "risk_score" db.settings) increase) db.settings }

/-- The handler of `POST /settings` in `routes/system.js`: the setting `key` gets
`String(value)`, here `value`, whatever it is. -/
def postSettings (db : Db) (key value : String) : Db :=
  { db with settings := upsertSetting key value db.settings }

/-- The responses of `POST /detect`: `400 Person name and room required`, or success with
the detection event and the flag `alert`. -/
inductive DetectResponse where
  | nameAndRoomRequired
  | success (event : Event) (alert : Bool)
deriving DecidableEq, Repr

/-- The handler of `POST /detect` in `routes/detection.js`. A known person that is found
gets a visit recorded; an unknown person gets a provisional identity (not approved, no
access) and raises the risk score by 30. Both end with the detection event and a `motion`
event for the room. -/
def detect (db : Db) (now : Int) (personName room : Option String) (isKnown : Bool) :
    Db × DetectResponse :=
  if !truthy personName || !truthy room then (db, .nameAndRoomRequired)
  else
    let name := personName.getD ""
    let roomName := room.getD ""
    let motionOf (id : Nat) : Event :=
      { id := id, type := "motion", room := some roomName, personName := none,
        personId := none, riskLevel := "low",
        description := some ("Motion detected in " ++ roomName ++ " (" ++ name ++ " entered)"),
        imagePath := none, timestamp := now }
    if isKnown then
      let knownPerson := db.knownFaces.find? (fun k => k.name = name)
      let event : Event :=
        { id := db.nextId
          type := if knownPerson.isSome then "known_face" else "detection"
          room := some roomName
          personName := some name
          personId := knownPerson.map (fun k => k.id)
          riskLevel := "low"
          description := some (name ++ " detected in " ++ roomName)
          imagePath := none
          timestamp := now }
      ({ db with
          knownFaces :=
            match knownPerson with
            | some k => recordVisit k.id now db.knownFaces
            | none => db.knownFaces
          events := db.events ++ [event, motionOf (db.nextId + 1)]
          nextId := db.nextId + 2 },
       .success event false)
    else
      let pendingFace : KnownFace :=
        { id := db.nextId, name := name, category := "unknown", imagePath := none,
          faceDescriptor := some [], visitCount := 0, lastSeen := none,
          accessAllowed := false, approved := false }
      let event : Event :=
        { id := db.nextId + 1
          type := "unknown_face"
          room := some roomName
          personName := some name
          personId := some pendingFace.id
          riskLevel := "high"
          description := some ("⚠️ Unknown person (" ++ name ++ ") detected in " ++ roomName)
          imagePath := none
          timestamp := now }
      ({ db with
          knownFaces := db.knownFaces ++ [pendingFace]
          settings := bumpRiskScore 30 db.settings
          events := db.events ++ [event, motionOf (db.nextId + 2)]
          nextId := db.nextId + 3 },
       .success event true)

/-- The number the code reads from the `risk_score` setting, as in
`parseInt(currentRisk?.value || 0)`: a missing setting and an empty value read as 0, and
`none` is `NaN`. -/
def riskScoreReading (settings : List Setting) : Option Int :=
  match findSetting "risk_score" settings with
  | none => some 0
  | some st => if st.value = "" then some 0 else parseInt st.value

/-- The `risk_score` setting holds a value between 0 and 100. -/
def RiskInRange (settings : List Setting) : Prop :=
  ∃ n : Int, riskScoreReading settings = some n ∧ 0 ≤ n ∧ n ≤ 100

/-- The result of `new Date().getHours()` at the local time of day given in minutes since
midnight. -/
def getHours (minuteOfDay : Nat) : Nat :=
  minuteOfDay / 60 % 24

/-- The night window "10 PM - 6 AM" on the local time of day in minutes since midnight:
from 22:00 on, or up to 06:00. -/
def inNightWindow (minuteOfDay : Nat) : Bool :=
  decide (22 * 60 ≤ minuteOfDay) || decide (minuteOfDay ≤ 6 * 60)

/-- A settings collection for examples: `risk_score` is `'0'`, as after start-up. -/
def sampleSettingsDb : Db :=
  { Db.empty with settings := [{ key := "risk_score", value := "0" }] }

/-- A record of the `UnknownFace` collection for examples, with the given `_id`, status and
descriptor. -/
def sampleUnknown (id : Nat) (status : String) (descriptor : List ℚ) : UnknownFace :=
  { id := id, faceDescriptor := some descriptor, imagePath := none, firstSeen := 1,
    lastSeen := 1, detectionCount := 1, alertSent := true, status := status }

/-- A database for examples whose unknown faces are, in scan order: an approved record at
the very descriptor `[0, 0]`, a pending record of another dimensionality, a pending record
at distance 1/2 from `[0, 0]` and a pending record at distance 1/10 from it. -/
def sampleScanDb : Db :=
  { Db.empty with
      unknownFaces :=
        [sampleUnknown 0 "approved" [0, 0], sampleUnknown 1 "pending" [0],
         sampleUnknown 2 "pending" [1 / 2, 0], sampleUnknown 3 "pending" [1 / 10, 0]]
      nextId := 4 }

/-- The descriptor `d` is far from every pending record: each pending record with a
descriptor has one of another length, or one at Euclidean distance at least `0.6`. -/
def FarFromPending (d : List ℚ) (unknownFaces : List UnknownFace) : Prop :=
  ∀ u ∈ unknownFaces, u.status = "pending" → ∀ ud, u.faceDescriptor = some ud →
    ud.length ≠ d.length ∨ ∃ dist : ℝ, euclideanDistance d ud = some dist ∧ 0.6 ≤ dist

/-- The identity `approveWith` creates from the pending sighting `unknownFace`. -/
def approvedFace (id : Nat) (name category : String) (unknownFace : UnknownFace) : KnownFace :=
  { id := id, name := name, category := category, imagePath := unknownFace.imagePath,
    faceDescriptor := unknownFace.faceDescriptor, visitCount := 0, lastSeen := none,
    accessAllowed := true, approved := true }

/-- The category `category || 'guest'` of `POST /unknown/:id/approve`. -/
def categoryOrGuest (category : Option String) : String :=
  if truthy category then category.getD "" else "guest"

/-! ## Request bodies, motion routes, simulator, visitor pattern -/

/-- The value of the field `faceDescriptor` in the JSON body of `POST /recognize`. -/
inductive BodyValue where
  | absent
  | null
  | bool (b : Bool)
  | number (q : ℚ)
  | text (s : String)
  | object
  | array (items : List ℚ)
deriving DecidableEq, Repr

/-- The guard `!faceDescriptor || !Array.isArray(faceDescriptor)` of `POST /recognize`: only
an array gets past it (an array is truthy even when empty). -/
def descriptorOfBody : BodyValue → Option (List ℚ)
  | .array items => some items
  | _ => none

/-- The handler of `POST /recognize` on the field `faceDescriptor` of the body. -/
def recognizeRequest (db : Db) (now : Int) (faceDescriptor : BodyValue) :
    Db × RecognizeResponse :=
  recognize db now (descriptorOfBody faceDescriptor)

/-- The copy of `euclideanDistance` in `routes/detection.js`, as the loop it is: `sum`
starts at 0 and, for each index `i` of `desc1` in turn, becomes
`sum + Math.pow(desc1[i] - desc2[i], 2)`; a missing `desc2[i]` turns the sum into `NaN`,
here `none`, for good. -/
def sumSquaresLoop (desc1 desc2 : List ℚ) : Option ℚ :=
  (List.range' 0 desc1.length).foldl
    (fun sum i =>
      match sum, desc1[i]?, desc2[i]? with
      | some s, some x, some y => some (s + (x - y) ^ 2)
      | _, _, _ => none)
    (some 0)

/-- The value `Math.sqrt(sum)` the copy of `euclideanDistance` in `routes/detection.js`
returns. -/
noncomputable def euclideanDistanceDetection (desc1 desc2 : List ℚ) : Option ℝ :=
  (sumSquaresLoop desc1 desc2).map (fun (s : ℚ) => Real.sqrt (s : ℝ))

/-- The responses of `POST /motion` and `POST /clear-motion`: `400 Room required`, or
success with the event and a message. -/
inductive MotionResponse where
  | roomRequired
  | success (event : Event) (message : String)
deriving DecidableEq, Repr

/-- The handler of `POST /motion` in `routes/detection.js`. -/
def motion (db : Db) (now : Int) (room : Option String) : Db × MotionResponse :=
  if !truthy room then (db, .roomRequired)
  else
    let roomName := room.getD ""
    let event : Event :=
      { id := db.nextId, type := "motion", room := some roomName, personName := none,
        personId := none, riskLevel := "low",
        description := some ("Motion detected in " ++ roomName), imagePath := none,
        timestamp := now }
    ({ db with events := db.events ++ [event], nextId := db.nextId + 1 },
     .success event ("Motion detected in " ++ roomName))

/-- The handler of `POST /clear-motion` in `routes/detection.js`. -/
def clearMotion (db : Db) (now : Int) (room : Option String) : Db × MotionResponse :=
  if !truthy room then (db, .roomRequired)
  else
    let roomName := room.getD ""
    let event : Event :=
      { id := db.nextId, type := "motion_cleared", room := some roomName, personName := none,
        personId := none, riskLevel := "low",
        description := some ("Motion cleared in " ++ roomName ++ " - Room empty"),
        imagePath := none, timestamp := now }
    ({ db with events := db.events ++ [event], nextId := db.nextId + 1 },
     .success event ("Motion cleared in " ++ roomName))

/-- The array `rooms` of `services/simulator.js`. -/
def simulatorRooms : List String :=
  ["hall", "kitchen", "bedroom", "garden", "living_room"]

/-- The array `unknownNames` of `services/simulator.js`. -/
def unknownNames : List String :=
  ["Unknown Person", "Unidentified Individual", "Stranger"]

/-- The function `simulateEvent(type, customRoom, customPerson)` of `services/simulator.js`.
`roomDraw` and `nameDraw` are the indices `Math.floor(Math.random() * length)` drawn for the
room and for the name; the alerts sent to the bot are not part of the model. The result is
the database after the call and the created event. -/
def simulateEvent (db : Db) (now : Int) (type : String) (customRoom customPerson : Option String)
    (roomDraw : Fin 5) (nameDraw : Fin 3) : Db × Event :=
  let room := if truthy customRoom then customRoom.getD "" else simulatorRooms.getD roomDraw.val ""
  let blank : Event :=
    { id := db.nextId, type := "motion", room := none, personName := none, personId := none,
      riskLevel := "low", description := none, imagePath := none, timestamp := now }
  let motionData : Event :=
    { blank with
        type := "motion", room := some room, riskLevel := "low",
        description := some ("Motion detected in " ++ room) }
  let scored : Db × Event :=
    if type = "intruder" ∨ type = "unknown_face" then
      let personName :=
        if truthy customPerson then customPerson.getD "" else unknownNames.getD nameDraw.val ""
      (updateRiskScore db 30,
       { blank with
          type := "unknown_face", room := some room, personName := some personName,
          riskLevel := "high",
          description := some ("⚠️ Unknown person detected in " ++ room) })
    else if type = "motion" then (db, motionData)
    else if type = "fire" then
      (updateRiskScore db 50,
       { blank with
          type := "fire", room := some room, riskLevel := "high",
          description := some ("🔥 FIRE ALERT in " ++ room ++ "!") })
    else if type = "forced_entry" then
      (updateRiskScore db 40,
       { blank with
          type := "forced_entry", room := some room, riskLevel := "high",
          description := some ("Forced entry attempt at " ++ room) })
    else if type = "power_failure" then
      (db,
       { blank with
          type := "power_failure", riskLevel := "medium",
          description := some "Power failure detected" })
    else if type = "lockdown" then
      (db,
       { blank with
          type := "lockdown", riskLevel := "high",
          description :=
            some "🔒 Emergency lockdown activated - All doors locked, alarms triggered" })
    else (db, motionData)
  ({ scored.1 with events := scored.1.events ++ [scored.2], nextId := scored.1.nextId + 1 },
   scored.2)

/-- The array `eventTypes` of the periodic generator. -/
def simulationEventTypes : List String :=
  ["motion", "motion", "motion", "unknown_face"]

/-- One tick of the timer `startEventSimulation` sets up: when the setting `armed` is
`'true'` and the draw `Math.random()` (here `chance`) is above 0.7, an event of the drawn
type is simulated. -/
def simulationTick (db : Db) (now : Int) (chance : ℚ) (typeDraw : Fin 4) (roomDraw : Fin 5)
    (nameDraw : Fin 3) : Db :=
  let armed := findSetting "armed" db.settings
  if armed.map (fun st => st.value) = some "true" ∧ chance > 7 / 10 then
    (simulateEvent db now (simulationEventTypes.getD typeDraw.val "") none none roomDraw
      nameDraw).1
  else db

/-- The object `analyzeVisitorPattern` returns; the last three fields are absent for an
identity without events. -/
structure VisitorPattern where
  pattern : String
  frequency : String
  totalVisits : Option Nat
  nightVisits : Option Nat
  daysBetween : Option Int
deriving DecidableEq, Repr

/-- The query `Event.find({ personId }).sort({ timestamp: -1 }).limit(50)`. -/
def recentVisits (events : List Event) (personId : Nat) : List Event :=
  ((events.filter (fun e => e.personId = some personId)).insertionSort
    (fun a b => a.timestamp ≥ b.timestamp)).take 50

/-- The quantity `daysBetween = (lastVisit - firstVisit) / (1000 * 60 * 60 * 24)` for visits
listed newest first. -/
def daysBetweenVisits (visits : List Event) : ℚ :=
  match visits.head?, visits.getLast? with
  | some newest, some oldest => ((newest.timestamp - oldest.timestamp : Int) : ℚ) / 86400000
  | _, _ => 0

/-- The quantity `visitsPerDay = visits.length / (daysBetween || 1)`. -/
def visitsPerDay (visits : List Event) : ℚ :=
  (visits.length : ℚ) /
    (if daysBetweenVisits visits = 0 then 1 else daysBetweenVisits visits)

/-- The frequency chain: `'daily'` above 2, `'frequent'` above 0.5, `'occasional'` above 0.1,
else `'rare'`. -/
def frequencyOf (perDay : ℚ) : String :=
  if perDay > 2 then "daily"
  else if perDay > 1 / 2 then "frequent"
  else if perDay > 1 / 10 then "occasional"
  else "rare"

/-- The body of `analyzeVisitorPattern` on the visits the query returned; `hourOf` gives
`new Date(timestamp).getHours()`, the local hour of a timestamp. -/
def analyzeVisits (visits : List Event) (hourOf : Int → Nat) : VisitorPattern :=
  if visits.length = 0 then
    { pattern := "new", frequency := "rare", totalVisits := none, nightVisits := none,
      daysBetween := none }
  else
    let nightVisits := (visits.filter (fun v => isNightHour (hourOf v.timestamp))).length
    let unusual : Bool := decide ((nightVisits : ℚ) > (visits.length : ℚ) * (3 / 10))
    { pattern := if unusual then "suspicious" else "normal"
      frequency := frequencyOf (visitsPerDay visits)
      totalVisits := some visits.length
      nightVisits := some nightVisits
      daysBetween := some ⌊daysBetweenVisits visits + 1 / 2⌋ }

/-- The function `analyzeVisitorPattern(personId)` of `services/riskEngine.js`. -/
def analyzeVisitorPattern (db : Db) (personId : Nat) (hourOf : Int → Nat) : VisitorPattern :=
  analyzeVisits (recentVisits db.events personId) hourOf

/-- The step of the loop of `sumSquaresLoop` at index `i`. -/
def loopStep (desc1 desc2 : List ℚ) (sum : Option ℚ) (i : Nat) : Option ℚ :=
  match sum, desc1[i]?, desc2[i]? with
  | some s, some x, some y => some (s + (x - y) ^ 2)
  | _, _, _ => none

/-- The sum so far and the sum of the rest, added; `NaN` on either side gives `NaN`. -/
def addSums (sum rest : Option ℚ) : Option ℚ :=
  match sum, rest with
  | some s, some t => some (s + t)
  | _, _ => none

/-- A database for examples: armed, with `risk_score` at `'90'`. -/
def sampleArmedDb : Db :=
  { Db.empty with
      settings := [{ key := "armed", value := "true" }, { key := "risk_score", value := "90" }] }

/-- A database for examples: disarmed, with `risk_score` at `'0'`. -/
def sampleDisarmedDb : Db :=
  { Db.empty with
      settings := [{ key := "armed", value := "false" }, { key := "risk_score", value := "0" }] }

/-- The events of the window whose room is one of the five. -/
def ownRoomEvents (recentEvents : List Event) : List Event :=
  recentEvents.filter (fun e =>
    match e.room with
    | some room => decide (room ∈ roomNames)
    | none => false)

/-- The database after `POST /detect` with the body
`{ personName: 'x', room: 'constructor', isKnown: true }` at time 10 on the empty database. -/
def sampleConstructorDb : Db :=
  (detect Db.empty 10 (some "x") (some "constructor") true).1

/-- The local hour of a timestamp in a time zone without offset: the example clock. -/
def sampleHourOf (timestamp : Int) : Nat :=
  (timestamp / 3600000 % 24).toNat

/-- An event for examples: a visit of the identity with `_id` 0 at the given hour of the
given day. -/
def sampleVisitAt (id : Nat) (day hour : Int) : Event :=
  { id := id, type := "known_face", room := some "hall", personName := some "Ann",
    personId := some 0, riskLevel := "low", description := none, imagePath := none,
    timestamp := day * 86400000 + hour * 3600000 }

/-- A database for examples: ten visits of the identity 0, one a day at noon, but on three
days at 23 h instead. -/
def sampleTenVisitsDb : Db :=
  { Db.empty with
      events :=
        [sampleVisitAt 0 0 12, sampleVisitAt 1 1 23, sampleVisitAt 2 2 12,
         sampleVisitAt 3 3 23, sampleVisitAt 4 4 12, sampleVisitAt 5 5 23,
         sampleVisitAt 6 6 12, sampleVisitAt 7 7 12, sampleVisitAt 8 8 12,
         sampleVisitAt 9 9 12]
      nextId := 10 }

/-- A run of sightings: `POST /unknown-with-image` is called once for each pair of a time
and a descriptor of the list, in order. -/
def sightings (db : Db) (room personName imagePath : Option String) :
    List (Int × List ℚ) → Db
  | [] => db
  | (now, d) :: rest =>
    sightings (unknownWithImage db now room personName imagePath (some d)).1
      room personName imagePath rest

/-! ## Theorems: risk scorer -/

theorem filter_filter_length_eq_countP (events : List Event) (q p : Event → Bool) :
    ((events.filter q).filter p).length = events.countP (fun e => q e && p e) := by
  rw [List.filter_filter, List.countP_eq_length_filter]
  congr 1
  apply List.filter_congr
  intro e _
  exact Bool.and_comm _ _

theorem rawRiskScore_eq (events : List Event) (now : Int) (hour : Nat) :
    rawRiskScore events now hour
      = 20 * countInWindow events now 3600000 (fun e => e.riskLevel = "high")
        + 10 * countInWindow events now 3600000 (fun e => e.riskLevel = "medium")
        + 15 * countInWindow events now 3600000 (fun e => e.type = "unknown_face")
        + (if 2 < countInWindow events now 600000 (fun e => e.type = "unknown_face")
            then 30 else 0)
        + (if 22 ≤ hour ∨ hour ≤ 6 then 10 else 0) := by
  have hB : (events.filter
        (fun e => e.type = "unknown_face" ∧ now - 10 * 60 * 1000 ≤ e.timestamp)).length
      = countInWindow events now 600000 (fun e => e.type = "unknown_face") := by
    unfold countInWindow
    rw [List.countP_eq_length_filter]
    congr 1
    apply List.filter_congr
    intro e _
    by_cases h1 : e.type = "unknown_face" <;> by_cases h2 : now - 600000 ≤ e.timestamp <;>
      simp [h1, h2]
  unfold rawRiskScore
  simp only [hB, eventsSince, filter_filter_length_eq_countP, isNightHour]
  simp only [countInWindow]
  norm_num
  split_ifs <;> simp_all <;> omega

/-- C1: for every event log, current time and hour of day, the score returned by
`calculateRiskScore` is `min(100, 20*H + 10*M + 15*U + B + N)`, where `H`, `M`, `U` count
the events of the trailing hour with risk level `high`, with risk level `medium` and of
type `unknown_face`, `B` is 30 when more than 2 `unknown_face` events lie in the trailing
10 minutes and `N` is 10 when the night test `hour >= 22 || hour <= 6` holds; the sum
before the cap is at least `20*H + 10*M`, hence at least 50 for `H = 2`, `M = 1`. -/
theorem calculateRiskScore_score_formula (db : Db) (now : Int) (hour : Nat) :
    (calculateRiskScore db now hour).2.score
        = min 100
            (20 * countInWindow db.events now 3600000 (fun e => e.riskLevel = "high")
              + 10 * countInWindow db.events now 3600000 (fun e => e.riskLevel = "medium")
              + 15 * countInWindow db.events now 3600000 (fun e => e.type = "unknown_face")
              + (if 2 < countInWindow db.events now 600000 (fun e => e.type = "unknown_face")
                  then 30 else 0)
              + (if 22 ≤ hour ∨ hour ≤ 6 then 10 else 0))
      ∧ (calculateRiskScore db now hour).2.score = min 100 (rawRiskScore db.events now hour)
      ∧ 20 * countInWindow db.events now 3600000 (fun e => e.riskLevel = "high")
          + 10 * countInWindow db.events now 3600000 (fun e => e.riskLevel = "medium")
          ≤ rawRiskScore db.events now hour
      ∧ (countInWindow db.events now 3600000 (fun e => e.riskLevel = "high") = 2 →
          countInWindow db.events now 3600000 (fun e => e.riskLevel = "medium") = 1 →
          50 ≤ rawRiskScore db.events now hour ∧
          50 ≤ (calculateRiskScore db now hour).2.score) := by
  have hscore : (calculateRiskScore db now hour).2.score
      = min 100 (rawRiskScore db.events now hour) := rfl
  have hraw := rawRiskScore_eq db.events now hour
  refine ⟨by rw [hscore, hraw], hscore, by rw [hraw]; omega, ?_⟩
  intro hH hM
  rw [hscore, hraw, hH, hM]
  constructor
  · omega
  · simp only [Nat.le_min]
    omega

/-- C1 on the sample log: two high-risk events and one medium-risk event at noon, one
second later, score exactly 50. -/
theorem calculateRiskScore_score_formula_witness :
    countInWindow sampleRiskLog 1000 3600000 (fun e => e.riskLevel = "high") = 2 ∧
    countInWindow sampleRiskLog 1000 3600000 (fun e => e.riskLevel = "medium") = 1 ∧
    (calculateRiskScore { Db.empty with events := sampleRiskLog } 1000 12).2.score = 50 ∧
    50 ≤ rawRiskScore sampleRiskLog 1000 12 := by
  have h := calculateRiskScore_score_formula { Db.empty with events := sampleRiskLog } 1000 12
  have hH : countInWindow sampleRiskLog 1000 3600000 (fun e => e.riskLevel = "high") = 2 := by
    decide
  have hM : countInWindow sampleRiskLog 1000 3600000 (fun e => e.riskLevel = "medium") = 1 := by
    decide
  refine ⟨hH, hM, by decide, (h.2.2.2 hH hM).1⟩

/-- C10: for every event log, current time and hour of day, the score returned by
`calculateRiskScore` is an integer between 0 and 100, both included. -/
theorem calculateRiskScore_score_range (db : Db) (now : Int) (hour : Nat) :
    0 ≤ (calculateRiskScore db now hour).2.score ∧
    (calculateRiskScore db now hour).2.score ≤ 100 := by
  refine ⟨Nat.zero_le _, ?_⟩
  show min 100 (rawRiskScore db.events now hour) ≤ 100
  exact Nat.min_le_left _ _

/-! ## Theorems: descriptors -/

theorem sumSquares_nonneg : ∀ (a b : List ℚ) (s : ℚ), sumSquares a b = some s → 0 ≤ s
  | [], _, s, h => by
    simp only [sumSquares, Option.some.injEq] at h
    exact h ▸ le_refl _
  | _ :: _, [], s, h => by simp [sumSquares] at h
  | x :: xs, y :: ys, s, h => by
    simp only [sumSquares, Option.map_eq_some'] at h
    obtain ⟨t, ht, rfl⟩ := h
    have := sumSquares_nonneg xs ys t ht
    positivity

theorem sumSquares_of_length_eq :
    ∀ (a b : List ℚ), b.length = a.length → ∃ s, sumSquares a b = some s
  | [], _, _ => ⟨0, rfl⟩
  | _ :: _, [], h => by simp at h
  | x :: xs, y :: ys, h => by
    obtain ⟨t, ht⟩ := sumSquares_of_length_eq xs ys (by simpa using h)
    exact ⟨(x - y) ^ 2 + t, by simp [sumSquares, ht]⟩

theorem sumSquares_self : ∀ a : List ℚ, sumSquares a a = some 0
  | [] => rfl
  | x :: xs => by simp [sumSquares, sumSquares_self xs]

theorem sqrt_lt_threshold_iff (s : ℚ) :
    Real.sqrt (s : ℝ) < 0.6 ↔ s < thresholdSq := by
  rw [Real.sqrt_lt' (by norm_num)]
  have h : ((0.6 : ℝ)) ^ 2 = ((thresholdSq : ℚ) : ℝ) := by
    simp only [thresholdSq]
    norm_num
  rw [h]
  exact Rat.cast_lt

theorem withinThreshold_iff (a b : List ℚ) :
    withinThreshold (sumSquares a b) = true
      ↔ ∃ dist : ℝ, euclideanDistance a b = some dist ∧ dist < 0.6 := by
  unfold euclideanDistance
  cases h : sumSquares a b with
  | none => simp [withinThreshold]
  | some s =>
    simp only [withinThreshold, decide_eq_true_eq, Option.map_some', Option.some.injEq,
      exists_eq_left']
    exact (sqrt_lt_threshold_iff s).symm

theorem sameUnknown_iff (d : List ℚ) (u : UnknownFace) :
    sameUnknown d u = true ↔ ∃ ud, u.faceDescriptor = some ud ∧ NearDescriptor d ud := by
  unfold sameUnknown NearDescriptor
  cases h : u.faceDescriptor with
  | none => simp
  | some ud =>
    simp only [Bool.and_eq_true, decide_eq_true_eq, withinThreshold_iff, Option.some.injEq,
      exists_eq_left']

/-! ## Theorems: unknown-sighting deduplicator -/

theorem findPending_cons (d : List ℚ) (u : UnknownFace) (us : List UnknownFace) :
    findPending d (u :: us)
      = if u.status = "pending" ∧ sameUnknown d u = true then some u else findPending d us := by
  unfold findPending
  by_cases hp : u.status = "pending"
  · by_cases hs : sameUnknown d u = true
    · simp [List.filter_cons, hp, hs]
    · simp [List.filter_cons, hp, hs]
  · simp [List.filter_cons, hp]

theorem findPending_eq_some :
    ∀ (d : List ℚ) (us : List UnknownFace) (u : UnknownFace), findPending d us = some u →
      ∃ pre post, us = pre ++ u :: post ∧ PendingMatch d u ∧ ∀ v ∈ pre, ¬ PendingMatch d v
  | _, [], u, h => by simp [findPending] at h
  | d, w :: us, u, h => by
    rw [findPending_cons] at h
    by_cases hw : w.status = "pending" ∧ sameUnknown d w = true
    · rw [if_pos hw] at h
      cases h
      exact ⟨[], us, rfl, ⟨hw.1, (sameUnknown_iff d w).1 hw.2⟩, by simp⟩
    · rw [if_neg hw] at h
      obtain ⟨pre, post, hus, hm, hpre⟩ := findPending_eq_some d us u h
      refine ⟨w :: pre, post, by simp [hus], hm, ?_⟩
      intro v hv
      rcases List.mem_cons.1 hv with rfl | hv
      · intro hv
        exact hw ⟨hv.1, (sameUnknown_iff d v).2 hv.2⟩
      · exact hpre v hv

theorem findPending_eq_none :
    ∀ (d : List ℚ) (us : List UnknownFace),
      findPending d us = none ↔ ∀ u ∈ us, ¬ PendingMatch d u
  | _, [] => by simp [findPending]
  | d, w :: us => by
    rw [findPending_cons]
    by_cases hw : w.status = "pending" ∧ sameUnknown d w = true
    · rw [if_pos hw]
      simp only [List.mem_cons, forall_eq_or_imp, false_iff, not_and, reduceCtorEq]
      intro h
      exact absurd ⟨hw.1, (sameUnknown_iff d w).1 hw.2⟩ h
    · rw [if_neg hw, findPending_eq_none d us]
      simp only [List.mem_cons, forall_eq_or_imp, iff_and_self]
      intro _ hm
      exact hw ⟨hm.1, (sameUnknown_iff d w).2 hm.2⟩

theorem bumpDetection_of_not_mem (id : Nat) (now : Int) :
    ∀ us : List UnknownFace, (∀ v ∈ us, v.id ≠ id) → bumpDetection id now us = us
  | [], _ => rfl
  | v :: us, h => by
    have hv : v.id ≠ id := h v (List.mem_cons_self _ _)
    simp only [bumpDetection, if_neg hv]
    rw [bumpDetection_of_not_mem id now us (fun w hw => h w (List.mem_cons_of_mem _ hw))]

theorem bumpDetection_append (now : Int) (u : UnknownFace) (post : List UnknownFace) :
    ∀ pre : List UnknownFace, (∀ v ∈ pre, v.id ≠ u.id) →
      bumpDetection u.id now (pre ++ u :: post)
        = pre ++ { u with lastSeen := now, detectionCount := u.detectionCount + 1 } :: post
  | [], _ => by simp [bumpDetection]
  | v :: pre, h => by
    have hv : v.id ≠ u.id := h v (List.mem_cons_self _ _)
    have ih := bumpDetection_append now u post pre (fun w hw => h w (List.mem_cons_of_mem _ hw))
    simp only [List.cons_append, bumpDetection, if_neg hv]
    exact congrArg (fun l => v :: l) ih

theorem ids_ne_of_nodup (u : UnknownFace) (pre post : List UnknownFace)
    (h : ((pre ++ u :: post).map (fun v => v.id)).Nodup) : ∀ v ∈ pre, v.id ≠ u.id := by
  intro v hv heq
  rw [List.map_append, List.map_cons] at h
  have hdisj := (List.nodup_append.1 h).2.2
  exact hdisj (List.mem_map.2 ⟨v, hv, rfl⟩) (heq ▸ List.mem_cons_self _ _)

/-- C2: (1) whenever some pending record is near the descriptor `d` (same dimensionality,
Euclidean distance below 0.6), `POST /unknown-with-image` creates no record: the collection
of unknown faces keeps its length, the first pending record near `d` gets `detectionCount`
raised by exactly 1 (and `lastSeen` refreshed) while every other record, every event,
identity and setting is unchanged, and the response says `isNewUnknown = false`,
`alertSent = false`, `imageSent = false`. (2) Two consecutive sightings of one descriptor,
the first of which is new, leave exactly one record for it, pending, with
`detectionCount = 2`. -/
theorem unknownWithImage_repeat_sighting :
    (∀ (db : Db) (now : Int) (room personName imagePath : Option String) (d : List ℚ),
      (db.unknownFaces.map (fun u => u.id)).Nodup →
      (∃ u ∈ db.unknownFaces, PendingMatch d u) →
      ∃ u pre post,
        db.unknownFaces = pre ++ u :: post ∧ PendingMatch d u ∧
        (∀ v ∈ pre, ¬ PendingMatch d v) ∧
        (unknownWithImage db now room personName imagePath (some d)).1.unknownFaces
          = pre ++ { u with lastSeen := now, detectionCount := u.detectionCount + 1 } :: post ∧
        (unknownWithImage db now room personName imagePath (some d)).1.unknownFaces.length
          = db.unknownFaces.length ∧
        (unknownWithImage db now room personName imagePath (some d)).1.events = db.events ∧
        (unknownWithImage db now room personName imagePath (some d)).1.knownFaces
          = db.knownFaces ∧
        (unknownWithImage db now room personName imagePath (some d)).1.settings
          = db.settings ∧
        (unknownWithImage db now room personName imagePath (some d)).2
          = { success := true, isNewUnknown := false, unknownId := u.id,
              detectionCount := some (u.detectionCount + 1), event := none,
              alertSent := false, imageSent := false })
    ∧
    (∀ (db : Db) (now1 now2 : Int) (room1 name1 image1 room2 name2 image2 : Option String)
        (d : List ℚ),
      (∀ u ∈ db.unknownFaces, u.id < db.nextId) →
      (∀ u ∈ db.unknownFaces, ¬ PendingMatch d u) →
      (unknownWithImage db now1 room1 name1 image1 (some d)).2.isNewUnknown = true ∧
      (unknownWithImage (unknownWithImage db now1 room1 name1 image1 (some d)).1
          now2 room2 name2 image2 (some d)).2.isNewUnknown = false ∧
      (unknownWithImage (unknownWithImage db now1 room1 name1 image1 (some d)).1
          now2 room2 name2 image2 (some d)).1.unknownFaces
        = db.unknownFaces ++
            [{ id := db.nextId, faceDescriptor := some d, imagePath := image1,
               firstSeen := now1, lastSeen := now2, detectionCount := 2, alertSent := true,
               status := "pending" }]) := by
  constructor
  · intro db now room personName imagePath d hnodup hex
    have hsome : ∃ u, findPending d db.unknownFaces = some u := by
      cases hf : findPending d db.unknownFaces with
      | some u => exact ⟨u, rfl⟩
      | none =>
        obtain ⟨u, hu, hm⟩ := hex
        exact absurd hm ((findPending_eq_none d db.unknownFaces).1 hf u hu)
    obtain ⟨u, hu⟩ := hsome
    obtain ⟨pre, post, hus, hm, hpre⟩ := findPending_eq_some d db.unknownFaces u hu
    have hids : ∀ v ∈ pre, v.id ≠ u.id := ids_ne_of_nodup u pre post (hus ▸ hnodup)
    have hbump := bumpDetection_append now u post pre hids
    refine ⟨u, pre, post, hus, hm, hpre, ?_, ?_, ?_, ?_, ?_, ?_⟩
    · simp only [unknownWithImage, hu]
      rw [hus, hbump]
    · simp only [unknownWithImage, hu]
      rw [hus, hbump]
      simp
    · simp only [unknownWithImage, hu]
    · simp only [unknownWithImage, hu]
    · simp only [unknownWithImage, hu]
    · simp only [unknownWithImage, hu]
  · intro db now1 now2 room1 name1 image1 room2 name2 image2 d hfresh hnone
    have h1 : findPending d db.unknownFaces = none :=
      (findPending_eq_none d db.unknownFaces).2 hnone
    have hself : sameUnknown d
        { id := db.nextId, faceDescriptor := some d, imagePath := image1, firstSeen := now1,
          lastSeen := now1, detectionCount := 1, alertSent := true, status := "pending" }
          = true := by
      simp [sameUnknown, sumSquares_self, withinThreshold, thresholdSq]
    have h2 : findPending d (db.unknownFaces ++
        [{ id := db.nextId, faceDescriptor := some d, imagePath := image1, firstSeen := now1,
           lastSeen := now1, detectionCount := 1, alertSent := true, status := "pending" }])
        = some { id := db.nextId, faceDescriptor := some d, imagePath := image1,
                 firstSeen := now1, lastSeen := now1, detectionCount := 1, alertSent := true,
                 status := "pending" } := by
      have hfilter : (db.unknownFaces.filter (fun u => u.status = "pending")).find?
          (sameUnknown d) = none := h1
      unfold findPending
      rw [List.filter_append, List.find?_append, hfilter]
      simp [List.filter_cons, hself]
    have hne : ∀ v ∈ db.unknownFaces, v.id ≠ db.nextId :=
      fun v hv => Nat.ne_of_lt (hfresh v hv)
    have hbump := bumpDetection_append now2
      { id := db.nextId, faceDescriptor := some d, imagePath := image1, firstSeen := now1,
        lastSeen := now1, detectionCount := 1, alertSent := true, status := "pending" }
      [] db.unknownFaces hne
    refine ⟨?_, ?_, ?_⟩
    · simp only [unknownWithImage, h1]
    · simp only [unknownWithImage, h1, h2]
    · simp only [unknownWithImage, h1, h2]
      exact hbump

/-- C2 at a concrete store: one pending record with descriptor `[1, 2]`; a sighting of
`[1, 2]` is merged into it, and two sightings of `[1, 2]` on the empty database leave one
record with `detectionCount = 2`. -/
theorem unknownWithImage_repeat_sighting_witness :
    (unknownWithImage { Db.empty with unknownFaces := [samplePending], nextId := 1 } 9
        none none none (some [1, 2])).1.unknownFaces
      = [{ samplePending with lastSeen := 9, detectionCount := 2 }] ∧
    (unknownWithImage (unknownWithImage Db.empty 5 none none none (some [1, 2])).1 9
        none none none (some [1, 2])).1.unknownFaces
      = [{ samplePending with lastSeen := 9, detectionCount := 2 }] := by
  have hnear : PendingMatch [1, 2] samplePending := by
    refine ⟨rfl, [1, 2], rfl, rfl, 0, ?_, by norm_num⟩
    simp [euclideanDistance, sumSquares_self]
  constructor
  · obtain ⟨u, pre, post, hus, _, hpre, hres, _⟩ :=
      unknownWithImage_repeat_sighting.1
        { Db.empty with unknownFaces := [samplePending], nextId := 1 } 9 none none none [1, 2]
        (by simp) ⟨samplePending, by simp, hnear⟩
    have hpre_nil : pre = [] := by
      cases pre with
      | nil => rfl
      | cons v pre =>
        simp only [List.cons_append, List.cons.injEq] at hus
        exact absurd (hus.1 ▸ hnear) (hpre v (List.mem_cons_self _ _))
    subst hpre_nil
    simp only [List.nil_append, List.cons.injEq] at hus
    obtain ⟨rfl, rfl⟩ := hus
    rw [hres]
    rfl
  · exact (unknownWithImage_repeat_sighting.2 Db.empty 5 9 none none none none none none [1, 2]
      (by simp [Db.empty]) (by simp [Db.empty])).2.2

/-! ## Theorems: identity matcher -/

theorem Candidate.unique {d : List ℚ} {k : KnownFace} {s t : ℚ}
    (hs : Candidate d k s) (ht : Candidate d k t) : s = t := by
  obtain ⟨kd, h1, _, h3⟩ := hs
  obtain ⟨kd', h1', _, h3'⟩ := ht
  rw [h1] at h1'
  cases h1'
  rw [h3] at h3'
  exact Option.some.inj h3'

theorem enrolledAt_iff (d : List ℚ) (k : KnownFace) (dist : ℝ) :
    EnrolledAt d k dist ↔ ∃ s, Candidate d k s ∧ dist = Real.sqrt (s : ℝ) := by
  constructor
  · rintro ⟨kd, h1, h2, h3⟩
    unfold euclideanDistance at h3
    cases hs : sumSquares d kd with
    | none => simp [hs] at h3
    | some s =>
      simp only [hs, Option.map_some', Option.some.injEq] at h3
      exact ⟨s, ⟨kd, h1, h2, hs⟩, h3.symm⟩
  · rintro ⟨s, ⟨kd, h1, h2, h3⟩, rfl⟩
    exact ⟨kd, h1, h2, by simp [euclideanDistance, h3]⟩

theorem Candidate.nonneg {d : List ℚ} {k : KnownFace} {s : ℚ} (h : Candidate d k s) : 0 ≤ s := by
  obtain ⟨kd, _, _, h3⟩ := h
  exact sumSquares_nonneg d kd s h3

theorem matchStep_of_not_candidate (d : List ℚ) (acc : BestMatch) (k : KnownFace)
    (h : ∀ s, ¬ Candidate d k s) : matchStep d acc k = acc := by
  unfold matchStep
  cases hk : k.faceDescriptor with
  | none => rfl
  | some kd =>
    by_cases hl : kd.length ≠ d.length
    · simp [hl]
    · cases hs : sumSquares d kd with
      | none => simp [hs]
      | some s => exact absurd ⟨kd, hk, not_not.1 hl, hs⟩ (h s)

theorem matchStep_of_candidate (d : List ℚ) (acc : BestMatch) (k : KnownFace) (s : ℚ)
    (h : Candidate d k s) :
    matchStep d acc k
      = if belowBest s acc.bestSq = true ∧ s < thresholdSq then
          { bestMatch := some k, bestSq := some s }
        else acc := by
  obtain ⟨kd, h1, h2, h3⟩ := h
  unfold matchStep
  simp only [h1, h2, h3, ne_eq, not_true_eq_false, if_false, Bool.and_eq_true,
    decide_eq_true_eq]

theorem bestOf_step (d : List ℚ) (l : List KnownFace) (acc : BestMatch) (k : KnownFace)
    (h : BestOf d l acc) : BestOf d (l ++ [k]) (matchStep d acc k) := by
  by_cases hc : ∃ s, Candidate d k s
  · obtain ⟨s, hs⟩ := hc
    rw [matchStep_of_candidate d acc k s hs]
    rcases h with ⟨hacc, hnone⟩ | ⟨p, sq, pre, post, hacc, hl, hp, hlt, hmin, hfirst⟩
    · subst hacc
      by_cases hthr : s < thresholdSq
      · rw [if_pos ⟨rfl, hthr⟩]
        refine Or.inr ⟨k, s, l, [], rfl, rfl, hs, hthr, ?_, ?_⟩
        · intro k' hk' s' hs'
          rcases List.mem_append.1 hk' with hk' | hk'
          · exact le_of_lt (lt_of_lt_of_le hthr (not_lt.1 (hnone k' hk' s' hs')))
          · rw [List.mem_singleton.1 hk'] at hs'
            exact le_of_eq (Candidate.unique hs hs')
        · intro k' hk' s' hs'
          exact lt_of_lt_of_le hthr (not_lt.1 (hnone k' hk' s' hs'))
      · rw [if_neg (fun hh => hthr hh.2)]
        refine Or.inl ⟨rfl, ?_⟩
        intro k' hk' s' hs'
        rcases List.mem_append.1 hk' with hk' | hk'
        · exact hnone k' hk' s' hs'
        · rw [List.mem_singleton.1 hk'] at hs'
          rw [← Candidate.unique hs hs']
          exact hthr
    · subst hacc
      by_cases hbetter : s < sq
      · have hthr : s < thresholdSq := lt_trans hbetter hlt
        rw [if_pos ⟨by simp [belowBest, hbetter], hthr⟩]
        refine Or.inr ⟨k, s, l, [], rfl, rfl, hs, hthr, ?_, ?_⟩
        · intro k' hk' s' hs'
          rcases List.mem_append.1 hk' with hk' | hk'
          · exact le_of_lt (lt_of_lt_of_le hbetter (hmin k' hk' s' hs'))
          · rw [List.mem_singleton.1 hk'] at hs'
            exact le_of_eq (Candidate.unique hs hs')
        · intro k' hk' s' hs'
          exact lt_of_lt_of_le hbetter (hmin k' hk' s' hs')
      · rw [if_neg (fun hh => hbetter (by simpa [belowBest] using hh.1))]
        refine Or.inr ⟨p, sq, pre, post ++ [k], rfl, by simp [hl], hp, hlt, ?_, hfirst⟩
        intro k' hk' s' hs'
        rcases List.mem_append.1 hk' with hk' | hk'
        · exact hmin k' hk' s' hs'
        · rw [List.mem_singleton.1 hk'] at hs'
          rw [← Candidate.unique hs hs']
          exact not_lt.1 hbetter
  · have hnot : ∀ s, ¬ Candidate d k s := fun s hs => hc ⟨s, hs⟩
    rw [matchStep_of_not_candidate d acc k hnot]
    rcases h with ⟨hacc, hnone⟩ | ⟨p, sq, pre, post, hacc, hl, hp, hlt, hmin, hfirst⟩
    · refine Or.inl ⟨hacc, ?_⟩
      intro k' hk' s' hs'
      rcases List.mem_append.1 hk' with hk' | hk'
      · exact hnone k' hk' s' hs'
      · rw [List.mem_singleton.1 hk'] at hs'
        exact absurd hs' (hnot s')
    · refine Or.inr ⟨p, sq, pre, post ++ [k], hacc, by simp [hl], hp, hlt, ?_, hfirst⟩
      intro k' hk' s' hs'
      rcases List.mem_append.1 hk' with hk' | hk'
      · exact hmin k' hk' s' hs'
      · rw [List.mem_singleton.1 hk'] at hs'
        exact absurd hs' (hnot s')

theorem bestOf_findBestMatch (d : List ℚ) (l : List KnownFace) :
    BestOf d l (findBestMatch d l) := by
  unfold findBestMatch
  induction l using List.reverseRecOn with
  | nil => exact Or.inl ⟨rfl, by simp⟩
  | append_singleton l k ih =>
    rw [List.foldl_append]
    exact bestOf_step d l _ k ih

theorem foldl_matchStep_filter (d : List ℚ) :
    ∀ (l : List KnownFace) (acc : BestMatch),
      (l.filter (fun k => k.faceDescriptor.isSome)).foldl (matchStep d) acc
        = l.foldl (matchStep d) acc
  | [], _ => rfl
  | k :: l, acc => by
    cases hk : k.faceDescriptor with
    | none =>
      have hstep : matchStep d acc k = acc := by simp [matchStep, hk]
      simp only [List.filter_cons, hk, Option.isSome_none, Bool.false_eq_true, if_false,
        List.foldl_cons, hstep]
      exact foldl_matchStep_filter d l acc
    | some kd =>
      simp only [List.filter_cons, hk, Option.isSome_some, if_true, List.foldl_cons]
      exact foldl_matchStep_filter d l _

theorem recognize_response (db : Db) (now : Int) (d : List ℚ) :
    (recognize db now (some d)).2
      = if (db.knownFaces.filter (fun k => k.faceDescriptor.isSome)).length = 0 then
          .noKnownFaces
        else
          match (findBestMatch d db.knownFaces).bestMatch with
          | some person => .recognized person (findBestMatch d db.knownFaces).bestSq
          | none => .noMatch (findBestMatch d db.knownFaces).bestSq := by
  have hfilter : findBestMatch d (db.knownFaces.filter (fun k => k.faceDescriptor.isSome))
      = findBestMatch d db.knownFaces := foldl_matchStep_filter d db.knownFaces _
  unfold recognize
  simp only [hfilter]
  split_ifs with h
  · rfl
  · cases hb : (findBestMatch d db.knownFaces).bestMatch <;> simp [hb]

theorem recognize_cases (db : Db) (now : Int) (d : List ℚ) :
    (((recognize db now (some d)).2 = .noKnownFaces ∨
        (recognize db now (some d)).2 = .noMatch none) ∧
      ∀ k ∈ db.knownFaces, ∀ s, Candidate d k s → ¬ s < thresholdSq) ∨
    (∃ p sq pre post, (recognize db now (some d)).2 = .recognized p (some sq) ∧
      db.knownFaces = pre ++ p :: post ∧ Candidate d p sq ∧ sq < thresholdSq ∧
      (∀ k ∈ db.knownFaces, ∀ s, Candidate d k s → sq ≤ s) ∧
      (∀ k ∈ pre, ∀ s, Candidate d k s → sq < s)) := by
  rw [recognize_response]
  rcases bestOf_findBestMatch d db.knownFaces with
    ⟨hacc, hnone⟩ | ⟨p, sq, pre, post, hacc, hl, hp, hlt, hmin, hfirst⟩
  · refine Or.inl ⟨?_, hnone⟩
    rw [hacc]
    split_ifs
    · exact Or.inl rfl
    · exact Or.inr rfl
  · refine Or.inr ⟨p, sq, pre, post, ?_, hl, hp, hlt, hmin, hfirst⟩
    have hmem : p ∈ db.knownFaces.filter (fun k => k.faceDescriptor.isSome) := by
      obtain ⟨pd, hpd, _⟩ := hp
      rw [List.mem_filter]
      exact ⟨by rw [hl]; simp, by simp [hpd]⟩
    have hlen : (db.knownFaces.filter (fun k => k.faceDescriptor.isSome)).length ≠ 0 := by
      intro h0
      rw [List.length_eq_zero] at h0
      rw [h0] at hmem
      exact absurd hmem (List.not_mem_nil _)
    rw [if_neg hlen, hacc]

/-- C4: for every descriptor `d` and every set of enrolled identities, `POST /recognize`
reports a match iff some enrolled identity has a descriptor of the length of `d` at
Euclidean distance strictly below 0.6; the identity returned has least distance among the
identities with a descriptor of that length, it is the first in enrolment order among those
of least distance, and the confidence returned is 1 minus that distance; an identity whose
descriptor has another length is never returned, and without enrolled descriptors the
answer is "no match". -/
theorem recognize_matches_nearest (db : Db) (now : Int) (d : List ℚ) :
    ((∃ p sq, (recognize db now (some d)).2 = .recognized p sq) ↔
        ∃ k ∈ db.knownFaces, ∃ dist, EnrolledAt d k dist ∧ dist < 0.6) ∧
    (∀ p sq, (recognize db now (some d)).2 = .recognized p sq →
        ∃ dist pre post, db.knownFaces = pre ++ p :: post ∧
          EnrolledAt d p dist ∧ dist < 0.6 ∧
          (∀ k ∈ db.knownFaces, ∀ x, EnrolledAt d k x → dist ≤ x) ∧
          (∀ k ∈ pre, ∀ x, EnrolledAt d k x → dist < x) ∧
          (recognize db now (some d)).2.confidence = some (1 - dist)) ∧
    (∀ p sq, (recognize db now (some d)).2 = .recognized p sq →
        ∃ pd, p.faceDescriptor = some pd ∧ pd.length = d.length) ∧
    ((∀ k ∈ db.knownFaces, k.faceDescriptor = none) →
        (recognize db now (some d)).2 = .noKnownFaces) := by
  have hkey : ∀ p sq, (recognize db now (some d)).2 = .recognized p sq →
      ∃ dist pre post, db.knownFaces = pre ++ p :: post ∧
        EnrolledAt d p dist ∧ dist < 0.6 ∧
        (∀ k ∈ db.knownFaces, ∀ x, EnrolledAt d k x → dist ≤ x) ∧
        (∀ k ∈ pre, ∀ x, EnrolledAt d k x → dist < x) ∧
        (recognize db now (some d)).2.confidence = some (1 - dist) := by
    intro p sq hrec
    rcases recognize_cases db now d with
      ⟨hresp, _⟩ | ⟨p', sq', pre, post, hresp, hl, hp, hlt, hmin, hfirst⟩
    · rcases hresp with h | h <;> rw [h] at hrec <;> cases hrec
    · rw [hresp] at hrec
      obtain ⟨hpe, -⟩ := RecognizeResponse.recognized.inj hrec
      rw [← hpe]
      refine ⟨Real.sqrt (sq' : ℝ), pre, post, hl, (enrolledAt_iff d p' _).2 ⟨sq', hp, rfl⟩,
        (sqrt_lt_threshold_iff sq').2 hlt, ?_, ?_, ?_⟩
      · intro k hk x hx
        obtain ⟨s, hs, rfl⟩ := (enrolledAt_iff d k x).1 hx
        exact Real.sqrt_le_sqrt (by exact_mod_cast hmin k hk s hs)
      · intro k hk x hx
        obtain ⟨s, hs, rfl⟩ := (enrolledAt_iff d k x).1 hx
        exact Real.sqrt_lt_sqrt (by exact_mod_cast hp.nonneg)
          (by exact_mod_cast hfirst k hk s hs)
      · rw [hresp]
        rfl
  refine ⟨⟨?_, ?_⟩, hkey, ?_, ?_⟩
  · rintro ⟨p, sq, hrec⟩
    obtain ⟨dist, pre, post, hl, hp, hlt, _⟩ := hkey p sq hrec
    exact ⟨p, by rw [hl]; simp, dist, hp, hlt⟩
  · rintro ⟨k, hk, dist, hen, hlt⟩
    rcases recognize_cases db now d with
      ⟨_, hnone⟩ | ⟨p', sq', _, _, hresp, _⟩
    · obtain ⟨s, hs, rfl⟩ := (enrolledAt_iff d k dist).1 hen
      exact absurd ((sqrt_lt_threshold_iff s).1 hlt) (hnone k hk s hs)
    · exact ⟨p', some sq', hresp⟩
  · intro p sq hrec
    obtain ⟨dist, pre, post, _, ⟨pd, hpd, hlen, _⟩, _⟩ := hkey p sq hrec
    exact ⟨pd, hpd, hlen⟩
  · intro hnone
    rw [recognize_response]
    have hfilter : db.knownFaces.filter (fun k => k.faceDescriptor.isSome) = [] := by
      rw [List.filter_eq_nil_iff]
      intro k hk
      simp [hnone k hk]
    simp [hfilter]

/-- C4 at a concrete enrolled set: against `Ann` at `[0, 0]` and `Bob` at `[3/10, 0]`, the
descriptor `[3/10, 0]` is matched to `Bob`, at distance 0, although `Ann` is enrolled first
and lies below the threshold too. -/
theorem recognize_matches_nearest_witness :
    (recognize sampleFacesDb 7 (some [3 / 10, 0])).2 = .recognized sampleBob (some 0) ∧
    ∃ dist, EnrolledAt [3 / 10, 0] sampleBob dist ∧ dist < 0.6 ∧
      (recognize sampleFacesDb 7 (some [3 / 10, 0])).2.confidence = some (1 - dist) := by
  have hresp : (recognize sampleFacesDb 7 (some [3 / 10, 0])).2
      = .recognized sampleBob (some 0) := by
    simp [recognize, findBestMatch, matchStep, sampleFacesDb, sampleAnn, sampleBob, Db.empty,
      sumSquares, belowBest, thresholdSq]
    norm_num
  refine ⟨hresp, ?_⟩
  obtain ⟨dist, _, _, _, hen, hlt, _, _, hconf⟩ :=
    (recognize_matches_nearest sampleFacesDb 7 [3 / 10, 0]).2.1 _ _ hresp
  exact ⟨dist, hen, hlt, hconf⟩

/-! ## Theorems: identity deletion -/

theorem find?_knownFace_isSome (id : Nat) (faces : List KnownFace) :
    (∃ k ∈ faces, k.id = id) → ∃ face, faces.find? (fun k => k.id = id) = some face := by
  rintro ⟨k, hk, hid⟩
  cases h : faces.find? (fun k => k.id = id) with
  | some face => exact ⟨face, rfl⟩
  | none =>
    rw [List.find?_eq_none] at h
    exact absurd (by simpa using hid) (h k hk)

theorem deleteFace_events (db : Db) (now : Int) (id : Nat) (h : ∃ k ∈ db.knownFaces, k.id = id) :
    ∃ logged : Event, logged.type = "system" ∧ logged.id = db.nextId ∧
      (deleteFace db now id).1.events = db.events.map (scrubEvent id) ++ [logged] := by
  obtain ⟨face, hface⟩ := find?_knownFace_isSome id db.knownFaces h
  simp only [deleteFace, hface]
  exact ⟨_, rfl, rfl, rfl⟩

/-- C5, the claim as stated fails: on a store of three events that refer to the identity
`Ann`, deleting `Ann` leaves four events, not three. -/
theorem deleteFace_event_count_counterexample :
    sampleVisitsDb.events.length = 3 ∧
    (deleteFace sampleVisitsDb 40 0).1.events.length = 4 ∧
    (deleteFace sampleVisitsDb 40 0).1.events.length ≠ sampleVisitsDb.events.length := by
  decide

/-- C5, amended: deleting an existing identity keeps every earlier event (position by
position, scrubbed of the identity) and appends exactly one `system` event that logs the
deletion, so the number of events grows by exactly 1; deleting an id that names no
identity leaves the database, and so the number of events, unchanged. -/
theorem deleteFace_event_count (db : Db) (now : Int) (id : Nat) :
    ((∃ k ∈ db.knownFaces, k.id = id) →
      (deleteFace db now id).1.events.length = db.events.length + 1 ∧
      ∃ logged : Event, logged.type = "system" ∧
        (deleteFace db now id).1.events = db.events.map (scrubEvent id) ++ [logged]) ∧
    ((∀ k ∈ db.knownFaces, k.id ≠ id) →
      (deleteFace db now id) = (db, .notFound)) := by
  constructor
  · intro h
    obtain ⟨logged, htype, _, hev⟩ := deleteFace_events db now id h
    exact ⟨by rw [hev]; simp, logged, htype, hev⟩
  · intro h
    have hnone : db.knownFaces.find? (fun k => k.id = id) = none := by
      rw [List.find?_eq_none]
      intro k hk
      simpa using h k hk
    simp only [deleteFace, hnone]

/-- C5, amended, on the sample store: three events before, four after, the fourth being
the `system` event of the deletion. -/
theorem deleteFace_event_count_witness :
    (deleteFace sampleVisitsDb 40 0).1.events.length = sampleVisitsDb.events.length + 1 ∧
    (deleteFace sampleVisitsDb 40 7) = (sampleVisitsDb, .notFound) :=
  ⟨((deleteFace_event_count sampleVisitsDb 40 0).1 ⟨sampleAnn, by decide, by decide⟩).1,
   (deleteFace_event_count sampleVisitsDb 40 7).2 (by decide)⟩

/-- C6: for every existing identity `id` and every event store, every event of the store
before `DELETE /faces/:id` is still in the store afterwards, at its position: with
`personId` and `personName` cleared and every other field unchanged when its `personId`
was `id`, and unchanged in all fields otherwise. -/
theorem deleteFace_scrubs_events (db : Db) (now : Int) (id : Nat)
    (h : ∃ k ∈ db.knownFaces, k.id = id) :
    ∀ (i : Nat) (e : Event), db.events[i]? = some e →
      (deleteFace db now id).1.events[i]?
        = some (if e.personId = some id then { e with personId := none, personName := none }
                else e) := by
  intro i e hi
  obtain ⟨logged, _, _, hev⟩ := deleteFace_events db now id h
  have hlt : i < db.events.length := by
    rcases Nat.lt_or_ge i db.events.length with hlt | hge
    · exact hlt
    · rw [List.getElem?_eq_none hge] at hi
      cases hi
  rw [hev, List.getElem?_append_left (by simpa using hlt), List.getElem?_map, hi]
  rfl

/-- C6 on the sample store: after deleting `Ann`, the first event is still there, with no
person and otherwise as before. -/
theorem deleteFace_scrubs_events_witness :
    (deleteFace sampleVisitsDb 40 0).1.events[0]?
      = some { sampleVisit 1 10 with personId := none, personName := none } :=
  deleteFace_scrubs_events sampleVisitsDb 40 0 ⟨sampleAnn, by decide, by decide⟩ 0
    (sampleVisit 1 10) rfl

/-! ## Theorems: approval workflow -/

theorem find?_markApproved (id : Nat) :
    ∀ (us : List UnknownFace) (u : UnknownFace), us.find? (fun v => v.id = id) = some u →
      (markApproved id us).find? (fun v => v.id = id) = some { u with status := "approved" }
  | [], _, h => by simp at h
  | w :: us, u, h => by
    by_cases hw : w.id = id
    · simp only [List.find?_cons, hw, decide_True] at h
      cases h
      simp [markApproved, hw]
    · simp only [List.find?_cons, hw, decide_False] at h
      have ih := find?_markApproved id us u h
      simp only [markApproved, if_neg hw]
      rw [List.find?_cons]
      simp only [hw, decide_False]
      exact ih

/-- The approval handlers have no guard on `status`: whenever an approval succeeds, the
same approval repeated succeeds again, adds a second identity and logs a second event. -/
theorem approveWith_twice (db : Db) (now1 now2 : Int) (id : Nat) (name : Option String)
    (category : String) (describe : String → String) (k : KnownFace)
    (h : (approveWith db now1 id name category describe).2 = .success k) :
    (approveWith (approveWith db now1 id name category describe).1 now2 id name category
        describe).2 = .success { k with id := db.nextId + 2 } ∧
    (approveWith (approveWith db now1 id name category describe).1 now2 id name category
        describe).1.knownFaces
      = db.knownFaces ++ [k, { k with id := db.nextId + 2 }] ∧
    (approveWith (approveWith db now1 id name category describe).1 now2 id name category
        describe).1.events.length = db.events.length + 2 := by
  unfold approveWith at h ⊢
  cases hf : db.unknownFaces.find? (fun u => u.id = id) with
  | none => simp [hf] at h
  | some u =>
    have hf2 := find?_markApproved id db.unknownFaces u hf
    by_cases hn : truthy name = true
    · simp only [hf, hn, Bool.not_true, Bool.false_eq_true, if_false,
        ApproveResponse.success.injEq] at h
      subst h
      simp [hf, hn, hf2]
    · simp [hf, hn] at h

/-- C7, the behaviour of the code at the failing input: the pending sighting 0 is approved
twice as `Alex` through `POST /unknown/:id/approve`; the second call answers with success
and a new identity, and the store holds two identities `Alex` and two `face_added` events.
The bot command `/addunknown` does the same. -/
theorem approveUnknown_twice_duplicates :
    (approveUnknown (approveUnknown samplePendingDb 6 0 (some "Alex") none).1 7 0
        (some "Alex") none).2
      = .success { id := 3, name := "Alex", category := "guest", imagePath := none,
                   faceDescriptor := some [1, 2], visitCount := 0, lastSeen := none,
                   accessAllowed := true, approved := true } ∧
    ((approveUnknown (approveUnknown samplePendingDb 6 0 (some "Alex") none).1 7 0
        (some "Alex") none).1.knownFaces.map (fun k => (k.id, k.name)))
      = [(1, "Alex"), (3, "Alex")] ∧
    ((approveUnknown (approveUnknown samplePendingDb 6 0 (some "Alex") none).1 7 0
        (some "Alex") none).1.events.map (fun e => e.type))
      = ["face_added", "face_added"] ∧
    ((addUnknown (addUnknown samplePendingDb 6 0 "Alex").1 7 0 "Alex").1.knownFaces.map
        (fun k => (k.id, k.name)))
      = [(1, "Alex"), (3, "Alex")] := by
  refine ⟨?_, ?_, ?_, ?_⟩ <;> rfl

/-! ## Theorems: room state projector -/

theorem getRoomState_setRoomState_self (room : String) (state : RoomState) :
    ∀ rs : List (String × RoomState), getRoomState room (setRoomState room state rs) = some state
  | [] => by simp [setRoomState, getRoomState]
  | (k, v) :: rs => by
    by_cases hk : k = room
    · simp [setRoomState, getRoomState, hk]
    · simp [setRoomState, getRoomState, hk, getRoomState_setRoomState_self room state rs]

theorem getRoomState_setRoomState_ne (room other : String) (state : RoomState)
    (hne : other ≠ room) :
    ∀ rs : List (String × RoomState),
      getRoomState other (setRoomState room state rs) = getRoomState other rs
  | [] => by simp [setRoomState, getRoomState, Ne.symm hne]
  | (k, v) :: rs => by
    by_cases hk : k = room
    · subst hk
      simp [setRoomState, getRoomState, Ne.symm hne]
    · by_cases hk2 : k = other
      · subst hk2
        simp [setRoomState, getRoomState, hk]
      · simp [setRoomState, getRoomState, hk, hk2,
          getRoomState_setRoomState_ne room other state hne rs]

theorem processEvent_roomState (acc acc2 : Scan) (e : Event) (z : String)
    (hz : z ∈ roomNames) (h : processEvent acc e = .ok acc2) :
    getRoomState z acc2.roomStates
      = if e.room = some z then
          some (((getRoomState z acc.roomStates).getD RoomState.initial).scan e)
        else getRoomState z acc.roomStates := by
  unfold processEvent at h
  cases hr : e.room with
  | none =>
    simp only [hr, Except.ok.injEq] at h
    subst h
    simp
  | some room =>
    simp only [hr] at h
    by_cases hempty : room = ""
    · simp only [hempty, if_true, Except.ok.injEq] at h
      subst h
      have hzne : z ≠ "" := by
        intro hz0
        subst hz0
        revert hz
        decide
      simp [hempty, Ne.symm hzne]
    · simp only [hempty, if_false] at h
      by_cases hown : room ∈ roomNames
      · simp only [hown, if_true, Except.ok.injEq] at h
        subst h
        by_cases hzr : room = z
        · subst hzr
          simp [getRoomState_setRoomState_self]
        · have hne : z ≠ room := Ne.symm hzr
          simp only [Option.some.injEq, hzr, if_false]
          exact getRoomState_setRoomState_ne room z _ hne _
      · have hzr : room ≠ z := fun heq => hown (heq ▸ hz)
        simp only [hown, if_false] at h
        simp only [Option.some.injEq, hzr, if_false]
        by_cases hinh : acc.intrinsics.inherited room = true
        · simp only [hinh, if_true] at h
          cases hs : inheritedScan acc.intrinsics room e with
          | error m => simp [hs] at h
          | ok g =>
            simp only [hs, Except.ok.injEq] at h
            subst h
            rfl
        · have hinh2 : acc.intrinsics.inherited room = false := by simpa using hinh
          simp only [hinh2, Bool.false_eq_true, if_false, Except.ok.injEq] at h
          subst h
          rfl

theorem scanEvents_roomState (z : String) (hz : z ∈ roomNames) :
    ∀ (es : List Event) (acc acc2 : Scan), scanEvents acc es = .ok acc2 →
      getRoomState z acc2.roomStates
        = foldRoom (getRoomState z acc.roomStates) (eventsOfRoom z es)
  | [], acc, acc2, h => by
    simp only [scanEvents, Except.ok.injEq] at h
    subst h
    rfl
  | e :: es, acc, acc2, h => by
    simp only [scanEvents] at h
    cases hp : processEvent acc e with
    | error m => simp [hp] at h
    | ok acc1 =>
      simp only [hp] at h
      rw [scanEvents_roomState z hz es acc1 acc2 h, processEvent_roomState acc acc1 e z hz hp]
      by_cases hr : e.room = some z
      · simp [eventsOfRoom, List.filter_cons, hr, foldRoom]
      · simp [eventsOfRoom, List.filter_cons, hr]

theorem processEvent_ok_of_plain (acc : Scan) (e : Event)
    (h : plainRoom acc.intrinsics e = true) :
    ∃ acc2, processEvent acc e = .ok acc2 ∧ acc2.intrinsics = acc.intrinsics := by
  unfold processEvent
  cases hr : e.room with
  | none => exact ⟨acc, rfl, rfl⟩
  | some room =>
    by_cases hempty : room = ""
    · exact ⟨acc, by simp [hempty], rfl⟩
    · by_cases hown : room ∈ roomNames
      · exact ⟨{ acc with
            roomStates := setRoomState room
              (((getRoomState room acc.roomStates).getD RoomState.initial).scan e)
              acc.roomStates },
          by simp only [hempty, hown, if_true, if_false], rfl⟩
      · have hinh : acc.intrinsics.inherited room = false := by
          simpa [plainRoom, hr, hown] using h
        exact ⟨acc, by simp [hempty, hown, hinh], rfl⟩

theorem scanEvents_ok_of_plain :
    ∀ (es : List Event) (acc : Scan), PlainRooms acc.intrinsics es →
      ∃ acc2, scanEvents acc es = .ok acc2
  | [], acc, _ => ⟨acc, rfl⟩
  | e :: es, acc, h => by
    obtain ⟨acc1, hp, hg⟩ := processEvent_ok_of_plain acc e (h e (List.mem_cons_self _ _))
    have hrest : PlainRooms acc1.intrinsics es := by
      intro e2 he2
      rw [hg]
      exact h e2 (List.mem_cons_of_mem _ he2)
    obtain ⟨acc2, h2⟩ := scanEvents_ok_of_plain es acc1 hrest
    exact ⟨acc2, by simp only [scanEvents, hp, h2]⟩

theorem projectRooms_ok_of_plain (g : Intrinsics) (es : List Event) (h : PlainRooms g es) :
    ∃ rooms, projectRooms g es = .ok rooms := by
  obtain ⟨acc2, h2⟩ := scanEvents_ok_of_plain es { roomStates := [], intrinsics := g } h
  exact ⟨applyRoomStates acc2.roomStates, by simp only [projectRooms, h2]⟩

theorem projectRooms_eq_ok (g : Intrinsics) (es : List Event) (rooms : List (String × RoomView))
    (h : projectRooms g es = .ok rooms) :
    ∃ acc2, scanEvents { roomStates := [], intrinsics := g } es = .ok acc2 ∧
      rooms = applyRoomStates acc2.roomStates := by
  unfold projectRooms at h
  cases hs : scanEvents { roomStates := [], intrinsics := g } es with
  | error m => simp [hs] at h
  | ok acc2 =>
    simp only [hs, Except.ok.injEq] at h
    exact ⟨acc2, rfl, h.symm⟩

theorem roomView_applyRoomStates (rs : List (String × RoomState)) (z : String)
    (hz : z ∈ roomNames) :
    ∃ accessPoint, roomView (applyRoomStates rs) z
      = some (match getRoomState z rs with
              | none => { motion := false, accessPoint := accessPoint, people := [] }
              | some state =>
                { motion := decide (state.people.length > 0), accessPoint := accessPoint,
                  people := state.people }) := by
  have hcases : z = "hall" ∨ z = "kitchen" ∨ z = "bedroom" ∨ z = "garden" ∨
      z = "living_room" := by
    simpa [roomNames, initialRooms] using hz
  rcases hcases with rfl | rfl | rfl | rfl | rfl
  · refine ⟨("door", "closed"), ?_⟩
    cases hg : getRoomState "hall" rs <;>
      simp [roomView, applyRoomStates, initialRooms, hg]
  · refine ⟨("window", "closed"), ?_⟩
    cases hg : getRoomState "kitchen" rs <;>
      cases hg1 : getRoomState "hall" rs <;>
      simp [roomView, applyRoomStates, initialRooms, hg, hg1]
  · refine ⟨("door", "closed"), ?_⟩
    cases hg : getRoomState "bedroom" rs <;>
      cases hg1 : getRoomState "hall" rs <;>
      cases hg2 : getRoomState "kitchen" rs <;>
      simp [roomView, applyRoomStates, initialRooms, hg, hg1, hg2]
  · refine ⟨("gate", "closed"), ?_⟩
    cases hg : getRoomState "garden" rs <;>
      cases hg1 : getRoomState "hall" rs <;>
      cases hg2 : getRoomState "kitchen" rs <;>
      cases hg3 : getRoomState "bedroom" rs <;>
      simp [roomView, applyRoomStates, initialRooms, hg, hg1, hg2, hg3]
  · refine ⟨("window", "closed"), ?_⟩
    cases hg : getRoomState "living_room" rs <;>
      cases hg1 : getRoomState "hall" rs <;>
      cases hg2 : getRoomState "kitchen" rs <;>
      cases hg3 : getRoomState "bedroom" rs <;>
      cases hg4 : getRoomState "garden" rs <;>
      simp [roomView, applyRoomStates, initialRooms, hg, hg1, hg2, hg3, hg4]

theorem isClearing_iff (t : String) :
    isClearing t = true ↔ t = "motion_cleared" ∨ t = "evacuation" := by
  simp [isClearing]

theorem isClearing_eq_false_iff (t : String) :
    isClearing t = false ↔ t ≠ "motion_cleared" ∧ t ≠ "evacuation" := by
  simp [isClearing]

theorem truthy_some (t : String) (hne : t ≠ "") : truthy (some t) = true := by
  simp [truthy, hne]

theorem scan_of_clearing_state (st : RoomState) (e : Event) (t : String)
    (ht : st.lastEventType = some t) (hc : isClearing t = true) : st.scan e = st := by
  have hne : t ≠ "" := by
    rcases (isClearing_iff t).1 hc with rfl | rfl <;> decide
  have htr : truthy st.lastEventType = true := by rw [ht]; exact truthy_some t hne
  unfold RoomState.scan
  simp only [htr, Bool.not_true, Bool.false_eq_true, if_false]
  rw [if_neg]
  rw [ht]
  rcases (isClearing_iff t).1 hc with rfl | rfl
  · exact fun h => h.2.2.2.1 rfl
  · exact fun h => h.2.2.2.2 rfl

theorem scan_of_fixed_state (st : RoomState) (e : Event) (t : String)
    (ht : st.lastEventType = some t) (hne : t ≠ "") (hc : isClearing t = false) :
    st.scan e
      = { st with
          people :=
            if truthy e.personName = true ∧ isClearing e.type = false then
              setAdd st.people (e.personName.getD "")
            else st.people } := by
  obtain ⟨h1, h2⟩ := (isClearing_eq_false_iff t).1 hc
  have htr : truthy st.lastEventType = true := by rw [ht]; exact truthy_some t hne
  have hl1 : st.lastEventType ≠ some "motion_cleared" := by
    rw [ht]; exact fun h => h1 (Option.some.inj h)
  have hl2 : st.lastEventType ≠ some "evacuation" := by
    rw [ht]; exact fun h => h2 (Option.some.inj h)
  unfold RoomState.scan
  simp only [htr, Bool.not_true, Bool.false_eq_true, if_false]
  by_cases hcond : truthy e.personName = true ∧ isClearing e.type = false
  · obtain ⟨h3, h4⟩ := (isClearing_eq_false_iff e.type).1 hcond.2
    rw [if_pos ⟨hcond.1, h4, h3, hl1, hl2⟩, if_pos hcond]
  · rw [if_neg hcond, if_neg]
    rintro ⟨h5, h6, h7, _, _⟩
    exact hcond ⟨h5, (isClearing_eq_false_iff e.type).2 ⟨h7, h6⟩⟩

theorem scan_initial_clearing (e : Event) (hc : isClearing e.type = true) :
    RoomState.initial.scan e
      = { hasMotion := false, people := [], lastEventType := some e.type } := by
  have hor := (isClearing_iff e.type).1 hc
  unfold RoomState.scan
  simp only [RoomState.initial, truthy, Bool.not_false, if_true, hor]
  rw [if_neg]
  rintro ⟨_, h6, h7, _, _⟩
  rcases hor with h | h
  · exact h7 h
  · exact h6 h

theorem scan_initial_other (e : Event) (hc : isClearing e.type = false) :
    (RoomState.initial.scan e).lastEventType = some e.type ∧
    (RoomState.initial.scan e).people
      = if truthy e.personName = true then [e.personName.getD ""] else [] := by
  obtain ⟨h1, h2⟩ := (isClearing_eq_false_iff e.type).1 hc
  have hor : ¬ (e.type = "motion_cleared" ∨ e.type = "evacuation") := by
    rintro (h | h)
    · exact h1 h
    · exact h2 h
  have hl1 : some e.type ≠ some "motion_cleared" := fun h => h1 (Option.some.inj h)
  have hl2 : some e.type ≠ some "evacuation" := fun h => h2 (Option.some.inj h)
  unfold RoomState.scan
  have hfalse : truthy RoomState.initial.lastEventType = false := rfl
  simp only [hfalse, Bool.not_false, if_true, hor, if_false]
  by_cases hm : e.type = "motion"
  · by_cases hp : truthy e.personName = true
    · simp only [hm, if_true] at hl1 hl2 ⊢
      rw [if_pos ⟨hp, by rw [← hm]; exact h2, by rw [← hm]; exact h1, hl1, hl2⟩, if_pos hp]
      exact ⟨rfl, rfl⟩
    · simp only [hm, if_true]
      rw [if_neg (fun h => hp h.1), if_neg hp]
      exact ⟨rfl, rfl⟩
  · by_cases hp : truthy e.personName = true
    · simp only [hm, if_false]
      rw [if_pos ⟨hp, h2, h1, hl1, hl2⟩, if_pos hp]
      exact ⟨rfl, rfl⟩
    · simp only [hm, if_false]
      rw [if_neg (fun h => hp h.1), if_neg hp]
      exact ⟨rfl, rfl⟩

theorem scan_people_nil (st : RoomState) (e : Event) (hp : truthy e.personName = false)
    (hst : st.people = []) : (st.scan e).people = [] := by
  unfold RoomState.scan
  simp only [hp, Bool.false_eq_true, false_and, if_false]
  split_ifs <;> simp [hst]

theorem foldRoom_people_nil :
    ∀ (es : List Event) (st st2 : RoomState), (∀ e ∈ es, truthy e.personName = false) →
      st.people = [] → foldRoom (some st) es = some st2 → st2.people = []
  | [], st, st2, _, hst, h => by
    simp only [foldRoom, Option.some.injEq] at h
    exact h ▸ hst
  | e :: es, st, st2, hes, hst, h => by
    simp only [foldRoom, Option.getD_some] at h
    exact foldRoom_people_nil es (st.scan e) st2
      (fun e2 he2 => hes e2 (List.mem_cons_of_mem _ he2))
      (scan_people_nil st e (hes e (List.mem_cons_self _ _)) hst) h

theorem foldRoom_of_clearing_state (st : RoomState) (t : String)
    (ht : st.lastEventType = some t) (hc : isClearing t = true) :
    ∀ es : List Event, foldRoom (some st) es = some st
  | [] => rfl
  | e :: es => by
    simp only [foldRoom, Option.getD_some, scan_of_clearing_state st e t ht hc]
    exact foldRoom_of_clearing_state st t ht hc es

theorem setAdd_nodup (people : List String) (n : String) (h : people.Nodup) :
    (setAdd people n).Nodup := by
  unfold setAdd
  split_ifs with hmem
  · exact h
  · exact List.Nodup.append h (List.nodup_singleton n) (by simpa using hmem)

theorem mem_setAdd (people : List String) (n m : String) :
    m ∈ setAdd people n ↔ m ∈ people ∨ m = n := by
  unfold setAdd
  split_ifs with hmem
  · constructor
    · exact Or.inl
    · rintro (h | rfl)
      · exact h
      · exact hmem
  · simp

theorem truthy_iff (name : Option String) :
    truthy name = true ↔ ∃ n, name = some n ∧ n ≠ "" := by
  cases name with
  | none => simp [truthy]
  | some n => simp [truthy]

theorem foldRoom_of_fixed_state (t : String) (hne : t ≠ "") (hc : isClearing t = false) :
    ∀ (es : List Event) (st : RoomState), st.lastEventType = some t → st.people.Nodup →
      ∃ st2, foldRoom (some st) es = some st2 ∧ st2.lastEventType = some t ∧
        st2.people.Nodup ∧
        ∀ n, n ∈ st2.people ↔
          n ∈ st.people ∨
            ∃ e ∈ es, e.personName = some n ∧ n ≠ "" ∧ isClearing e.type = false
  | [], st, ht, hnd => ⟨st, rfl, ht, hnd, by simp⟩
  | e :: es, st, ht, hnd => by
    have hscan := scan_of_fixed_state st e t ht hne hc
    have ht1 : (st.scan e).lastEventType = some t := by rw [hscan]; exact ht
    have hnd1 : (st.scan e).people.Nodup := by
      rw [hscan]
      show (if _ then _ else _ : List String).Nodup
      split_ifs
      · exact setAdd_nodup _ _ hnd
      · exact hnd
    obtain ⟨st2, hfold, ht2, hnd2, hmem⟩ :=
      foldRoom_of_fixed_state t hne hc es (st.scan e) ht1 hnd1
    refine ⟨st2, by simp only [foldRoom, Option.getD_some, hfold], ht2, hnd2, ?_⟩
    intro n
    rw [hmem n]
    have hfirst : n ∈ (st.scan e).people ↔
        n ∈ st.people ∨ (e.personName = some n ∧ n ≠ "" ∧ isClearing e.type = false) := by
      rw [hscan]
      show n ∈ (if _ then _ else _ : List String) ↔ _
      split_ifs with hcond
      · obtain ⟨m, hm, hmne⟩ := (truthy_iff e.personName).1 hcond.1
        rw [mem_setAdd, hm]
        simp only [Option.getD_some, Option.some.injEq]
        constructor
        · rintro (h | rfl)
          · exact Or.inl h
          · exact Or.inr ⟨rfl, hmne, hcond.2⟩
        · rintro (h | ⟨h, _, _⟩)
          · exact Or.inl h
          · exact Or.inr h.symm
      · constructor
        · exact Or.inl
        · rintro (h | ⟨h1, h2, h3⟩)
          · exact h
          · exact absurd ⟨(truthy_iff e.personName).2 ⟨n, h1, h2⟩, h3⟩ hcond
    rw [hfirst]
    simp only [List.mem_cons, exists_eq_or_imp]
    tauto

theorem foldRoom_none_clearing (e : Event) (es : List Event) (hc : isClearing e.type = true) :
    foldRoom none (e :: es)
      = some { hasMotion := false, people := [], lastEventType := some e.type } := by
  simp only [foldRoom, Option.getD_none, scan_initial_clearing e hc]
  exact foldRoom_of_clearing_state _ e.type rfl hc es

theorem roomView_of_scan (g : Intrinsics) (events : List Event)
    (rooms : List (String × RoomView)) (z : String) (hz : z ∈ roomNames)
    (h : projectRooms g events = .ok rooms) :
    ∃ accessPoint, roomView rooms z
      = some (match foldRoom none (eventsOfRoom z events) with
              | none => { motion := false, accessPoint := accessPoint, people := [] }
              | some state =>
                { motion := decide (state.people.length > 0), accessPoint := accessPoint,
                  people := state.people }) := by
  obtain ⟨acc2, hscan, rfl⟩ := projectRooms_eq_ok g events rooms h
  obtain ⟨accessPoint, hview⟩ := roomView_applyRoomStates acc2.roomStates z hz
  have hfold := scanEvents_roomState z hz events _ acc2 hscan
  rw [hfold] at hview
  exact ⟨accessPoint, hview⟩

/-- C3, the claim as stated fails: in this window of the hall, newest first, the
`motion_cleared` event is newer than the only `detection` event, and the projection still
reports motion and the occupant `Alice`, who was recognised (`known_face`) after the hall
was cleared. -/
theorem projectRooms_cleared_counterexample :
    sampleReturnWindow
      = [sampleEvent 3 "known_face" "hall" (some "Alice") 30]
          ++ sampleEvent 2 "motion_cleared" "hall" none 20
          :: [sampleEvent 1 "detection" "hall" (some "Alice") 10] ∧
    (∀ e ∈ [sampleEvent 3 "known_face" "hall" (some "Alice") 30],
        ¬ (e.room = some "hall" ∧ e.type = "detection")) ∧
    (projectRooms Intrinsics.fresh sampleReturnWindow).toOption.bind
        (fun rooms => roomView rooms "hall")
      = some { motion := true, accessPoint := ("door", "closed"), people := ["Alice"] } := by
  refine ⟨rfl, by decide, by decide⟩

/-- C3, amended: if the newest event of a zone in the window is a `motion_cleared` event
(the zone has a `motion_cleared` event newer than every other event of the zone), the
house-state projection reports `motion = false` and no occupant for that zone, whatever
older events of the zone are in the window; the projection returns a result whenever no
event names a room through the prototype chain. -/
theorem projectRooms_cleared_room (g : Intrinsics) (events : List Event) (z : String)
    (hz : z ∈ roomNames)
    (hnewest : ∃ c, (eventsOfRoom z events).head? = some c ∧ c.type = "motion_cleared") :
    (PlainRooms g events → ∃ rooms, projectRooms g events = .ok rooms) ∧
    ∀ rooms, projectRooms g events = .ok rooms →
      ∃ view, roomView rooms z = some view ∧ view.motion = false ∧ view.people = [] := by
  refine ⟨projectRooms_ok_of_plain g events, ?_⟩
  intro rooms hrooms
  obtain ⟨accessPoint, hview⟩ := roomView_of_scan g events rooms z hz hrooms
  obtain ⟨c, hc, htype⟩ := hnewest
  cases hes : eventsOfRoom z events with
  | nil => simp [hes] at hc
  | cons e es =>
    rw [hes, List.head?_cons, Option.some.injEq] at hc
    subst hc
    have hclear : isClearing e.type = true := (isClearing_iff e.type).2 (Or.inl htype)
    rw [hes, foldRoom_none_clearing e es hclear] at hview
    exact ⟨_, hview, rfl, rfl⟩

/-- C3, amended, on a window: `Bob` is seen in the hall and the hall is cleared after that;
the hall is reported without motion and empty. -/
theorem projectRooms_cleared_room_witness :
    (∃ rooms, projectRooms Intrinsics.fresh sampleClearedWindow = .ok rooms) ∧
    ∀ rooms, projectRooms Intrinsics.fresh sampleClearedWindow = .ok rooms →
      ∃ view, roomView rooms "hall" = some view ∧ view.motion = false ∧ view.people = [] :=
  ⟨(projectRooms_cleared_room Intrinsics.fresh sampleClearedWindow "hall" (by decide)
      ⟨sampleEvent 2 "motion_cleared" "hall" none 20, rfl, rfl⟩).1
      (by unfold PlainRooms; decide),
   (projectRooms_cleared_room Intrinsics.fresh sampleClearedWindow "hall" (by decide)
      ⟨sampleEvent 2 "motion_cleared" "hall" none 20, rfl, rfl⟩).2⟩

theorem initialRooms_idle : ∀ entry ∈ initialRooms, entry.2.motion = false ∧ entry.2.people = [] := by
  decide

theorem applyRoomStates_lockstep (rs : List (String × RoomState)) :
    ∀ room view, (room, view) ∈ applyRoomStates rs → (view.motion = true ↔ view.people ≠ []) := by
  intro room view hmem
  unfold applyRoomStates at hmem
  obtain ⟨entry, hentry, heq⟩ := List.mem_map.1 hmem
  cases hg : getRoomState entry.1 rs with
  | none =>
    simp only [hg] at heq
    obtain ⟨h1, h2⟩ := initialRooms_idle entry hentry
    rw [heq] at h1 h2
    simp only at h1 h2
    simp [h1, h2]
  | some state =>
    simp only [hg, Prod.mk.injEq] at heq
    obtain ⟨_, rfl⟩ := heq
    simp [List.length_pos]

/-- C8: for every window of events, every zone of the output of the house-state projection
has `motion = true` iff its list of occupants is not empty; in particular a zone whose
events in the window carry no person name (only `motion` events, say) is reported with
`motion = false` and no occupant, whatever the type of its newest event. The projection
returns a result whenever no event names a room through the prototype chain. -/
theorem projectRooms_motion_iff_occupied (g : Intrinsics) (events : List Event) :
    (PlainRooms g events → ∃ rooms, projectRooms g events = .ok rooms) ∧
    ∀ rooms, projectRooms g events = .ok rooms →
      (∀ room view, (room, view) ∈ rooms → (view.motion = true ↔ view.people ≠ [])) ∧
      (∀ z ∈ roomNames, ∃ view, roomView rooms z = some view ∧
        (view.motion = true ↔ view.people ≠ [])) ∧
      (∀ z ∈ roomNames, (∀ e ∈ events, e.room = some z → truthy e.personName = false) →
        ∃ view, roomView rooms z = some view ∧ view.motion = false ∧ view.people = []) := by
  refine ⟨projectRooms_ok_of_plain g events, ?_⟩
  intro rooms hrooms
  refine ⟨?_, ?_, ?_⟩
  · obtain ⟨acc2, _, rfl⟩ := projectRooms_eq_ok g events rooms hrooms
    exact applyRoomStates_lockstep acc2.roomStates
  · intro z hz
    obtain ⟨accessPoint, hview⟩ := roomView_of_scan g events rooms z hz hrooms
    refine ⟨_, hview, ?_⟩
    cases foldRoom none (eventsOfRoom z events) with
    | none => simp
    | some state => simp [List.length_pos]
  · intro z hz hnames
    obtain ⟨accessPoint, hview⟩ := roomView_of_scan g events rooms z hz hrooms
    refine ⟨_, hview, ?_⟩
    cases hes : eventsOfRoom z events with
    | nil => simp [foldRoom]
    | cons e es =>
      have hall : ∀ e2 ∈ e :: es, truthy e2.personName = false := by
        intro e2 he2
        have hmem : e2 ∈ eventsOfRoom z events := hes ▸ he2
        obtain ⟨hin, hroom⟩ := List.mem_filter.1 hmem
        exact hnames e2 hin (by simpa using hroom)
      cases hf : foldRoom none (e :: es) with
      | none => simp
      | some state =>
        have hnil : state.people = [] := by
          have hf2 : foldRoom (some (RoomState.initial.scan e)) es = some state := by
            simpa [foldRoom] using hf
          exact foldRoom_people_nil es _ state
            (fun e2 he2 => hall e2 (List.mem_cons_of_mem _ he2))
            (scan_people_nil _ e (hall e (List.mem_cons_self _ _)) rfl) hf2
        simp [hnil]

/-- C8 on a window: the only event is a `motion` event in the hall; the hall is reported
without motion and without occupants. -/
theorem projectRooms_motion_iff_occupied_witness :
    (∃ rooms, projectRooms Intrinsics.fresh [sampleEvent 1 "motion" "hall" none 10] = .ok rooms) ∧
    ∀ rooms, projectRooms Intrinsics.fresh [sampleEvent 1 "motion" "hall" none 10] = .ok rooms →
      ∃ view, roomView rooms "hall" = some view ∧ view.motion = false ∧ view.people = [] :=
  ⟨(projectRooms_motion_iff_occupied Intrinsics.fresh
      [sampleEvent 1 "motion" "hall" none 10]).1 (by unfold PlainRooms; decide),
   fun rooms hrooms =>
    ((projectRooms_motion_iff_occupied Intrinsics.fresh
      [sampleEvent 1 "motion" "hall" none 10]).2 rooms hrooms).2.2 "hall" (by decide)
      (by decide)⟩

theorem foldRoom_none_other (e : Event) (es : List Event) (hne : e.type ≠ "")
    (hc : isClearing e.type = false) :
    ∃ st2, foldRoom none (e :: es) = some st2 ∧ st2.people.Nodup ∧
      ∀ n, n ∈ st2.people ↔
        ∃ e2 ∈ e :: es, e2.personName = some n ∧ n ≠ "" ∧ isClearing e2.type = false := by
  obtain ⟨hlast, hpeople⟩ := scan_initial_other e hc
  have hnd : (RoomState.initial.scan e).people.Nodup := by
    rw [hpeople]
    split_ifs <;> simp
  obtain ⟨st2, hfold, _, hnd2, hmem⟩ :=
    foldRoom_of_fixed_state e.type hne hc es (RoomState.initial.scan e) hlast hnd
  refine ⟨st2, by simpa [foldRoom] using hfold, hnd2, ?_⟩
  intro n
  rw [hmem n, hpeople]
  have hfirst : n ∈ (if truthy e.personName = true then [e.personName.getD ""] else [])
      ↔ (e.personName = some n ∧ n ≠ "" ∧ isClearing e.type = false) := by
    split_ifs with hp
    · obtain ⟨m, hm, hmne⟩ := (truthy_iff e.personName).1 hp
      rw [hm]
      simp only [Option.getD_some, List.mem_singleton, Option.some.injEq]
      constructor
      · rintro rfl
        exact ⟨rfl, hmne, hc⟩
      · rintro ⟨h, _, _⟩
        exact h.symm
    · simp only [List.not_mem_nil, false_iff]
      rintro ⟨h1, h2, _⟩
      exact hp ((truthy_iff e.personName).2 ⟨n, h1, h2⟩)
  rw [hfirst]
  simp only [List.mem_cons, exists_eq_or_imp]

/-- C9: for each of the five zones and every window of events, newest first, whose event
types are non-empty (the schema requires `type`): the occupants projected for the zone are
none when the newest event of the zone is `motion_cleared` or `evacuation`; otherwise they
are, without duplicates, exactly the person names (non-empty strings) carried by the events
of the zone in the window whose type is neither `evacuation` nor `motion_cleared`, the
events older than a `motion_cleared` event that is not the newest included. The projection
returns a result whenever no event names a room through the prototype chain. -/
theorem projectRooms_occupants (g : Intrinsics) (events : List Event) (z : String)
    (hz : z ∈ roomNames) (htypes : ∀ e ∈ events, e.type ≠ "") :
    (PlainRooms g events → ∃ rooms, projectRooms g events = .ok rooms) ∧
    ∀ rooms, projectRooms g events = .ok rooms →
      ∃ view, roomView rooms z = some view ∧
        ((∃ e, (eventsOfRoom z events).head? = some e ∧
            (e.type = "motion_cleared" ∨ e.type = "evacuation")) → view.people = []) ∧
        ((∀ e, (eventsOfRoom z events).head? = some e →
            e.type ≠ "motion_cleared" ∧ e.type ≠ "evacuation") →
          view.people.Nodup ∧
          ∀ n, n ∈ view.people ↔
            ∃ e ∈ events, e.room = some z ∧ e.personName = some n ∧ n ≠ "" ∧
              e.type ≠ "evacuation" ∧ e.type ≠ "motion_cleared") := by
  refine ⟨projectRooms_ok_of_plain g events, ?_⟩
  intro rooms hrooms
  obtain ⟨accessPoint, hview⟩ := roomView_of_scan g events rooms z hz hrooms
  refine ⟨_, hview, ?_, ?_⟩
  · rintro ⟨c, hc, htype⟩
    cases hes : eventsOfRoom z events with
    | nil => simp [hes] at hc
    | cons e es =>
      rw [hes, List.head?_cons, Option.some.injEq] at hc
      subst hc
      rw [foldRoom_none_clearing e es ((isClearing_iff e.type).2 htype)]
  · intro hnewest
    have hmemz : ∀ e2, e2 ∈ eventsOfRoom z events ↔ e2 ∈ events ∧ e2.room = some z := by
      intro e2
      simp [eventsOfRoom, List.mem_filter]
    cases hes : eventsOfRoom z events with
    | nil =>
      refine ⟨by simp [foldRoom], ?_⟩
      intro n
      simp only [foldRoom, List.not_mem_nil, false_iff]
      rintro ⟨e2, he2, hroom, _⟩
      have : e2 ∈ eventsOfRoom z events := (hmemz e2).2 ⟨he2, hroom⟩
      rw [hes] at this
      exact absurd this (List.not_mem_nil _)
    | cons e es =>
      have he : e ∈ events := ((hmemz e).1 (hes ▸ List.mem_cons_self _ _)).1
      have hc : isClearing e.type = false :=
        (isClearing_eq_false_iff e.type).2 (hnewest e (by rw [hes]; rfl))
      obtain ⟨st2, hfold, hnd, hmem⟩ := foldRoom_none_other e es (htypes e he) hc
      rw [hfold]
      refine ⟨hnd, ?_⟩
      intro n
      show n ∈ st2.people ↔ _
      rw [hmem n, ← hes]
      constructor
      · rintro ⟨e2, he2, hname, hne, hcl⟩
        obtain ⟨hin, hroom⟩ := (hmemz e2).1 he2
        obtain ⟨h1, h2⟩ := (isClearing_eq_false_iff e2.type).1 hcl
        exact ⟨e2, hin, hroom, hname, hne, h2, h1⟩
      · rintro ⟨e2, hin, hroom, hname, hne, h2, h1⟩
        exact ⟨e2, (hmemz e2).2 ⟨hin, hroom⟩, hname, hne,
          (isClearing_eq_false_iff e2.type).2 ⟨h1, h2⟩⟩

/-- C9 on a window of the kitchen: the newest event is a `motion` event, and the occupants
are the two names the events of the kitchen carry. -/
theorem projectRooms_occupants_witness :
    (∃ rooms, projectRooms Intrinsics.fresh sampleKitchenWindow = .ok rooms) ∧
    ∀ rooms, projectRooms Intrinsics.fresh sampleKitchenWindow = .ok rooms →
      ∃ view, roomView rooms "kitchen" = some view ∧ view.people.Nodup ∧
        ∀ n, n ∈ view.people ↔ n = "Cat" ∨ n = "Bob" := by
  have h := projectRooms_occupants Intrinsics.fresh sampleKitchenWindow "kitchen" (by decide)
    (by decide)
  refine ⟨h.1 (by unfold PlainRooms; decide), ?_⟩
  intro rooms hrooms
  obtain ⟨view, hview, _, hother⟩ := h.2 rooms hrooms
  obtain ⟨hnd, hmem⟩ := hother (by
    intro e he
    have : e = sampleEvent 4 "motion" "kitchen" none 40 := by
      have h0 : (eventsOfRoom "kitchen" sampleKitchenWindow).head?
          = some (sampleEvent 4 "motion" "kitchen" none 40) := by decide
      rw [h0] at he
      exact (Option.some.inj he).symm
    subst this
    decide)
  refine ⟨view, hview, hnd, ?_⟩
  intro n
  rw [hmem n]
  constructor
  · rintro ⟨e, he, _, hname, _⟩
    simp only [sampleKitchenWindow, List.mem_cons, List.mem_singleton, List.not_mem_nil,
      or_false] at he
    rcases he with rfl | rfl | rfl | rfl
    · simp [sampleEvent] at hname
    · exact Or.inl (by simpa [sampleEvent] using hname.symm)
    · simp [sampleEvent] at hname
    · exact Or.inr (by simpa [sampleEvent] using hname.symm)
  · rintro (rfl | rfl)
    · exact ⟨sampleEvent 3 "known_face" "kitchen" (some "Cat") 40, by decide, rfl, rfl,
        by decide, by decide, by decide⟩
    · exact ⟨sampleEvent 1 "detection" "kitchen" (some "Bob") 10, by decide, rfl, rfl,
        by decide, by decide, by decide⟩

/-! ## Theorems: the `risk_score` setting -/

theorem parseInt_toString_fin :
    ∀ n : Fin 101, parseInt (toString (n.val : Int)) = some (n.val : Int) ∧
      toString (n.val : Int) ≠ "" ∧ toString n.val = toString (n.val : Int) := by
  decide

theorem parseInt_toString (k : Int) (h0 : 0 ≤ k) (h1 : k ≤ 100) :
    parseInt (toString k) = some k ∧ toString k ≠ "" := by
  obtain ⟨n, rfl⟩ : ∃ n : Fin 101, (n.val : Int) = k :=
    ⟨⟨k.toNat, by omega⟩, by simp [Int.toNat_of_nonneg h0]⟩
  exact ⟨(parseInt_toString_fin n).1, (parseInt_toString_fin n).2.1⟩

theorem toString_nat_eq (n : Nat) (h : n ≤ 100) : toString n = toString (n : Int) :=
  (parseInt_toString_fin ⟨n, by omega⟩).2.2

theorem findSetting_upsertSetting_self (key value : String) :
    ∀ settings : List Setting,
      ∃ st, findSetting key (upsertSetting key value settings) = some st ∧ st.value = value
  | [] => ⟨{ key := key, value := value }, by simp [findSetting, upsertSetting], rfl⟩
  | s :: rest => by
    by_cases hs : s.key = key
    · exact ⟨{ s with value := value }, by simp [findSetting, upsertSetting, hs], rfl⟩
    · obtain ⟨st, hst, hv⟩ := findSetting_upsertSetting_self key value rest
      refine ⟨st, ?_, hv⟩
      simp only [upsertSetting, if_neg hs]
      unfold findSetting at hst ⊢
      rw [List.find?_cons]
      simp only [hs, decide_False]
      exact hst

theorem findSetting_upsertSetting_ne (key other value : String) (hne : other ≠ key) :
    ∀ settings : List Setting,
      findSetting other (upsertSetting key value settings) = findSetting other settings
  | [] => by simp [findSetting, upsertSetting, Ne.symm hne]
  | s :: rest => by
    by_cases hs : s.key = key
    · have hso : s.key ≠ other := fun h => hne (h ▸ hs)
      simp [findSetting, upsertSetting, hs, Ne.symm hne]
    · have ih := findSetting_upsertSetting_ne key other value hne rest
      simp only [upsertSetting, if_neg hs]
      unfold findSetting at ih ⊢
      rw [List.find?_cons, List.find?_cons, ih]

theorem riskScoreReading_upsert (value : String) (settings : List Setting) :
    riskScoreReading (upsertSetting "risk_score" value settings)
      = if value = "" then some 0 else parseInt value := by
  obtain ⟨st, hst, hv⟩ := findSetting_upsertSetting_self "risk_score" value settings
  simp only [riskScoreReading, hst, hv]

theorem riskInRange_upsert_toString (k : Int) (h0 : 0 ≤ k) (h1 : k ≤ 100)
    (settings : List Setting) :
    RiskInRange (upsertSetting "risk_score" (toString k) settings) := by
  obtain ⟨hp, hne⟩ := parseInt_toString k h0 h1
  exact ⟨k, by rw [riskScoreReading_upsert, if_neg hne, hp], h0, h1⟩

theorem raisedScore_of_reading (settings : List Setting) (n : Int) (increase : Nat)
    (h : riskScoreReading settings = some n) :
    raisedScore (findSetting "risk_score" settings) increase
      = toString (min 100 (n + increase)) := by
  unfold riskScoreReading at h
  unfold raisedScore
  cases hf : findSetting "risk_score" settings with
  | none =>
    simp only [hf, Option.some.injEq] at h
    simp only [← h]
  | some st =>
    simp only [hf] at h
    by_cases hv : st.value = ""
    · simp only [hv, if_true, Option.some.injEq] at h
      simp only [hv, if_true, ← h]
    · simp only [hv, if_false] at h
      simp only [hv, if_false, h]

theorem riskInRange_bump (settings : List Setting) (increase : Nat)
    (h : RiskInRange settings) :
    RiskInRange (upsertSetting "risk_score"
      (raisedScore (findSetting "risk_score" settings) increase) settings) := by
  obtain ⟨n, hn, h0, h1⟩ := h
  rw [raisedScore_of_reading settings n increase hn]
  exact riskInRange_upsert_toString _ (by omega) (by omega) settings

/-- C11, the claim as stated fails: `POST /settings` with key `risk_score` and value `500`
on the settings of a fresh database leaves the setting at 500, outside `[0, 100]`. -/
theorem postSettings_riskScore_counterexample :
    RiskInRange sampleSettingsDb.settings ∧
    (postSettings sampleSettingsDb "risk_score" "500").settings
      = [{ key := "risk_score", value := "500" }] ∧
    riskScoreReading (postSettings sampleSettingsDb "risk_score" "500").settings = some 500 ∧
    ¬ RiskInRange (postSettings sampleSettingsDb "risk_score" "500").settings := by
  have hread : riskScoreReading (postSettings sampleSettingsDb "risk_score" "500").settings
      = some 500 := by decide
  refine ⟨⟨0, by decide, le_refl _, by norm_num⟩, by decide, hread, ?_⟩
  rintro ⟨n, hn, _, h1⟩
  rw [hread] at hn
  cases hn
  omega

/-- C11, amended: starting from a `risk_score` setting that reads as a value in `[0, 100]`
(a missing setting reads as 0), `calculateRiskScore`, the `updateRiskScore` of the
simulator with any increase, and the +30 increments of `POST /detect` and
`POST /unknown-with-image` leave it in `[0, 100]`; `POST /settings` leaves it as it is for
another key and stores the value it is given, unchecked, for the key `risk_score`. -/
theorem riskScore_stays_in_range (db : Db) (h : RiskInRange db.settings) :
    (∀ now hour, RiskInRange (calculateRiskScore db now hour).1.settings) ∧
    (∀ increase, RiskInRange (updateRiskScore db increase).settings) ∧
    (∀ now personName room isKnown,
      RiskInRange (detect db now personName room isKnown).1.settings) ∧
    (∀ now room personName imagePath descriptor,
      RiskInRange (unknownWithImage db now room personName imagePath descriptor).1.settings) ∧
    (∀ key value, key ≠ "risk_score" →
      riskScoreReading (postSettings db key value).settings
        = riskScoreReading db.settings) ∧
    (∀ value, riskScoreReading (postSettings db "risk_score" value).settings
        = if value = "" then some 0 else parseInt value) := by
  refine ⟨?_, ?_, ?_, ?_, ?_, ?_⟩
  · intro now hour
    have hle : min 100 (rawRiskScore db.events now hour) ≤ 100 := Nat.min_le_left _ _
    show RiskInRange (upsertSetting "risk_score"
      (toString (min 100 (rawRiskScore db.events now hour))) db.settings)
    rw [toString_nat_eq _ hle]
    exact riskInRange_upsert_toString _ (by omega) (by omega) db.settings
  · intro increase
    exact riskInRange_bump db.settings increase h
  · intro now personName room isKnown
    unfold detect
    split_ifs
    · exact h
    · exact h
    · exact riskInRange_bump db.settings 30 h
  · intro now room personName imagePath descriptor
    cases descriptor with
    | none =>
      simp only [unknownWithImage]
      exact riskInRange_bump db.settings 30 h
    | some d =>
      cases hf : findPending d db.unknownFaces with
      | none =>
        simp only [unknownWithImage, hf]
        exact riskInRange_bump db.settings 30 h
      | some u =>
        simp only [unknownWithImage, hf]
        exact h
  · intro key value hkey
    simp only [postSettings, riskScoreReading,
      findSetting_upsertSetting_ne key "risk_score" value (Ne.symm hkey) db.settings]
  · intro value
    exact riskScoreReading_upsert value db.settings

/-- C11, amended, on the settings of a fresh database: after an increment of 50 by the
simulator the setting is in range, and it reads 50. -/
theorem riskScore_stays_in_range_witness :
    RiskInRange (updateRiskScore sampleSettingsDb 50).settings ∧
    riskScoreReading (updateRiskScore sampleSettingsDb 50).settings = some 50 :=
  ⟨(riskScore_stays_in_range sampleSettingsDb ⟨0, by decide, le_refl _, by norm_num⟩).2.1 50,
   by decide⟩

/-! ## Theorems: risk level, night bonus, empty log -/

theorem riskLevelOf_cases (s : Nat) :
    (riskLevelOf s = "high" ↔ 70 < s) ∧
    (riskLevelOf s = "medium" ↔ 40 < s ∧ s ≤ 70) ∧
    (riskLevelOf s = "low" ↔ s ≤ 40) := by
  have hm : ("high" : String) ≠ "medium" := by decide
  have hl : ("high" : String) ≠ "low" := by decide
  have ml : ("medium" : String) ≠ "low" := by decide
  unfold riskLevelOf
  by_cases h1 : s > 70
  · rw [if_pos h1]
    exact ⟨⟨fun _ => h1, fun _ => rfl⟩,
      ⟨fun h => absurd h hm, fun h => absurd h.2 (by omega)⟩,
      ⟨fun h => absurd h hl, fun h => absurd h (by omega)⟩⟩
  · rw [if_neg h1]
    by_cases h2 : s > 40
    · rw [if_pos h2]
      exact ⟨⟨fun h => absurd h.symm hm, fun h => absurd h h1⟩,
        ⟨fun _ => ⟨h2, by omega⟩, fun _ => rfl⟩,
        ⟨fun h => absurd h ml, fun h => absurd h (by omega)⟩⟩
    · rw [if_neg h2]
      exact ⟨⟨fun h => absurd h.symm hl, fun h => absurd h h1⟩,
        ⟨fun h => absurd h.symm ml, fun h => absurd h.1 h2⟩,
        ⟨fun _ => by omega, fun _ => rfl⟩⟩

/-- C12: for every result of `calculateRiskScore`, the level is `'high'` iff the score is
above 70, `'medium'` iff it is above 40 and at most 70, and `'low'` iff it is at most 40;
so the score 70 is `'medium'` and the score 40 is `'low'`. -/
theorem calculateRiskScore_level (db : Db) (now : Int) (hour : Nat) :
    ((calculateRiskScore db now hour).2.level = "high"
        ↔ 70 < (calculateRiskScore db now hour).2.score) ∧
    ((calculateRiskScore db now hour).2.level = "medium"
        ↔ 40 < (calculateRiskScore db now hour).2.score ∧
          (calculateRiskScore db now hour).2.score ≤ 70) ∧
    ((calculateRiskScore db now hour).2.level = "low"
        ↔ (calculateRiskScore db now hour).2.score ≤ 40) ∧
    riskLevelOf 70 = "medium" ∧ riskLevelOf 40 = "low" ∧ riskLevelOf 71 = "high" ∧
    riskLevelOf 41 = "medium" := by
  have h := riskLevelOf_cases (calculateRiskScore db now hour).2.score
  exact ⟨h.1, h.2.1, h.2.2, by decide, by decide, by decide, by decide⟩

theorem isNightHour_getHours (minuteOfDay : Nat) (hday : minuteOfDay < 24 * 60) :
    isNightHour (getHours minuteOfDay) = true
      ↔ 22 * 60 ≤ minuteOfDay ∨ minuteOfDay < 7 * 60 := by
  unfold isNightHour getHours
  simp only [ge_iff_le, Bool.or_eq_true, decide_eq_true_eq]
  omega

/-- C13, the behaviour of the code at the failing input: at 06:30 local time, which is
after 06:00 and so outside the night window, `getHours()` is 6, the test
`hour >= 22 || hour <= 6` holds, and on the empty log `calculateRiskScore` returns the
score 10 with `factors.nightTime = true`; the same holds at every minute from 06:01 to
06:59, and at no other minute of the day does the bonus differ from the window. -/
theorem calculateRiskScore_night_bonus_at_0630 :
    inNightWindow (6 * 60 + 30) = false ∧
    getHours (6 * 60 + 30) = 6 ∧
    (calculateRiskScore Db.empty 0 (getHours (6 * 60 + 30))).2.score = 10 ∧
    (calculateRiskScore Db.empty 0 (getHours (6 * 60 + 30))).2.factors.nightTime = true ∧
    (∀ m, 6 * 60 < m → m < 7 * 60 →
      inNightWindow m = false ∧ isNightHour (getHours m) = true) ∧
    (∀ m, m < 24 * 60 → ¬ (6 * 60 < m ∧ m < 7 * 60) →
      (isNightHour (getHours m) = true ↔ inNightWindow m = true)) := by
  refine ⟨by decide, by decide, by decide, by decide, ?_, ?_⟩
  · intro m h1 h2
    refine ⟨?_, (isNightHour_getHours m (by omega)).2 (Or.inr h2)⟩
    simp only [inNightWindow, Bool.or_eq_false_iff, decide_eq_false_iff_not]
    omega
  · intro m hday hm
    rw [isNightHour_getHours m hday]
    simp only [inNightWindow, Bool.or_eq_true, decide_eq_true_eq]
    omega

/-- C14, the claim as stated fails: on the empty event log at 23 h the score returned is
10, the night bonus, not 0. -/
theorem calculateRiskScore_empty_log_counterexample :
    Db.empty.events = [] ∧
    (calculateRiskScore Db.empty 0 23).2.score = 10 ∧
    (calculateRiskScore Db.empty 0 23).2.score ≠ 0 := by
  decide

/-- C14, amended: for an empty event log `calculateRiskScore` returns, at every current
time, the level `'low'` and the score 0 when the hour of day is from 7 to 21, and the score
10, the night bonus alone, when the night test `hour >= 22 || hour <= 6` holds. -/
theorem calculateRiskScore_empty_log (db : Db) (now : Int) (hour : Nat)
    (hempty : db.events = []) :
    (calculateRiskScore db now hour).2.level = "low" ∧
    (calculateRiskScore db now hour).2.score = (if 22 ≤ hour ∨ hour ≤ 6 then 10 else 0) ∧
    (calculateRiskScore db now hour).2.factors
      = { highRiskEvents := 0, mediumRiskEvents := 0, unknownFaces := 0,
          nightTime := isNightHour hour } := by
  have hscore : (calculateRiskScore db now hour).2.score
      = (if 22 ≤ hour ∨ hour ≤ 6 then 10 else 0) := by
    show min 100 (rawRiskScore db.events now hour) = _
    rw [rawRiskScore_eq, hempty]
    simp only [countInWindow, List.countP_nil]
    split_ifs <;> omega
  have hle : (calculateRiskScore db now hour).2.score ≤ 40 := by
    rw [hscore]
    split_ifs <;> omega
  refine ⟨?_, hscore, ?_⟩
  · exact (riskLevelOf_cases (calculateRiskScore db now hour).2.score).2.2.2 hle
  · simp only [calculateRiskScore, eventsSince, hempty, List.filter_nil, List.length_nil]

/-- C14, amended, on the empty database: at noon the score is 0 and the level `'low'`. -/
theorem calculateRiskScore_empty_log_witness :
    (calculateRiskScore Db.empty 0 12).2.level = "low" ∧
    (calculateRiskScore Db.empty 0 12).2.score = 0 :=
  ⟨(calculateRiskScore_empty_log Db.empty 0 12 rfl).1,
   (calculateRiskScore_empty_log Db.empty 0 12 rfl).2.1⟩

/-! ## Theorems: deduplicator, first match and new sighting -/

theorem pendingMatch_iff (d : List ℚ) (u : UnknownFace) :
    PendingMatch d u ↔ u.status = "pending" ∧ sameUnknown d u = true := by
  unfold PendingMatch
  rw [sameUnknown_iff]

theorem findPending_of_first (d : List ℚ) (u : UnknownFace) (post : List UnknownFace)
    (hu : PendingMatch d u) :
    ∀ pre : List UnknownFace, (∀ v ∈ pre, ¬ PendingMatch d v) →
      findPending d (pre ++ u :: post) = some u
  | [], _ => by
    rw [List.nil_append, findPending_cons, if_pos ((pendingMatch_iff d u).1 hu)]
  | v :: pre, h => by
    have hv : ¬ (v.status = "pending" ∧ sameUnknown d v = true) :=
      fun hh => h v (List.mem_cons_self _ _) ((pendingMatch_iff d v).2 hh)
    rw [List.cons_append, findPending_cons, if_neg hv]
    exact findPending_of_first d u post hu pre (fun w hw => h w (List.mem_cons_of_mem _ hw))

/-- C15: for every descriptor `d` and every ordered collection of unknown faces, the
deduplicator selects the first record in scan order that is pending and has a descriptor
of the length of `d` at distance below 0.6, whatever comes after it, a strictly closer
record included; the record it selects is always pending, of the length of `d` and below
the threshold, and it is the record the response names and merges the sighting into. -/
theorem unknownWithImage_first_match (db : Db) (now : Int)
    (room personName imagePath : Option String) (d : List ℚ) :
    (∀ pre u post, db.unknownFaces = pre ++ u :: post →
      (∀ v ∈ pre, ¬ PendingMatch d v) → PendingMatch d u →
      findPending d db.unknownFaces = some u ∧
      (unknownWithImage db now room personName imagePath (some d)).2.isNewUnknown = false ∧
      (unknownWithImage db now room personName imagePath (some d)).2.unknownId = u.id ∧
      (unknownWithImage db now room personName imagePath (some d)).2.detectionCount
        = some (u.detectionCount + 1)) ∧
    (∀ u, findPending d db.unknownFaces = some u →
      u.status = "pending" ∧
      (∃ ud, u.faceDescriptor = some ud ∧ ud.length = d.length ∧
        ∃ dist : ℝ, euclideanDistance d ud = some dist ∧ dist < 0.6) ∧
      ∃ pre post, db.unknownFaces = pre ++ u :: post ∧ ∀ v ∈ pre, ¬ PendingMatch d v) ∧
    ((unknownWithImage db now room personName imagePath (some d)).2.isNewUnknown = false
      ↔ ∃ u, findPending d db.unknownFaces = some u) := by
  refine ⟨?_, ?_, ?_⟩
  · intro pre u post hus hpre hu
    have hf : findPending d db.unknownFaces = some u := by
      rw [hus]
      exact findPending_of_first d u post hu pre hpre
    refine ⟨hf, ?_, ?_, ?_⟩ <;> simp only [unknownWithImage, hf]
  · intro u hf
    obtain ⟨pre, post, hus, hm, hpre⟩ := findPending_eq_some d db.unknownFaces u hf
    exact ⟨hm.1, hm.2, pre, post, hus, hpre⟩
  · cases hf : findPending d db.unknownFaces with
    | none => simp [unknownWithImage, hf]
    | some u => simp [unknownWithImage, hf]

theorem pendingMatch_sample (id : Nat) (descriptor d : List ℚ)
    (h : sameUnknown d (sampleUnknown id "pending" descriptor) = true) :
    PendingMatch d (sampleUnknown id "pending" descriptor) :=
  (pendingMatch_iff d _).2 ⟨rfl, h⟩

/-- C15 on a scan of four records for the descriptor `[0, 0]`: the approved record and the
record of another length are passed over, the pending record at distance 1/2 is selected,
and the pending record at distance 1/10 behind it is not. -/
theorem unknownWithImage_first_match_witness :
    (unknownWithImage sampleScanDb 9 none none none (some [0, 0])).2.unknownId = 2 ∧
    PendingMatch [0, 0] (sampleUnknown 3 "pending" [1 / 10, 0]) ∧
    sumSquares [0, 0] [1 / 2, 0] = some (1 / 4) ∧
    sumSquares [0, 0] [1 / 10, 0] = some (1 / 100) := by
  have h2 : PendingMatch [0, 0] (sampleUnknown 2 "pending" [1 / 2, 0]) := by
    apply pendingMatch_sample
    simp [sameUnknown, sampleUnknown, sumSquares, withinThreshold, thresholdSq]
    norm_num
  have h3 : PendingMatch [0, 0] (sampleUnknown 3 "pending" [1 / 10, 0]) := by
    apply pendingMatch_sample
    simp [sameUnknown, sampleUnknown, sumSquares, withinThreshold, thresholdSq]
    norm_num
  refine ⟨?_, h3, by simp [sumSquares]; norm_num, by simp [sumSquares]; norm_num⟩
  refine ((unknownWithImage_first_match sampleScanDb 9 none none none [0, 0]).1
    [sampleUnknown 0 "approved" [0, 0], sampleUnknown 1 "pending" [0]]
    (sampleUnknown 2 "pending" [1 / 2, 0]) [sampleUnknown 3 "pending" [1 / 10, 0]]
    rfl ?_ h2).2.2.1
  intro v hv hm
  simp only [List.mem_cons, List.mem_singleton, List.not_mem_nil, or_false] at hv
  rcases hv with rfl | rfl
  · exact absurd hm.1 (by decide)
  · obtain ⟨ud, hud, hlen, _⟩ := hm.2
    simp only [sampleUnknown, Option.some.injEq] at hud
    subst hud
    simp at hlen

theorem farFromPending_iff (d : List ℚ) (us : List UnknownFace) :
    FarFromPending d us ↔ findPending d us = none := by
  rw [findPending_eq_none]
  constructor
  · intro hfar u hu hm
    obtain ⟨hstatus, ud, hud, hlen, dist, hdist, hlt⟩ := hm
    rcases hfar u hu hstatus ud hud with hne | ⟨dist2, hdist2, hge⟩
    · exact hne hlen
    · rw [hdist] at hdist2
      cases hdist2
      exact absurd hlt (not_lt.2 hge)
  · intro hnone u hu hstatus ud hud
    by_cases hlen : ud.length = d.length
    · right
      obtain ⟨s, hs⟩ := sumSquares_of_length_eq d ud hlen
      refine ⟨Real.sqrt (s : ℝ), by simp [euclideanDistance, hs], ?_⟩
      by_contra hlt
      exact hnone u hu ⟨hstatus, ud, hud, hlen, Real.sqrt (s : ℝ),
        by simp [euclideanDistance, hs], not_le.1 hlt⟩
    · exact Or.inl hlen

/-- C16: for every descriptor `d` that is, for each pending record, of another length than
its descriptor or at distance at least 0.6 from it, `POST /unknown-with-image` appends
exactly one record to the unknown faces, with descriptor `d`, `detectionCount = 1` and
status `'pending'`, leaves every record that was there unchanged, and answers
`isNewUnknown = true`, `alertSent = true`. -/
theorem unknownWithImage_new_sighting (db : Db) (now : Int)
    (room personName imagePath : Option String) (d : List ℚ)
    (hfar : FarFromPending d db.unknownFaces) :
    (unknownWithImage db now room personName imagePath (some d)).1.unknownFaces
      = db.unknownFaces ++
          [{ id := db.nextId, faceDescriptor := some d, imagePath := imagePath,
             firstSeen := now, lastSeen := now, detectionCount := 1, alertSent := true,
             status := "pending" }] ∧
    (unknownWithImage db now room personName imagePath (some d)).1.unknownFaces.length
      = db.unknownFaces.length + 1 ∧
    (unknownWithImage db now room personName imagePath (some d)).2.isNewUnknown = true ∧
    (unknownWithImage db now room personName imagePath (some d)).2.alertSent = true ∧
    (unknownWithImage db now room personName imagePath (some d)).2.unknownId = db.nextId ∧
    (unknownWithImage db now room personName imagePath (some d)).1.knownFaces
      = db.knownFaces := by
  have hf : findPending d db.unknownFaces = none := (farFromPending_iff d _).1 hfar
  refine ⟨?_, ?_, ?_, ?_, ?_, ?_⟩ <;> simp only [unknownWithImage, hf]
  simp

/-- C16 on a store with one pending record at `[1, 2]`: the descriptor `[3, 4]` is far from
it, and its sighting adds a second record, pending, seen once. -/
theorem unknownWithImage_new_sighting_witness :
    FarFromPending [3, 4] samplePendingDb.unknownFaces ∧
    (unknownWithImage samplePendingDb 9 none none none (some [3, 4])).1.unknownFaces
      = [samplePending,
         { id := 1, faceDescriptor := some [3, 4], imagePath := none, firstSeen := 9,
           lastSeen := 9, detectionCount := 1, alertSent := true, status := "pending" }] := by
  have hfar : FarFromPending [3, 4] samplePendingDb.unknownFaces := by
    rw [farFromPending_iff]
    simp [findPending, samplePendingDb, samplePending, sameUnknown, sumSquares,
      withinThreshold, thresholdSq]
    norm_num
  exact ⟨hfar, (unknownWithImage_new_sighting samplePendingDb 9 none none none [3, 4] hfar).1⟩

/-! ## Theorems: identity matcher, state change and rejection -/

theorem knownFace_ids_ne_of_nodup (p : KnownFace) (pre post : List KnownFace)
    (h : ((pre ++ p :: post).map (fun k => k.id)).Nodup) : ∀ k ∈ pre, k.id ≠ p.id := by
  intro k hk heq
  rw [List.map_append, List.map_cons] at h
  have hdisj := (List.nodup_append.1 h).2.2
  exact hdisj (List.mem_map.2 ⟨k, hk, rfl⟩) (heq ▸ List.mem_cons_self _ _)

theorem recordVisit_append (now : Int) (p : KnownFace) (post : List KnownFace) :
    ∀ pre : List KnownFace, (∀ k ∈ pre, k.id ≠ p.id) →
      recordVisit p.id now (pre ++ p :: post)
        = pre ++ { p with visitCount := p.visitCount + 1, lastSeen := some now } :: post
  | [], _ => by simp [recordVisit]
  | k :: pre, h => by
    have hk : k.id ≠ p.id := h k (List.mem_cons_self _ _)
    have ih := recordVisit_append now p post pre (fun w hw => h w (List.mem_cons_of_mem _ hw))
    simp only [List.cons_append, recordVisit, if_neg hk]
    exact congrArg (fun l => k :: l) ih

theorem recognize_db (db : Db) (now : Int) (d : Option (List ℚ)) :
    (recognize db now d).1
      = match (recognize db now d).2 with
        | .recognized p _ => { db with knownFaces := recordVisit p.id now db.knownFaces }
        | _ => db := by
  unfold recognize
  cases d with
  | none => rfl
  | some d =>
    simp only
    split_ifs with h
    · rfl
    · cases hb : (findBestMatch d
          (db.knownFaces.filter (fun k => k.faceDescriptor.isSome))).bestMatch <;> rfl

theorem recognize_noMatch_infinity (db : Db) (now : Int) (d : List ℚ) (best : Option ℚ)
    (h : (recognize db now (some d)).2 = .noMatch best) : best = none := by
  rcases recognize_cases db now d with ⟨hresp, _⟩ | ⟨p, sq, _, _, hresp, _⟩
  · rcases hresp with h2 | h2
    · rw [h2] at h
      cases h
    · rw [h2] at h
      cases h
      rfl
  · rw [hresp] at h
    cases h

/-- C19, the behaviour of the code at the failing input: against `Ann` at `[0, 0]` and `Bob`
at `[3/10, 0]`, both of the length of the descriptor `[1, 0]` and at squared distances 1 and
49/100 from it (distances 1 and 0.7), `POST /recognize` answers "no match" with
`bestDistance = Infinity`, not 0.7; and every "no match" answer with a `bestDistance`
carries `Infinity`, whatever the enrolled set. -/
theorem recognize_noMatch_bestDistance :
    Candidate [1, 0] sampleAnn 1 ∧
    Candidate [1, 0] sampleBob (49 / 100) ∧
    (recognize sampleFacesDb 7 (some [1, 0])).2 = .noMatch none ∧
    (∀ (db : Db) (now : Int) (d : List ℚ) (best : Option ℚ),
      (recognize db now (some d)).2 = .noMatch best → best = none) := by
  refine ⟨⟨[0, 0], rfl, rfl, ?_⟩, ⟨[3 / 10, 0], rfl, rfl, ?_⟩, ?_,
    recognize_noMatch_infinity⟩
  · simp [sumSquares]
  · simp [sumSquares]
    norm_num
  · simp [recognize, findBestMatch, matchStep, sampleFacesDb, sampleAnn, sampleBob, Db.empty,
      sumSquares, belowBest, thresholdSq]
    norm_num

theorem recognize_recorded (db : Db) (now : Int) (d : Option (List ℚ))
    (hids : (db.knownFaces.map (fun k => k.id)).Nodup) (p : KnownFace) (sq : Option ℚ)
    (hresp : (recognize db now d).2 = .recognized p sq) :
    ∃ pre post, db.knownFaces = pre ++ p :: post ∧
      (recognize db now d).1.knownFaces
        = pre ++ { p with visitCount := p.visitCount + 1, lastSeen := some now } :: post := by
  have hdb := recognize_db db now d
  rw [hresp] at hdb
  cases d with
  | none => simp [recognize] at hresp
  | some d =>
    rcases recognize_cases db now d with
      ⟨hr, _⟩ | ⟨p2, sq2, pre, post, hr, hl, _⟩
    · rcases hr with h2 | h2 <;> rw [h2] at hresp <;> cases hresp
    · rw [hr] at hresp
      obtain ⟨hpe, -⟩ := RecognizeResponse.recognized.inj hresp
      rw [← hpe]
      refine ⟨pre, post, hl, ?_⟩
      rw [hdb, ← hpe]
      show recordVisit p2.id now db.knownFaces = _
      rw [hl]
      exact recordVisit_append now p2 post pre
        (knownFace_ids_ne_of_nodup p2 pre post (hl ▸ hids))

theorem recognize_others_unchanged (db : Db) (now : Int) (d : Option (List ℚ)) :
    (recognize db now d).1.events = db.events ∧
    (recognize db now d).1.unknownFaces = db.unknownFaces ∧
    (recognize db now d).1.settings = db.settings := by
  rw [recognize_db db now d]
  cases (recognize db now d).2 <;> exact ⟨rfl, rfl, rfl⟩

/-- C20: for every descriptor (present or not) and every enrolled set with distinct `_id`s:
when `POST /recognize` accepts a match, the matched identity gets `visitCount` raised by
exactly 1 and `lastSeen` set, its other fields and every other identity are unchanged;
when it reports anything else, the database is unchanged; events, unknown faces and
settings are never changed. -/
theorem recognize_frame (db : Db) (now : Int) (d : Option (List ℚ))
    (hids : (db.knownFaces.map (fun k => k.id)).Nodup) :
    (∀ p sq, (recognize db now d).2 = .recognized p sq →
      ∃ pre post, db.knownFaces = pre ++ p :: post ∧
        (recognize db now d).1.knownFaces
          = pre ++ { p with visitCount := p.visitCount + 1, lastSeen := some now } :: post) ∧
    ((∀ p sq, (recognize db now d).2 ≠ .recognized p sq) → (recognize db now d).1 = db) ∧
    (recognize db now d).1.events = db.events ∧
    (recognize db now d).1.unknownFaces = db.unknownFaces ∧
    (recognize db now d).1.settings = db.settings := by
  refine ⟨recognize_recorded db now d hids, ?_, recognize_others_unchanged db now d⟩
  intro hno
  rw [recognize_db db now d]
  cases hr : (recognize db now d).2 with
  | recognized p sq => exact absurd hr (hno p sq)
  | descriptorRequired => rfl
  | noKnownFaces => rfl
  | noMatch best => rfl

/-- C20 on the sample identities: the descriptor `[3/10, 0]` is matched to `Bob`, whose
`visitCount` goes from 0 to 1, and `Ann` is unchanged. -/
theorem recognize_frame_witness :
    (recognize sampleFacesDb 7 (some [3 / 10, 0])).1.knownFaces
      = [sampleAnn, { sampleBob with visitCount := 1, lastSeen := some 7 }] := by
  have hresp : (recognize sampleFacesDb 7 (some [3 / 10, 0])).2
      = .recognized sampleBob (some 0) := by
    simp [recognize, findBestMatch, matchStep, sampleFacesDb, sampleAnn, sampleBob, Db.empty,
      sumSquares, belowBest, thresholdSq]
    norm_num
  obtain ⟨pre, post, hl, hres⟩ :=
    (recognize_frame sampleFacesDb 7 (some [3 / 10, 0]) (by decide)).1 _ _ hresp
  have hl2 : [sampleAnn, sampleBob] = pre ++ sampleBob :: post := hl
  have hpre : pre = [sampleAnn] ∧ post = [] := by
    rcases pre with _ | ⟨a, _ | ⟨b, pre⟩⟩
    · simp only [List.nil_append, List.cons.injEq] at hl2
      exact absurd hl2.1 (by decide)
    · simp only [List.cons_append, List.nil_append, List.cons.injEq] at hl2
      exact ⟨by rw [hl2.1], hl2.2.2.symm⟩
    · simp at hl2
  rw [hres, hpre.1, hpre.2]
  rfl

/-! ## Theorems: approval and the matcher after it -/

theorem unknownFace_decompose (us : List UnknownFace) (P : UnknownFace)
    (hP : P ∈ us) (hids : (us.map (fun u => u.id)).Nodup) :
    ∃ pre post, us = pre ++ P :: post ∧ ∀ v ∈ pre, v.id ≠ P.id := by
  obtain ⟨pre, post, hus⟩ := List.append_of_mem hP
  exact ⟨pre, post, hus, ids_ne_of_nodup P pre post (hus ▸ hids)⟩

theorem find?_unknownFace_append (P : UnknownFace) (post : List UnknownFace) :
    ∀ pre : List UnknownFace, (∀ v ∈ pre, v.id ≠ P.id) →
      (pre ++ P :: post).find? (fun u => u.id = P.id) = some P
  | [], _ => by simp
  | v :: pre, h => by
    have hv : v.id ≠ P.id := h v (List.mem_cons_self _ _)
    rw [List.cons_append, List.find?_cons]
    simp only [hv, decide_False]
    exact find?_unknownFace_append P post pre (fun w hw => h w (List.mem_cons_of_mem _ hw))

theorem markApproved_append (P : UnknownFace) (post : List UnknownFace) :
    ∀ pre : List UnknownFace, (∀ v ∈ pre, v.id ≠ P.id) →
      markApproved P.id (pre ++ P :: post) = pre ++ { P with status := "approved" } :: post
  | [], _ => by simp [markApproved]
  | v :: pre, h => by
    have hv : v.id ≠ P.id := h v (List.mem_cons_self _ _)
    have ih := markApproved_append P post pre (fun w hw => h w (List.mem_cons_of_mem _ hw))
    simp only [List.cons_append, markApproved, if_neg hv]
    exact congrArg (fun l => v :: l) ih

theorem approveUnknown_of_found (db : Db) (now : Int) (id : Nat) (name : String)
    (category : Option String) (P : UnknownFace)
    (hP : db.unknownFaces.find? (fun u => u.id = id) = some P) (hname : name ≠ "") :
    (approveUnknown db now id (some name) category).2
      = .success (approvedFace db.nextId name (categoryOrGuest category) P) ∧
    (approveUnknown db now id (some name) category).1.knownFaces
      = db.knownFaces ++ [approvedFace db.nextId name (categoryOrGuest category) P] ∧
    (approveUnknown db now id (some name) category).1.unknownFaces
      = markApproved id db.unknownFaces ∧
    (approveUnknown db now id (some name) category).1.nextId = db.nextId + 2 := by
  have ht : truthy (some name) = true := truthy_some name hname
  refine ⟨?_, ?_, ?_, ?_⟩ <;>
    simp only [approveUnknown, approveWith, hP, ht, Bool.not_true, Bool.false_eq_true,
      if_false, approvedFace, categoryOrGuest, Option.getD_some]

/-- C18: for every pending sighting `P` of a store with distinct `_id`s and every name `N`
(a non-empty string, as the schema requires), `POST /unknown/:id/approve` on the `_id` of
`P` appends exactly one identity, with the descriptor and image path of `P`, the name `N`
and `accessAllowed = true`, sets the status of `P` to `'approved'` and leaves the other
fields of `P`, every other unknown face and every earlier identity unchanged; on an `_id`
that no unknown face has it answers not-found and leaves the database unchanged. -/
theorem approveUnknown_effect (db : Db) (now : Int) (name : String)
    (category : Option String) (P : UnknownFace)
    (hP : P ∈ db.unknownFaces) (hids : (db.unknownFaces.map (fun u => u.id)).Nodup)
    (hname : name ≠ "") :
    (∃ pre post created,
      db.unknownFaces = pre ++ P :: post ∧
      (approveUnknown db now P.id (some name) category).2 = .success created ∧
      created.faceDescriptor = P.faceDescriptor ∧ created.imagePath = P.imagePath ∧
      created.name = name ∧ created.accessAllowed = true ∧
      (approveUnknown db now P.id (some name) category).1.knownFaces
        = db.knownFaces ++ [created] ∧
      (approveUnknown db now P.id (some name) category).1.unknownFaces
        = pre ++ { P with status := "approved" } :: post) ∧
    (∀ (id : Nat) (anyName : Option String), (∀ u ∈ db.unknownFaces, u.id ≠ id) →
      approveUnknown db now id anyName category = (db, .notFound)) := by
  constructor
  · obtain ⟨pre, post, hus, hpre⟩ := unknownFace_decompose db.unknownFaces P hP hids
    have hfind : db.unknownFaces.find? (fun u => u.id = P.id) = some P := by
      rw [hus]
      exact find?_unknownFace_append P post pre hpre
    obtain ⟨hresp, hknown, hunknown, _⟩ :=
      approveUnknown_of_found db now P.id name category P hfind hname
    refine ⟨pre, post, approvedFace db.nextId name (categoryOrGuest category) P, hus, hresp,
      rfl, rfl, rfl, rfl, hknown, ?_⟩
    rw [hunknown, hus]
    exact markApproved_append P post pre hpre
  · intro id anyName hnone
    have hfind : db.unknownFaces.find? (fun u => u.id = id) = none := by
      rw [List.find?_eq_none]
      intro u hu
      simpa using hnone u hu
    simp only [approveUnknown, approveWith, hfind]

/-- C18 on the store with one pending sighting: approving it as `Alex` creates the identity
`Alex` with its descriptor `[1, 2]` and marks the sighting approved. -/
theorem approveUnknown_effect_witness :
    (approveUnknown samplePendingDb 6 0 (some "Alex") none).1.knownFaces
      = [{ id := 1, name := "Alex", category := "guest", imagePath := none,
           faceDescriptor := some [1, 2], visitCount := 0, lastSeen := none,
           accessAllowed := true, approved := true }] ∧
    (approveUnknown samplePendingDb 6 0 (some "Alex") none).1.unknownFaces
      = [{ samplePending with status := "approved" }] ∧
    approveUnknown samplePendingDb 6 5 (some "Alex") none = (samplePendingDb, .notFound) := by
  have h := approveUnknown_effect samplePendingDb 6 "Alex" none samplePending
    (List.mem_singleton.2 rfl) (by decide) (by decide)
  exact ⟨rfl, rfl, h.2 5 (some "Alex") (by decide)⟩

theorem sumSquares_eq_zero :
    ∀ (a b : List ℚ), b.length = a.length → sumSquares a b = some 0 → b = a
  | [], [], _, _ => rfl
  | [], _ :: _, h, _ => by simp at h
  | _ :: _, [], h, _ => by simp at h
  | x :: xs, y :: ys, h, hs => by
    simp only [sumSquares, Option.map_eq_some'] at hs
    obtain ⟨t, ht, hsum⟩ := hs
    have ht0 : 0 ≤ t := sumSquares_nonneg xs ys t ht
    have hsq : 0 ≤ (x - y) ^ 2 := sq_nonneg _
    have htz : t = 0 := by linarith
    have hxy : (x - y) ^ 2 = 0 := by linarith
    have hx : x = y := by
      have := pow_eq_zero_iff (n := 2) (by norm_num) |>.1 hxy
      linarith
    have hrest := sumSquares_eq_zero xs ys (by simpa using h) (htz ▸ ht)
    rw [hx, hrest]

/-- C17: for every pending sighting `P` with descriptor `D`, after `P` is approved under a
name `N` (non-empty), `POST /recognize` on `D` answers with a match at distance 0 and
confidence 1 whose identity has the descriptor `D`, raises the `visitCount` of that
identity by 1 and changes no unknown face; the identity matched is the one just created
under the name `N` whenever no identity enrolled before is at distance 0 from `D`.
Identities and unknown faces have distinct `_id`s, below the counter of the database. -/
theorem approve_then_recognize (db : Db) (now1 now2 : Int) (name : String)
    (category : Option String) (P : UnknownFace) (D : List ℚ)
    (hP : P ∈ db.unknownFaces) (huids : (db.unknownFaces.map (fun u => u.id)).Nodup)
    (hD : P.faceDescriptor = some D) (hname : name ≠ "")
    (hkids : (db.knownFaces.map (fun k => k.id)).Nodup)
    (hfresh : ∀ k ∈ db.knownFaces, k.id < db.nextId) :
    ∃ p pre post,
      (recognize (approveUnknown db now1 P.id (some name) category).1 now2 (some D)).2
        = .recognized p (some 0) ∧
      (recognize (approveUnknown db now1 P.id (some name) category).1 now2
        (some D)).2.confidence = some 1 ∧
      EnrolledAt D p 0 ∧ p.faceDescriptor = some D ∧
      (approveUnknown db now1 P.id (some name) category).1.knownFaces = pre ++ p :: post ∧
      (recognize (approveUnknown db now1 P.id (some name) category).1 now2
        (some D)).1.knownFaces
        = pre ++ { p with visitCount := p.visitCount + 1, lastSeen := some now2 } :: post ∧
      (recognize (approveUnknown db now1 P.id (some name) category).1 now2
        (some D)).1.unknownFaces
        = (approveUnknown db now1 P.id (some name) category).1.unknownFaces ∧
      ((∀ k ∈ db.knownFaces, ¬ EnrolledAt D k 0) →
        p = approvedFace db.nextId name (categoryOrGuest category) P ∧ p.name = name) := by
  obtain ⟨upre, upost, hus, hupre⟩ := unknownFace_decompose db.unknownFaces P hP huids
  have hfind : db.unknownFaces.find? (fun u => u.id = P.id) = some P := by
    rw [hus]
    exact find?_unknownFace_append P upost upre hupre
  obtain ⟨_, hknown, _, _⟩ := approveUnknown_of_found db now1 P.id name category P hfind hname
  have hKmem : approvedFace db.nextId name (categoryOrGuest category) P
        ∈ (approveUnknown db now1 P.id (some name) category).1.knownFaces := by
    rw [hknown]
    simp
  have hKcand : Candidate D (approvedFace db.nextId name (categoryOrGuest category) P) 0 :=
    ⟨D, hD, rfl, sumSquares_self D⟩
  have hids1 : ((approveUnknown db now1 P.id (some name) category).1.knownFaces.map
      (fun k => k.id)).Nodup := by
    rw [hknown, List.map_append, List.map_cons, List.map_nil]
    refine List.Nodup.append hkids (List.nodup_singleton _) ?_
    intro i hi hi2
    obtain ⟨k, hk, rfl⟩ := List.mem_map.1 hi
    have hlt := hfresh k hk
    have heq : k.id = db.nextId := List.mem_singleton.1 hi2
    omega
  rcases recognize_cases (approveUnknown db now1 P.id (some name) category).1 now2 D with
    ⟨_, hnone⟩ | ⟨p, sq, pre, post, hresp, hl, hp, _, hmin, _⟩
  · exact absurd (by norm_num [thresholdSq] : (0 : ℚ) < thresholdSq) (hnone _ hKmem 0 hKcand)
  · have hsq : sq = 0 := le_antisymm (hmin _ hKmem 0 hKcand) hp.nonneg
    subst hsq
    obtain ⟨pd, hpd, hlen, hsum⟩ := hp
    have hpdD : pd = D := sumSquares_eq_zero D pd hlen hsum
    subst hpdD
    obtain ⟨pre2, post2, hl2, hres2⟩ := recognize_recorded
      (approveUnknown db now1 P.id (some name) category).1 now2 (some pd) hids1 p (some 0) hresp
    refine ⟨p, pre2, post2, hresp, ?_, ?_, hpd, hl2, hres2,
      (recognize_others_unchanged _ now2 (some pd)).2.1, ?_⟩
    · rw [hresp]
      simp [RecognizeResponse.confidence]
    · exact (enrolledAt_iff pd p 0).2 ⟨0, ⟨pd, hpd, hlen, hsum⟩, by simp⟩
    · intro hearlier
      have hpmem : p ∈ db.knownFaces ++
          [approvedFace db.nextId name (categoryOrGuest category) P] := by
        rw [← hknown, hl]
        simp
      rcases List.mem_append.1 hpmem with hold | hnew
      · exact absurd ((enrolledAt_iff pd p 0).2 ⟨0, ⟨pd, hpd, hlen, hsum⟩, by simp⟩)
          (hearlier p hold)
      · rw [List.mem_singleton.1 hnew]
        exact ⟨rfl, rfl⟩

/-- C17 on the store with one pending sighting at `[1, 2]`: after it is approved as `Alex`,
the descriptor `[1, 2]` is recognised as `Alex` at distance 0, and the `visitCount` of
`Alex` becomes 1. -/
theorem approve_then_recognize_witness :
    ∃ p, (recognize (approveUnknown samplePendingDb 6 samplePending.id (some "Alex") none).1 8
        (some [1, 2])).2 = .recognized p (some 0) ∧
      p.name = "Alex" ∧
      ((recognize (approveUnknown samplePendingDb 6 samplePending.id (some "Alex") none).1 8
        (some [1, 2])).1.knownFaces.map (fun k => (k.name, k.visitCount)))
        = [("Alex", 1)] := by
  obtain ⟨p, pre, post, hresp, _, _, _, hl, hres, _, hnew⟩ :=
    approve_then_recognize samplePendingDb 6 8 "Alex" none samplePending [1, 2]
      (List.mem_singleton.2 rfl) (by decide) rfl (by decide) (by decide)
      (by intro k hk; simp [samplePendingDb, Db.empty] at hk)
  obtain ⟨hp, hpname⟩ := hnew (by intro k hk; simp [samplePendingDb, Db.empty] at hk)
  have hl1 : [p] = pre ++ p :: post := by
    rw [← hl, hp]
    rfl
  have hpre : pre = [] ∧ post = [] := by
    rcases pre with _ | ⟨a, pre⟩
    · simp only [List.nil_append, List.cons.injEq, true_and] at hl1
      exact ⟨rfl, hl1.symm⟩
    · simp at hl1
  refine ⟨p, hresp, hpname, ?_⟩
  rw [hres, hpre.1, hpre.2, hp]
  rfl

/-! ## Theorems: missing descriptor, distance -/

/-- C21: when the body of `POST /recognize` has no `faceDescriptor`, or one that is `null`
or anything else than an array, the answer is "Face descriptor required" and the database
(identities, events, unknown faces, settings) is returned unchanged. -/
theorem recognizeRequest_descriptor_required (db : Db) (now : Int) (body : BodyValue)
    (h : ∀ items, body ≠ .array items) :
    recognizeRequest db now body = (db, .descriptorRequired) := by
  cases body with
  | array items => exact absurd rfl (h items)
  | absent => rfl
  | null => rfl
  | bool b => rfl
  | number q => rfl
  | text t => rfl
  | object => rfl

/-- C21 on the sample identities: a `null` descriptor is refused and nothing changes. -/
theorem recognizeRequest_descriptor_required_witness :
    recognizeRequest sampleFacesDb 7 .null = (sampleFacesDb, .descriptorRequired) :=
  recognizeRequest_descriptor_required sampleFacesDb 7 .null (fun _ h => by cases h)

theorem sumSquares_symm :
    ∀ (a b : List ℚ), a.length = b.length → sumSquares a b = sumSquares b a
  | [], [], _ => rfl
  | [], _ :: _, h => by simp at h
  | _ :: _, [], h => by simp at h
  | x :: xs, y :: ys, h => by
    have ih := sumSquares_symm xs ys (by simpa using h)
    have hsq : (x - y) ^ 2 = (y - x) ^ 2 := by ring
    simp only [sumSquares, ih, hsq]

theorem foldl_loopStep_none (a b : List ℚ) :
    ∀ l : List Nat, l.foldl (loopStep a b) none = none
  | [] => rfl
  | i :: l => by
    simp only [List.foldl_cons, loopStep]
    exact foldl_loopStep_none a b l

theorem addSums_step (sum rest : Option ℚ) (c : ℚ) :
    addSums (sum.map (fun s => s + c)) rest = addSums sum (rest.map (fun t => c + t)) := by
  cases sum <;> cases rest <;> simp [addSums, add_assoc]

theorem foldl_loopStep (a b : List ℚ) :
    ∀ (n k : Nat) (sum : Option ℚ), k + n = a.length →
      (List.range' k n).foldl (loopStep a b) sum
        = addSums sum (sumSquares (a.drop k) (b.drop k))
  | 0, k, sum, h => by
    have hk : a.length ≤ k := by omega
    rw [List.drop_eq_nil_of_le hk]
    cases sum <;> simp [addSums, sumSquares]
  | n + 1, k, sum, h => by
    have hk : k < a.length := by omega
    rw [List.range'_succ, List.foldl_cons, List.drop_eq_getElem_cons hk]
    by_cases hb : k < b.length
    · rw [List.drop_eq_getElem_cons hb]
      have hstep : loopStep a b sum k = sum.map (fun s => s + (a[k] - b[k]) ^ 2) := by
        cases sum <;>
          simp [loopStep, List.getElem?_eq_getElem hk, List.getElem?_eq_getElem hb]
      rw [hstep, foldl_loopStep a b n (k + 1) _ (by omega)]
      simp only [sumSquares]
      exact addSums_step sum _ _
    · have hb2 : b.length ≤ k := by omega
      have hstep : loopStep a b sum k = none := by
        cases sum <;> simp [loopStep, List.getElem?_eq_none hb2]
      rw [hstep, foldl_loopStep_none, List.drop_eq_nil_of_le hb2]
      cases sum <;> simp [addSums, sumSquares]

theorem sumSquaresLoop_eq (a b : List ℚ) : sumSquaresLoop a b = sumSquares a b := by
  have h := foldl_loopStep a b a.length 0 (some 0) (by omega)
  have hloop : sumSquaresLoop a b
      = (List.range' 0 a.length).foldl (loopStep a b) (some 0) := rfl
  rw [hloop, h]
  simp only [List.drop_zero]
  cases sumSquares a b <;> simp [addSums]

/-- C22: for all vectors `a` and `b` of equal length, over exact arithmetic,
`euclideanDistance(a, b)` is a number, equals `euclideanDistance(b, a)`, and is 0 iff `a` and
`b` are equal component by component; the copy in `detection.js`, taken as the loop it is,
computes the same value as the copy in `faces.js` on all arguments. -/
theorem euclideanDistance_symm_zero (a b : List ℚ) (hlen : a.length = b.length) :
    euclideanDistance a b = euclideanDistance b a ∧
    (∃ dist : ℝ, euclideanDistance a b = some dist ∧ 0 ≤ dist) ∧
    (euclideanDistance a b = some 0 ↔ a = b) ∧
    (∀ x y : List ℚ, euclideanDistanceDetection x y = euclideanDistance x y) := by
  refine ⟨?_, ?_, ?_, ?_⟩
  · simp only [euclideanDistance, sumSquares_symm a b hlen]
  · obtain ⟨s, hs⟩ := sumSquares_of_length_eq a b hlen.symm
    exact ⟨Real.sqrt (s : ℝ), by simp [euclideanDistance, hs], Real.sqrt_nonneg _⟩
  · constructor
    · intro h
      obtain ⟨s, hs⟩ := sumSquares_of_length_eq a b hlen.symm
      have hs0 : 0 ≤ s := sumSquares_nonneg a b s hs
      simp only [euclideanDistance, hs, Option.map_some', Option.some.injEq] at h
      have hz : (s : ℝ) = 0 := (Real.sqrt_eq_zero (by exact_mod_cast hs0)).1 h
      have hz2 : s = 0 := by exact_mod_cast hz
      exact (sumSquares_eq_zero a b hlen.symm (hz2 ▸ hs)).symm
    · rintro rfl
      simp [euclideanDistance, sumSquares_self]
  · intro x y
    simp only [euclideanDistanceDetection, euclideanDistance, sumSquaresLoop_eq]

/-- C22 on two vectors of length 2: the distance between `[0, 0]` and `[3, 4]` is the same in
both directions and is not 0. -/
theorem euclideanDistance_symm_zero_witness :
    euclideanDistance [0, 0] [3, 4] = euclideanDistance [3, 4] [0, 0] ∧
    euclideanDistance [0, 0] [3, 4] ≠ some 0 := by
  have h := euclideanDistance_symm_zero [0, 0] [3, 4] rfl
  refine ⟨h.1, fun h0 => ?_⟩
  have := h.2.2.1.1 h0
  simp at this

/-! ## Theorems: simulator -/

theorem riskScoreReading_bump (settings : List Setting) (r : Int) (increase : Nat)
    (hr : riskScoreReading settings = some r) (h0 : 0 ≤ r) (h1 : r ≤ 100) :
    riskScoreReading (upsertSetting "risk_score"
        (raisedScore (findSetting "risk_score" settings) increase) settings)
      = some (min 100 (r + increase)) := by
  rw [raisedScore_of_reading settings r increase hr, riskScoreReading_upsert]
  obtain ⟨hp, hne⟩ := parseInt_toString (min 100 (r + increase)) (by omega) (by omega)
  rw [if_neg hne, hp]

theorem simulateEvent_settings (db : Db) (now : Int) (type : String)
    (customRoom customPerson : Option String) (roomDraw : Fin 5) (nameDraw : Fin 3) :
    (simulateEvent db now type customRoom customPerson roomDraw nameDraw).1.settings
      = if type = "intruder" ∨ type = "unknown_face" then (updateRiskScore db 30).settings
        else if type = "fire" then (updateRiskScore db 50).settings
        else if type = "forced_entry" then (updateRiskScore db 40).settings
        else db.settings := by
  unfold simulateEvent
  simp only
  split_ifs <;> first | rfl | (exfalso; simp_all)

theorem simulateEvent_events (db : Db) (now : Int) (type : String)
    (customRoom customPerson : Option String) (roomDraw : Fin 5) (nameDraw : Fin 3) :
    (simulateEvent db now type customRoom customPerson roomDraw nameDraw).1.events
      = db.events ++ [(simulateEvent db now type customRoom customPerson roomDraw nameDraw).2] := by
  unfold simulateEvent
  simp only
  split_ifs <;> rfl

/-- C23: for every prior `risk_score` that reads as `r` in `[0, 100]` (a missing setting
reads as 0) and every store of events, `simulateEvent` leaves the setting at
`min(100, r + inc)` with `inc` 30 for `'intruder'`, 50 for `'fire'` and 40 for
`'forced_entry'`; for every type other than these three and `'unknown_face'` (so for
`'motion'`, `'power_failure'`, `'lockdown'` and every unrecognised type) the settings are
unchanged. -/
theorem simulateEvent_risk_score (db : Db) (now : Int) (customRoom customPerson : Option String)
    (roomDraw : Fin 5) (nameDraw : Fin 3) (r : Int)
    (hr : riskScoreReading db.settings = some r) (h0 : 0 ≤ r) (h1 : r ≤ 100) :
    riskScoreReading
        (simulateEvent db now "intruder" customRoom customPerson roomDraw nameDraw).1.settings
      = some (min 100 (r + 30)) ∧
    riskScoreReading
        (simulateEvent db now "fire" customRoom customPerson roomDraw nameDraw).1.settings
      = some (min 100 (r + 50)) ∧
    riskScoreReading
        (simulateEvent db now "forced_entry" customRoom customPerson roomDraw
          nameDraw).1.settings
      = some (min 100 (r + 40)) ∧
    (∀ type, type ≠ "intruder" → type ≠ "unknown_face" → type ≠ "fire" →
      type ≠ "forced_entry" →
      (simulateEvent db now type customRoom customPerson roomDraw nameDraw).1.settings
        = db.settings) ∧
    (simulateEvent db now "motion" customRoom customPerson roomDraw nameDraw).1.settings
      = db.settings ∧
    (simulateEvent db now "power_failure" customRoom customPerson roomDraw nameDraw).1.settings
      = db.settings ∧
    (simulateEvent db now "lockdown" customRoom customPerson roomDraw nameDraw).1.settings
      = db.settings := by
  have hother : ∀ type, type ≠ "intruder" → type ≠ "unknown_face" → type ≠ "fire" →
      type ≠ "forced_entry" →
      (simulateEvent db now type customRoom customPerson roomDraw nameDraw).1.settings
        = db.settings := by
    intro type hi hu hf he
    rw [simulateEvent_settings, if_neg (fun h => h.elim hi hu), if_neg hf, if_neg he]
  refine ⟨?_, ?_, ?_, hother, hother _ (by decide) (by decide) (by decide) (by decide),
    hother _ (by decide) (by decide) (by decide) (by decide),
    hother _ (by decide) (by decide) (by decide) (by decide)⟩
  · rw [simulateEvent_settings, if_pos (Or.inl rfl)]
    exact riskScoreReading_bump db.settings r 30 hr h0 h1
  · rw [simulateEvent_settings, if_neg (by decide), if_pos rfl]
    exact riskScoreReading_bump db.settings r 50 hr h0 h1
  · rw [simulateEvent_settings, if_neg (by decide), if_neg (by decide), if_pos rfl]
    exact riskScoreReading_bump db.settings r 40 hr h0 h1

/-- C23 on the armed sample database, whose `risk_score` is 90: a simulated fire leaves it
at 100, a simulated power failure at 90. -/
theorem simulateEvent_risk_score_witness :
    riskScoreReading (simulateEvent sampleArmedDb 5 "fire" none none 0 0).1.settings
      = some 100 ∧
    (simulateEvent sampleArmedDb 5 "power_failure" none none 0 0).1.settings
      = sampleArmedDb.settings :=
  ⟨(simulateEvent_risk_score sampleArmedDb 5 none none 0 0 90 (by decide) (by norm_num)
      (by norm_num)).2.1,
   (simulateEvent_risk_score sampleArmedDb 5 none none 0 0 90 (by decide) (by norm_num)
      (by norm_num)).2.2.2.2.2.1⟩

/-- C29: whenever the setting `armed` is missing or has a value other than `'true'`, a tick
of the periodic generator returns the database as it was, with no event appended and no
setting changed, whatever the random draws. -/
theorem simulationTick_disarmed (db : Db) (now : Int) (chance : ℚ) (typeDraw : Fin 4)
    (roomDraw : Fin 5) (nameDraw : Fin 3)
    (h : ∀ st, findSetting "armed" db.settings = some st → st.value ≠ "true") :
    simulationTick db now chance typeDraw roomDraw nameDraw = db := by
  unfold simulationTick
  rw [if_neg]
  rintro ⟨harmed, _⟩
  cases hf : findSetting "armed" db.settings with
  | none => simp [hf] at harmed
  | some st =>
    simp only [hf, Option.map_some', Option.some.injEq] at harmed
    exact h st hf harmed

/-- C29 on the disarmed sample database: a tick with a draw of 0.9 changes nothing, while
the same tick on the armed database appends an event. -/
theorem simulationTick_disarmed_witness :
    simulationTick sampleDisarmedDb 5 (9 / 10) 3 0 0 = sampleDisarmedDb ∧
    (simulationTick sampleArmedDb 5 (9 / 10) 3 0 0).events.length = 1 := by
  refine ⟨simulationTick_disarmed sampleDisarmedDb 5 (9 / 10) 3 0 0 ?_, ?_⟩
  · intro st hst
    have : st = { key := "armed", value := "false" } := by
      have h0 : findSetting "armed" sampleDisarmedDb.settings
          = some { key := "armed", value := "false" } := by decide
      rw [h0] at hst
      exact (Option.some.inj hst).symm
    rw [this]
    decide
  · have harmed : (findSetting "armed" sampleArmedDb.settings).map (fun st => st.value)
        = some "true" := by decide
    unfold simulationTick
    rw [if_pos ⟨harmed, by norm_num⟩, simulateEvent_events]
    simp [sampleArmedDb, Db.empty]

/-! ## Theorems: validation of inputs -/

/-- C26: `POST /detect` with a missing (absent or empty) person name or room, and
`POST /motion` and `POST /clear-motion` with a missing room, answer with their validation
error and return the database (events, identities, settings and all) unchanged. -/
theorem missing_input_rejected (db : Db) (now : Int) :
    (∀ personName room isKnown, truthy personName = false ∨ truthy room = false →
      detect db now personName room isKnown = (db, .nameAndRoomRequired)) ∧
    (∀ room, truthy room = false → motion db now room = (db, .roomRequired)) ∧
    (∀ room, truthy room = false → clearMotion db now room = (db, .roomRequired)) := by
  refine ⟨?_, ?_, ?_⟩
  · intro personName room isKnown h
    unfold detect
    rw [if_pos]
    rcases h with h | h <;> simp [h]
  · intro room h
    unfold motion
    rw [if_pos]
    simp [h]
  · intro room h
    unfold clearMotion
    rw [if_pos]
    simp [h]

/-- C26 on the sample database: a detection without a room, a motion without a room and a
clearing with an empty room are refused and change nothing. -/
theorem missing_input_rejected_witness :
    detect sampleVisitsDb 50 (some "Ann") none true = (sampleVisitsDb, .nameAndRoomRequired) ∧
    motion sampleVisitsDb 50 none = (sampleVisitsDb, .roomRequired) ∧
    clearMotion sampleVisitsDb 50 (some "") = (sampleVisitsDb, .roomRequired) :=
  ⟨(missing_input_rejected sampleVisitsDb 50).1 (some "Ann") none true (Or.inr rfl),
   (missing_input_rejected sampleVisitsDb 50).2.1 none rfl,
   (missing_input_rejected sampleVisitsDb 50).2.2 (some "") rfl⟩

/-- C25, the claim as stated fails: a sighting without a descriptor on a database with no
unknown face and no event is not rejected; it leaves one unknown face, one event and the
`risk_score` at 30. -/
theorem unknownWithImage_no_descriptor_counterexample :
    sampleSettingsDb.unknownFaces = [] ∧ sampleSettingsDb.events = [] ∧
    (unknownWithImage sampleSettingsDb 9 (some "hall") none none none).2.success = true ∧
    (unknownWithImage sampleSettingsDb 9 (some "hall") none none none).1.unknownFaces.length
      = 1 ∧
    (unknownWithImage sampleSettingsDb 9 (some "hall") none none none).1.events.length = 1 ∧
    (unknownWithImage sampleSettingsDb 9 (some "hall") none none none).1.settings
      = [{ key := "risk_score", value := "30" }] := by
  decide

/-- C25, amended: a sighting submitted to `POST /unknown-with-image` without a descriptor,
or with one that cannot be parsed, is not rejected but handled as a new unknown person: one
unknown face without descriptor is appended (`detectionCount = 1`, pending), one
`unknown_face` event of risk level `high` is appended, the `risk_score` is raised by 30
(capped at 100), and the answer says `isNewUnknown = true`. -/
theorem unknownWithImage_no_descriptor (db : Db) (now : Int)
    (room personName imagePath : Option String) :
    (unknownWithImage db now room personName imagePath none).1.unknownFaces
      = db.unknownFaces ++
          [{ id := db.nextId, faceDescriptor := none, imagePath := imagePath,
             firstSeen := now, lastSeen := now, detectionCount := 1, alertSent := true,
             status := "pending" }] ∧
    (∃ e : Event, e.type = "unknown_face" ∧ e.riskLevel = "high" ∧
      (unknownWithImage db now room personName imagePath none).1.events
        = db.events ++ [e]) ∧
    (unknownWithImage db now room personName imagePath none).1.settings
      = bumpRiskScore 30 db.settings ∧
    (unknownWithImage db now room personName imagePath none).2.isNewUnknown = true ∧
    (unknownWithImage db now room personName imagePath none).2.success = true := by
  refine ⟨rfl, ⟨_, ?_, ?_, rfl⟩, rfl, rfl, rfl⟩ <;> rfl

/-! ## Theorems: room state projector, idle zones and foreign rooms -/

theorem applyRoomStates_congr (rs1 rs2 : List (String × RoomState))
    (h : ∀ z ∈ roomNames, getRoomState z rs1 = getRoomState z rs2) :
    applyRoomStates rs1 = applyRoomStates rs2 := by
  unfold applyRoomStates
  apply List.map_congr_left
  intro entry hentry
  have hz : entry.1 ∈ roomNames := List.mem_map.2 ⟨entry, hentry, rfl⟩
  rw [h entry.1 hz]

theorem applyRoomStates_idle (rs : List (String × RoomState))
    (h : ∀ z ∈ roomNames, getRoomState z rs = none) : applyRoomStates rs = initialRooms := by
  have hnil : applyRoomStates [] = initialRooms := rfl
  rw [← hnil]
  exact applyRoomStates_congr rs [] (fun z hz => by rw [h z hz]; rfl)

theorem roomView_idle (rs : List (String × RoomState)) (z : String) (hz : z ∈ roomNames)
    (h : getRoomState z rs = none) :
    roomView (applyRoomStates rs) z = roomView initialRooms z := by
  have hcases : z = "hall" ∨ z = "kitchen" ∨ z = "bedroom" ∨ z = "garden" ∨
      z = "living_room" := by
    simpa [roomNames, initialRooms] using hz
  rcases hcases with rfl | rfl | rfl | rfl | rfl
  · simp [roomView, applyRoomStates, initialRooms, h]
  · cases hg1 : getRoomState "hall" rs <;>
      simp [roomView, applyRoomStates, initialRooms, h, hg1]
  · cases hg1 : getRoomState "hall" rs <;>
      cases hg2 : getRoomState "kitchen" rs <;>
      simp [roomView, applyRoomStates, initialRooms, h, hg1, hg2]
  · cases hg1 : getRoomState "hall" rs <;>
      cases hg2 : getRoomState "kitchen" rs <;>
      cases hg3 : getRoomState "bedroom" rs <;>
      simp [roomView, applyRoomStates, initialRooms, h, hg1, hg2, hg3]
  · cases hg1 : getRoomState "hall" rs <;>
      cases hg2 : getRoomState "kitchen" rs <;>
      cases hg3 : getRoomState "bedroom" rs <;>
      cases hg4 : getRoomState "garden" rs <;>
      simp [roomView, applyRoomStates, initialRooms, h, hg1, hg2, hg3, hg4]

theorem eventsOfRoom_ownRoomEvents (z : String) (hz : z ∈ roomNames) (events : List Event) :
    eventsOfRoom z (ownRoomEvents events) = eventsOfRoom z events := by
  unfold eventsOfRoom ownRoomEvents
  rw [List.filter_filter]
  apply List.filter_congr
  intro e _
  by_cases hr : e.room = some z
  · simp [hr, hz]
  · simp [hr]

theorem plainRooms_ownRoomEvents (g : Intrinsics) (events : List Event) :
    PlainRooms g (ownRoomEvents events) := by
  intro e he
  obtain ⟨_, hown⟩ := List.mem_filter.1 he
  unfold plainRoom
  cases hr : e.room with
  | none => rfl
  | some room =>
    simp only [hr] at hown
    simp [hown]

theorem projectRooms_ownRoomEvents (g : Intrinsics) (events : List Event)
    (h : PlainRooms g events) :
    projectRooms g events = projectRooms g (ownRoomEvents events) := by
  obtain ⟨acc1, h1⟩ := scanEvents_ok_of_plain events { roomStates := [], intrinsics := g } h
  obtain ⟨acc2, h2⟩ := scanEvents_ok_of_plain (ownRoomEvents events)
    { roomStates := [], intrinsics := g } (plainRooms_ownRoomEvents g events)
  simp only [projectRooms, h1, h2]
  congr 1
  apply applyRoomStates_congr
  intro z hz
  rw [scanEvents_roomState z hz events _ acc1 h1,
    scanEvents_roomState z hz (ownRoomEvents events) _ acc2 h2,
    eventsOfRoom_ownRoomEvents z hz events]

/-- C24, the behaviour of the code at the failing input, and what holds beside it. After
`POST /detect` with the room `'constructor'`, which is none of the five zones, the window
holds a detection event and a motion event for that room, and `GET /house-state` throws
(`rooms['constructor']` is found through the prototype chain and has no `people`) instead
of reporting the five idle zones that the empty window gives. Beside that: the projection
of the empty window is the five idle zones with their access points closed; a zone without
events in the window is reported in that default state whenever a result is returned; and
events of other rooms change nothing when none of them names an inherited property. -/
theorem projectRooms_inherited_room :
    recentEventsNewestFirst sampleConstructorDb.events 20
      = [{ id := 0, type := "detection", room := some "constructor", personName := some "x",
           personId := none, riskLevel := "low",
           description := some "x detected in constructor", imagePath := none,
           timestamp := 10 },
         { id := 1, type := "motion", room := some "constructor", personName := none,
           personId := none, riskLevel := "low",
           description := some "Motion detected in constructor (x entered)",
           imagePath := none, timestamp := 10 }] ∧
    "constructor" ∉ roomNames ∧
    houseState Intrinsics.fresh sampleConstructorDb 20
      = .error "TypeError: cannot read properties of undefined (reading add)" ∧
    houseState Intrinsics.fresh Db.empty 20 = .ok initialRooms ∧
    (∀ g, projectRooms g [] = .ok initialRooms) ∧
    (∀ z ∈ roomNames,
      (roomView initialRooms z).map (fun v => (v.motion, v.people, v.accessPoint.2))
        = some (false, [], "closed")) ∧
    (∀ g events rooms z, projectRooms g events = .ok rooms → z ∈ roomNames →
      eventsOfRoom z events = [] → roomView rooms z = roomView initialRooms z) ∧
    (∀ g events, PlainRooms g events →
      projectRooms g events = projectRooms g (ownRoomEvents events)) := by
  refine ⟨by decide, by decide, by rfl, by rfl, fun _ => rfl, by decide, ?_,
    projectRooms_ownRoomEvents⟩
  intro g events rooms z hrooms hz hnone
  obtain ⟨acc2, hscan, rfl⟩ := projectRooms_eq_ok g events rooms hrooms
  have hfold := scanEvents_roomState z hz events _ acc2 hscan
  rw [hnone] at hfold
  exact roomView_idle acc2.roomStates z hz hfold

/-! ## Theorems: visitor pattern -/

theorem frequencyOf_cases (v : ℚ) :
    (frequencyOf v = "daily" ↔ 2 < v) ∧
    (frequencyOf v = "frequent" ↔ 1 / 2 < v ∧ v ≤ 2) ∧
    (frequencyOf v = "occasional" ↔ 1 / 10 < v ∧ v ≤ 1 / 2) ∧
    (frequencyOf v = "rare" ↔ v ≤ 1 / 10) := by
  have h12 : ("daily" : String) ≠ "frequent" := by decide
  have h13 : ("daily" : String) ≠ "occasional" := by decide
  have h14 : ("daily" : String) ≠ "rare" := by decide
  have h23 : ("frequent" : String) ≠ "occasional" := by decide
  have h24 : ("frequent" : String) ≠ "rare" := by decide
  have h34 : ("occasional" : String) ≠ "rare" := by decide
  unfold frequencyOf
  by_cases h1 : v > 2
  · rw [if_pos h1]
    exact ⟨⟨fun _ => h1, fun _ => rfl⟩,
      ⟨fun h => absurd h h12, fun h => absurd h.2 (not_le.2 h1)⟩,
      ⟨fun h => absurd h h13, fun h => absurd h.2 (by linarith)⟩,
      ⟨fun h => absurd h h14, fun h => absurd h (by linarith)⟩⟩
  · rw [if_neg h1]
    have h1le : v ≤ 2 := not_lt.1 h1
    by_cases h2 : v > 1 / 2
    · rw [if_pos h2]
      exact ⟨⟨fun h => absurd h.symm h12, fun h => absurd h h1⟩,
        ⟨fun _ => ⟨h2, h1le⟩, fun _ => rfl⟩,
        ⟨fun h => absurd h h23, fun h => absurd h.2 (not_le.2 h2)⟩,
        ⟨fun h => absurd h h24, fun h => absurd h (by linarith)⟩⟩
    · rw [if_neg h2]
      have h2le : v ≤ 1 / 2 := not_lt.1 h2
      by_cases h3 : v > 1 / 10
      · rw [if_pos h3]
        exact ⟨⟨fun h => absurd h.symm h13, fun h => absurd h h1⟩,
          ⟨fun h => absurd h.symm h23, fun h => absurd h.1 h2⟩,
          ⟨fun _ => ⟨h3, h2le⟩, fun _ => rfl⟩,
          ⟨fun h => absurd h h34, fun h => absurd h (not_le.2 h3)⟩⟩
      · rw [if_neg h3]
        exact ⟨⟨fun h => absurd h.symm h14, fun h => absurd h h1⟩,
          ⟨fun h => absurd h.symm h24, fun h => absurd h.1 h2⟩,
          ⟨fun h => absurd h.symm h34, fun h => absurd h.1 h3⟩,
          ⟨fun _ => not_lt.1 h3, fun _ => rfl⟩⟩

theorem recentVisits_sorted (events : List Event) (personId : Nat) :
    (recentVisits events personId).Sorted (fun a b => a.timestamp ≥ b.timestamp) := by
  haveI : IsTotal Event (fun a b => a.timestamp ≥ b.timestamp) :=
    ⟨fun a b => le_total b.timestamp a.timestamp⟩
  haveI : IsTrans Event (fun a b => a.timestamp ≥ b.timestamp) :=
    ⟨fun a b c h1 h2 => le_trans h2 h1⟩
  unfold recentVisits
  exact List.Pairwise.sublist (List.take_sublist _ _) (List.sorted_insertionSort _ _)

theorem sorted_head_last (visits : List Event)
    (hs : visits.Sorted (fun a b => a.timestamp ≥ b.timestamp)) (hne : visits ≠ []) :
    ∃ newest oldest, visits.head? = some newest ∧ visits.getLast? = some oldest ∧
      ∀ e ∈ visits, oldest.timestamp ≤ e.timestamp ∧ e.timestamp ≤ newest.timestamp := by
  cases hv : visits with
  | nil => exact absurd hv hne
  | cons newest rest =>
    have hlast : ∃ oldest, (newest :: rest).getLast? = some oldest := by
      cases h : (newest :: rest).getLast? with
      | none => simp at h
      | some oldest => exact ⟨oldest, rfl⟩
    obtain ⟨oldest, hold⟩ := hlast
    refine ⟨newest, oldest, rfl, hold, ?_⟩
    obtain ⟨init, hinit⟩ := List.getLast?_eq_some_iff.1 hold
    rw [hv] at hs
    intro e he
    constructor
    · rw [hinit] at hs he
      rcases List.mem_append.1 he with hin | hin
      · exact (List.pairwise_append.1 hs).2.2 e hin oldest (List.mem_singleton.2 rfl)
      · rw [List.mem_singleton.1 hin]
    · rcases List.mem_cons.1 he with rfl | hin
      · exact le_refl _
      · exact List.rel_of_sorted_cons hs e hin

/-- C27: for an identity with events, `analyzeVisitorPattern` looks at its at most 50 newest
events, takes `v` = (number of these events) / (days between the oldest and the newest of
them, 1 when that span is zero) and returns the frequency `'daily'` iff `v > 2`,
`'frequent'` iff `0.5 < v <= 2`, `'occasional'` iff `0.1 < v <= 0.5` and `'rare'` iff
`v <= 0.1`; for an identity without events it returns the pattern `'new'` and the frequency
`'rare'`. Arithmetic is exact. -/
theorem analyzeVisitorPattern_frequency (db : Db) (personId : Nat) (hourOf : Int → Nat) :
    ((∀ e ∈ db.events, e.personId ≠ some personId) →
      analyzeVisitorPattern db personId hourOf
        = { pattern := "new", frequency := "rare", totalVisits := none, nightVisits := none,
            daysBetween := none }) ∧
    ((∃ e ∈ db.events, e.personId = some personId) →
      ∃ newest oldest : Event,
        (recentVisits db.events personId).head? = some newest ∧
        (recentVisits db.events personId).getLast? = some oldest ∧
        (recentVisits db.events personId).length ≤ 50 ∧
        0 < (recentVisits db.events personId).length ∧
        (∀ e ∈ recentVisits db.events personId,
          e ∈ db.events ∧ e.personId = some personId ∧
          oldest.timestamp ≤ e.timestamp ∧ e.timestamp ≤ newest.timestamp) ∧
        ∀ days v : ℚ,
          days = ((newest.timestamp - oldest.timestamp : Int) : ℚ) / 86400000 →
          v = ((recentVisits db.events personId).length : ℚ) / (if days = 0 then 1 else days) →
          ((analyzeVisitorPattern db personId hourOf).frequency = "daily" ↔ 2 < v) ∧
          ((analyzeVisitorPattern db personId hourOf).frequency = "frequent"
            ↔ 1 / 2 < v ∧ v ≤ 2) ∧
          ((analyzeVisitorPattern db personId hourOf).frequency = "occasional"
            ↔ 1 / 10 < v ∧ v ≤ 1 / 2) ∧
          ((analyzeVisitorPattern db personId hourOf).frequency = "rare" ↔ v ≤ 1 / 10)) := by
  constructor
  · intro hnone
    have hfilter : db.events.filter (fun e => e.personId = some personId) = [] := by
      rw [List.filter_eq_nil_iff]
      intro e he
      simpa using hnone e he
    have hvisits : recentVisits db.events personId = [] := by
      simp [recentVisits, hfilter]
    simp [analyzeVisitorPattern, analyzeVisits, hvisits]
  · rintro ⟨e0, he0, hid0⟩
    have hmem : ∀ e, e ∈ recentVisits db.events personId →
        e ∈ db.events ∧ e.personId = some personId := by
      intro e he
      have h1 := (List.mem_insertionSort _).1 (List.mem_of_mem_take he)
      obtain ⟨h2, h3⟩ := List.mem_filter.1 h1
      exact ⟨h2, by simpa using h3⟩
    have hne : recentVisits db.events personId ≠ [] := by
      have hin : e0 ∈ (db.events.filter (fun e => e.personId = some personId)).insertionSort
          (fun a b => a.timestamp ≥ b.timestamp) :=
        (List.mem_insertionSort _).2 (List.mem_filter.2 ⟨he0, by simpa using hid0⟩)
      intro hnil
      unfold recentVisits at hnil
      rcases List.take_eq_nil_iff.1 hnil with h50 | hsorted
      · omega
      · rw [hsorted] at hin
        exact absurd hin (List.not_mem_nil _)
    obtain ⟨newest, oldest, hhead, hlast, horder⟩ :=
      sorted_head_last _ (recentVisits_sorted db.events personId) hne
    refine ⟨newest, oldest, hhead, hlast, List.length_take_le _ _,
      List.length_pos.2 hne, fun e he => ⟨(hmem e he).1, (hmem e he).2, horder e he⟩, ?_⟩
    intro days v hdays hv
    have hlen : (recentVisits db.events personId).length ≠ 0 :=
      fun h => hne (List.length_eq_zero.1 h)
    have hd : daysBetweenVisits (recentVisits db.events personId) = days := by
      simp only [daysBetweenVisits, hhead, hlast, hdays]
    have hfreq : (analyzeVisitorPattern db personId hourOf).frequency = frequencyOf v := by
      simp only [analyzeVisitorPattern, analyzeVisits, hlen, if_false, visitsPerDay, hd, hv]
    rw [hfreq]
    exact frequencyOf_cases v

/-- C27 on ten visits over nine days: the span is 9 days, `v = 10 / 9`, and the frequency is
`'frequent'`; an identity without events is `'new'` and `'rare'`. -/
theorem analyzeVisitorPattern_frequency_witness :
    (analyzeVisitorPattern sampleTenVisitsDb 0 sampleHourOf).frequency = "frequent" ∧
    (analyzeVisitorPattern sampleTenVisitsDb 7 sampleHourOf).pattern = "new" := by
  have hnew := (analyzeVisitorPattern_frequency sampleTenVisitsDb 7 sampleHourOf).1 (by decide)
  refine ⟨?_, by rw [hnew]⟩
  obtain ⟨newest, oldest, hhead, hlast, _, _, _, hfreq⟩ :=
    (analyzeVisitorPattern_frequency sampleTenVisitsDb 0 sampleHourOf).2
      ⟨sampleVisitAt 0 0 12, by decide, by decide⟩
  have hhead9 : (recentVisits sampleTenVisitsDb.events 0).head? = some (sampleVisitAt 9 9 12) := by
    decide
  have hlast0 : (recentVisits sampleTenVisitsDb.events 0).getLast?
      = some (sampleVisitAt 0 0 12) := by
    decide
  have hn : newest = sampleVisitAt 9 9 12 := Option.some.inj (hhead.symm.trans hhead9)
  have ho : oldest = sampleVisitAt 0 0 12 := Option.some.inj (hlast.symm.trans hlast0)
  have hl : (recentVisits sampleTenVisitsDb.events 0).length = 10 := by decide
  refine ((hfreq 9 (10 / 9) ?_ ?_).2.1).2 (by norm_num)
  · rw [hn, ho]
    norm_num [sampleVisitAt]
  · rw [hl]
    norm_num

theorem night_fraction_iff (night n : Nat) :
    ((night : ℚ) > (n : ℚ) * (3 / 10)) ↔ 3 * n < 10 * night := by
  constructor
  · intro h
    have h2 : (3 * n : ℚ) < 10 * night := by linarith
    exact_mod_cast h2
  · intro h
    have h2 : (3 * n : ℚ) < 10 * night := by exact_mod_cast h
    linarith

/-- C28: for every non-empty list of visits, `analyzeVisitorPattern` returns the pattern
`'suspicious'` iff the visits whose local hour `h` satisfies `h >= 22 || h <= 6` are strictly
more than 30% of the visits (`10 * night > 3 * n`), and `'normal'` otherwise, so exactly 30%
is `'normal'`; the test on the hour is the one `calculateRiskScore` reports as
`factors.nightTime`. -/
theorem analyzeVisits_pattern (visits : List Event) (hourOf : Int → Nat) (hne : visits ≠ []) :
    ((analyzeVisits visits hourOf).pattern = "suspicious"
      ↔ 3 * visits.length
          < 10 * visits.countP (fun v =>
              decide (22 ≤ hourOf v.timestamp ∨ hourOf v.timestamp ≤ 6))) ∧
    ((analyzeVisits visits hourOf).pattern = "normal"
      ↔ 10 * visits.countP (fun v =>
              decide (22 ≤ hourOf v.timestamp ∨ hourOf v.timestamp ≤ 6))
          ≤ 3 * visits.length) ∧
    (analyzeVisits visits hourOf).nightVisits
      = some (visits.countP (fun v =>
          decide (22 ≤ hourOf v.timestamp ∨ hourOf v.timestamp ≤ 6))) ∧
    (∀ (db : Db) (now : Int) (hour : Nat),
      (calculateRiskScore db now hour).2.factors.nightTime
        = decide (22 ≤ hour ∨ hour ≤ 6)) ∧
    (∀ (db : Db) (personId : Nat),
      analyzeVisitorPattern db personId hourOf
        = analyzeVisits (recentVisits db.events personId) hourOf) := by
  have hsn : ("suspicious" : String) ≠ "normal" := by decide
  have hlen : visits.length ≠ 0 := fun h => hne (List.length_eq_zero.1 h)
  have hcount : (visits.filter (fun v => isNightHour (hourOf v.timestamp))).length
      = visits.countP (fun v =>
          decide (22 ≤ hourOf v.timestamp ∨ hourOf v.timestamp ≤ 6)) := by
    rw [List.countP_eq_length_filter]
    congr 1
    apply List.filter_congr
    intro v _
    simp [isNightHour]
  have hpat : (analyzeVisits visits hourOf).pattern
      = if 3 * visits.length
            < 10 * visits.countP (fun v =>
                decide (22 ≤ hourOf v.timestamp ∨ hourOf v.timestamp ≤ 6))
        then "suspicious" else "normal" := by
    simp only [analyzeVisits, hlen, if_false, hcount, night_fraction_iff, decide_eq_true_eq]
  refine ⟨?_, ?_, ?_, ?_, fun _ _ => rfl⟩
  · rw [hpat]
    split_ifs with h
    · exact ⟨fun _ => h, fun _ => rfl⟩
    · exact ⟨fun hh => absurd hh.symm hsn, fun hh => absurd hh h⟩
  · rw [hpat]
    split_ifs with h
    · exact ⟨fun hh => absurd hh hsn, fun hh => absurd h (by omega)⟩
    · exact ⟨fun _ => by omega, fun _ => rfl⟩
  · simp only [analyzeVisits, hlen, if_false, hcount]
  · intro db now hour
    simp [calculateRiskScore, isNightHour]

/-- C28 on ten visits of which three are at 23 h: exactly 30% of the visits are at night and
the pattern is `'normal'`. -/
theorem analyzeVisits_pattern_witness :
    (analyzeVisitorPattern sampleTenVisitsDb 0 sampleHourOf).pattern = "normal" ∧
    (analyzeVisitorPattern sampleTenVisitsDb 0 sampleHourOf).nightVisits = some 3 ∧
    (analyzeVisitorPattern sampleTenVisitsDb 0 sampleHourOf).totalVisits = some 10 := by
  have hv : recentVisits sampleTenVisitsDb.events 0 ≠ [] := by decide
  have h := analyzeVisits_pattern (recentVisits sampleTenVisitsDb.events 0) sampleHourOf hv
  refine ⟨?_, by decide, by decide⟩
  exact h.2.1.2 (by decide)

/-! ## Theorems: sightings and the risk score -/

theorem bumpDetection_keeps (id : Nat) (now : Int) :
    ∀ (us : List UnknownFace) (u : UnknownFace), u ∈ us →
      ∃ w ∈ bumpDetection id now us,
        w.status = u.status ∧ w.faceDescriptor = u.faceDescriptor
  | [], _, h => absurd h (List.not_mem_nil _)
  | v :: us, u, h => by
    by_cases hv : v.id = id
    · simp only [bumpDetection, if_pos hv]
      rcases List.mem_cons.1 h with rfl | hin
      · exact ⟨_, List.mem_cons_self _ _, rfl, rfl⟩
      · exact ⟨u, List.mem_cons_of_mem _ hin, rfl, rfl⟩
    · simp only [bumpDetection, if_neg hv]
      rcases List.mem_cons.1 h with rfl | hin
      · exact ⟨u, List.mem_cons_self _ _, rfl, rfl⟩
      · obtain ⟨w, hw, h1, h2⟩ := bumpDetection_keeps id now us u hin
        exact ⟨w, List.mem_cons_of_mem _ hw, h1, h2⟩

theorem findPending_isSome (d : List ℚ) (us : List UnknownFace)
    (hex : ∃ u ∈ us, PendingMatch d u) : ∃ u, findPending d us = some u := by
  cases hf : findPending d us with
  | some u => exact ⟨u, rfl⟩
  | none =>
    obtain ⟨u, hu, hm⟩ := hex
    exact absurd hm ((findPending_eq_none d us).1 hf u hu)

theorem unknownWithImage_merged (db : Db) (now : Int)
    (room personName imagePath : Option String) (d : List ℚ)
    (hex : ∃ u ∈ db.unknownFaces, PendingMatch d u) :
    (unknownWithImage db now room personName imagePath (some d)).1.events = db.events ∧
    (unknownWithImage db now room personName imagePath (some d)).1.settings = db.settings ∧
    (unknownWithImage db now room personName imagePath (some d)).2.event = none ∧
    ∀ d2 : List ℚ, (∃ u ∈ db.unknownFaces, PendingMatch d2 u) →
      ∃ u ∈ (unknownWithImage db now room personName imagePath (some d)).1.unknownFaces,
        PendingMatch d2 u := by
  obtain ⟨u, hu⟩ := findPending_isSome d db.unknownFaces hex
  refine ⟨?_, ?_, ?_, ?_⟩
  · simp only [unknownWithImage, hu]
  · simp only [unknownWithImage, hu]
  · simp only [unknownWithImage, hu]
  · rintro d2 ⟨v, hv, hstatus, ud, hud, hnear⟩
    obtain ⟨w, hw, h1, h2⟩ := bumpDetection_keeps u.id now db.unknownFaces v hv
    refine ⟨w, ?_, h1.trans hstatus, ud, h2.trans hud, hnear⟩
    simp only [unknownWithImage, hu]
    exact hw

theorem sightings_merged (room personName imagePath : Option String) :
    ∀ (run : List (Int × List ℚ)) (db : Db),
      (∀ s ∈ run, ∃ u ∈ db.unknownFaces, PendingMatch s.2 u) →
      (sightings db room personName imagePath run).events = db.events ∧
      (sightings db room personName imagePath run).settings = db.settings
  | [], _, _ => ⟨rfl, rfl⟩
  | (now, d) :: rest, db, h => by
    obtain ⟨hev, hset, _, hkeep⟩ :=
      unknownWithImage_merged db now room personName imagePath d
        (h (now, d) (List.mem_cons_self _ _))
    obtain ⟨h1, h2⟩ := sightings_merged room personName imagePath rest
      (unknownWithImage db now room personName imagePath (some d)).1
      (fun s hs => hkeep s.2 (h s (List.mem_cons_of_mem _ hs)))
    simp only [sightings]
    exact ⟨h1.trans hev, h2.trans hset⟩

theorem riskScoreReading_bumpRiskScore (settings : List Setting) (r : Int) (increase : Nat)
    (hr : riskScoreReading settings = some r) (h0 : 0 ≤ r) :
    riskScoreReading (bumpRiskScore increase settings) = some (min 100 (r + increase)) := by
  unfold bumpRiskScore
  rw [raisedScore_of_reading settings r increase hr, riskScoreReading_upsert]
  obtain ⟨hp, hne⟩ := parseInt_toString (min 100 (r + increase)) (by omega) (by omega)
  rw [if_neg hne, hp]

/-- C30: (1) a sighting whose descriptor is near a pending record (a repeat sighting, merged
by the deduplicator) appends no event and leaves every setting, so the `risk_score`,
unchanged; (2) a sighting whose descriptor is far from every pending record appends exactly
one event, of type `'unknown_face'` with riskLevel `'high'`, and sets `risk_score` to
`min(100, old + 30)` when the old value reads as a non-negative integer; (3) every run of
sightings that are each near a record pending at the start leaves the events and the
settings unchanged, hence also the hourly aggregate, the 10-minute burst count and the whole
result of `calculateRiskScore` at every time; (4) after a new sighting of `d`, every run of
further sightings of `d` leaves the events at the old ones plus that one event. -/
theorem unknownWithImage_risk_frame :
    (∀ (db : Db) (now : Int) (room personName imagePath : Option String) (d : List ℚ),
      (∃ u ∈ db.unknownFaces, PendingMatch d u) →
      (unknownWithImage db now room personName imagePath (some d)).1.events = db.events ∧
      (unknownWithImage db now room personName imagePath (some d)).1.settings = db.settings ∧
      (unknownWithImage db now room personName imagePath (some d)).2.event = none)
    ∧
    (∀ (db : Db) (now : Int) (room personName imagePath : Option String) (d : List ℚ)
        (r : Int),
      FarFromPending d db.unknownFaces →
      riskScoreReading db.settings = some r → 0 ≤ r →
      ∃ e : Event,
        (unknownWithImage db now room personName imagePath (some d)).1.events
          = db.events ++ [e] ∧
        e.type = "unknown_face" ∧ e.riskLevel = "high" ∧ e.timestamp = now ∧
        (unknownWithImage db now room personName imagePath (some d)).2.event = some e ∧
        (unknownWithImage db now room personName imagePath (some d)).1.events.length
          = db.events.length + 1 ∧
        riskScoreReading
            (unknownWithImage db now room personName imagePath (some d)).1.settings
          = some (min 100 (r + 30)))
    ∧
    (∀ (db : Db) (room personName imagePath : Option String) (run : List (Int × List ℚ)),
      (∀ s ∈ run, ∃ u ∈ db.unknownFaces, PendingMatch s.2 u) →
      (sightings db room personName imagePath run).events = db.events ∧
      (sightings db room personName imagePath run).settings = db.settings ∧
      ∀ (now : Int) (hour : Nat),
        countInWindow (sightings db room personName imagePath run).events now (60 * 60 * 1000)
            (fun e => e.riskLevel = "high")
          = countInWindow db.events now (60 * 60 * 1000) (fun e => e.riskLevel = "high") ∧
        countInWindow (sightings db room personName imagePath run).events now (60 * 60 * 1000)
            (fun e => e.type = "unknown_face")
          = countInWindow db.events now (60 * 60 * 1000) (fun e => e.type = "unknown_face") ∧
        countInWindow (sightings db room personName imagePath run).events now (10 * 60 * 1000)
            (fun e => e.type = "unknown_face")
          = countInWindow db.events now (10 * 60 * 1000) (fun e => e.type = "unknown_face") ∧
        (calculateRiskScore (sightings db room personName imagePath run) now hour).2
          = (calculateRiskScore db now hour).2)
    ∧
    (∀ (db : Db) (now : Int) (room personName imagePath : Option String) (d : List ℚ)
        (times : List Int),
      FarFromPending d db.unknownFaces →
      (sightings db room personName imagePath ((now, d) :: times.map (fun t => (t, d)))).events
        = (unknownWithImage db now room personName imagePath (some d)).1.events ∧
      (sightings db room personName imagePath
          ((now, d) :: times.map (fun t => (t, d)))).events.length
        = db.events.length + 1) := by
  refine ⟨?_, ?_, ?_, ?_⟩
  · intro db now room personName imagePath d hex
    obtain ⟨h1, h2, h3, _⟩ := unknownWithImage_merged db now room personName imagePath d hex
    exact ⟨h1, h2, h3⟩
  · intro db now room personName imagePath d r hfar hr h0
    have hf : findPending d db.unknownFaces = none := (farFromPending_iff d _).1 hfar
    have hread := riskScoreReading_bumpRiskScore db.settings r 30 hr h0
    simp only [unknownWithImage, hf]
    exact ⟨_, rfl, rfl, rfl, rfl, rfl,
      by simp only [List.length_append, List.length_singleton], hread⟩
  · intro db room personName imagePath run hrun
    obtain ⟨hev, hset⟩ := sightings_merged room personName imagePath run db hrun
    refine ⟨hev, hset, fun now hour => ⟨by rw [hev], by rw [hev], by rw [hev], ?_⟩⟩
    simp only [calculateRiskScore, hev]
  · intro db now room personName imagePath d times hfar
    have hf : findPending d db.unknownFaces = none := (farFromPending_iff d _).1 hfar
    have hcreated : ∃ u ∈ (unknownWithImage db now room personName imagePath
        (some d)).1.unknownFaces, PendingMatch d u := by
      refine ⟨{ id := db.nextId, faceDescriptor := some d, imagePath := imagePath,
                firstSeen := now, lastSeen := now, detectionCount := 1, alertSent := true,
                status := "pending" }, ?_, rfl, d, rfl, rfl, 0, ?_, by norm_num⟩
      · simp only [unknownWithImage, hf]
        exact List.mem_append_right _ (List.mem_singleton.2 rfl)
      · simp [euclideanDistance, sumSquares_self]
    have hrun := (sightings_merged room personName imagePath (times.map (fun t => (t, d)))
      (unknownWithImage db now room personName imagePath (some d)).1
      (fun s hs => by
        obtain ⟨t, _, rfl⟩ := List.mem_map.1 hs
        exact hcreated)).1
    have hstep : sightings db room personName imagePath ((now, d) :: times.map (fun t => (t, d)))
        = sightings (unknownWithImage db now room personName imagePath (some d)).1
            room personName imagePath (times.map (fun t => (t, d))) := rfl
    rw [hstep, hrun]
    refine ⟨rfl, ?_⟩
    simp only [unknownWithImage, hf, List.length_append, List.length_singleton]

/-- C30 on a store with one pending record at `[1, 2]`, an empty log and no `risk_score`:
three sightings of `[1, 2]` leave the log empty and the settings untouched; one sighting of
`[3, 4]` logs one event and sets `risk_score` to 30. -/
theorem unknownWithImage_risk_frame_witness :
    (sightings samplePendingDb none none none [(6, [1, 2]), (7, [1, 2]), (8, [1, 2])]).events
      = [] ∧
    (sightings samplePendingDb none none none [(6, [1, 2]), (7, [1, 2]), (8, [1, 2])]).settings
      = [] ∧
    riskScoreReading
        (unknownWithImage samplePendingDb 9 none none none (some [3, 4])).1.settings
      = some 30 ∧
    (unknownWithImage samplePendingDb 9 none none none (some [3, 4])).1.events.length
      = 1 := by
  have hnear : PendingMatch [1, 2] samplePending := by
    refine ⟨rfl, [1, 2], rfl, rfl, 0, ?_, by norm_num⟩
    simp [euclideanDistance, sumSquares_self]
  have hfar : FarFromPending [3, 4] samplePendingDb.unknownFaces := by
    rw [farFromPending_iff]
    simp [findPending, samplePendingDb, samplePending, sameUnknown, sumSquares,
      withinThreshold, thresholdSq]
    norm_num
  have hrun := unknownWithImage_risk_frame.2.2.1 samplePendingDb none none none
    [(6, [1, 2]), (7, [1, 2]), (8, [1, 2])]
    (fun s hs => by
      have hs2 : s.2 = [1, 2] := by
        simp only [List.mem_cons, List.mem_singleton, List.not_mem_nil, or_false] at hs
        rcases hs with rfl | rfl | rfl <;> rfl
      rw [hs2]
      exact ⟨samplePending, List.mem_singleton.2 rfl, hnear⟩)
  obtain ⟨e, _, _, _, _, _, hlen, hread⟩ :=
    unknownWithImage_risk_frame.2.1 samplePendingDb 9 none none none [3, 4] 0 hfar
      (by decide) (le_refl 0)
  exact ⟨hrun.1, hrun.2.1, hread, hlen⟩

end HomeSecurity
